import Mathlib

/-!
Verification of the mosyle2snipe reconciliation engine.

This file gives a shallow embedding, in Lean, of the two Python source files
of the repository (`mosyle2snipe.py` and `mosyle_api.py`) and settles the
frozen claims about them.  Every definition is translated from the source
code; the comments on each definition cite the source lines it embeds.
-/

namespace Mosyle2Snipe

/-! ## Python string primitives

`mosyle2snipe.py` lines 418-419 compute, for mobile devices,

    index = mosyle_asset_tag.find('-')
    mosyle_asset_tag = mosyle_asset_tag[:index] + "-m" + mosyle_asset_tag[index:]

`str.find` returns the index of the first occurrence or -1, and Python
slices interpret a negative bound as counting from the end of the string
(clamped at 0).  The definitions below embed exactly these semantics.
-/

/-- Index of the first occurrence of a dash in a character list
(the list-level core of Python `s.find('-')`); `none` when absent. -/
def firstDashIdx : List Char → Option Nat
  | [] => none
  | c :: cs => if c = '-' then some 0 else (firstDashIdx cs).map (· + 1)

/-- Python `s.find('-')`: first index of a dash, or -1 when there is none. -/
def pyFindDash (s : String) : Int :=
  match firstDashIdx s.data with
  | some i => (i : Int)
  | none => -1

/-- Python slice `s[:i]` for a possibly negative integer bound `i`:
a negative bound counts from the end of the string, and the effective
index is clamped to the interval `[0, len(s)]`. -/
def pySliceTo (s : String) (i : Int) : String :=
  String.mk (s.data.take (if i < 0 then (s.data.length : Int) + i else i).toNat)

/-- Python slice `s[i:]` for a possibly negative integer bound `i`,
with the same index normalisation as `pySliceTo`. -/
def pySliceFrom (s : String) (i : Int) : String :=
  String.mk (s.data.drop (if i < 0 then (s.data.length : Int) + i else i).toNat)

/-- The mobile asset-tag transformation of `mosyle2snipe.py` lines 418-419:
`index = tag.find('-'); tag = tag[:index] + "-m" + tag[index:]`. -/
def mobileTagTransform (tag : String) : String :=
  pySliceTo tag (pyFindDash tag) ++ "-m" ++ pySliceFrom tag (pyFindDash tag)

theorem firstDashIdx_append_cons (l₁ l₂ : List Char) (h : ∀ c ∈ l₁, c ≠ '-') :
    firstDashIdx (l₁ ++ '-' :: l₂) = some l₁.length := by
  induction l₁ with
  | nil => simp [firstDashIdx]
  | cons c cs ih =>
    have hc : c ≠ '-' := h c (by simp)
    have ih2 := ih (fun x hx => h x (by simp [hx]))
    simp [firstDashIdx, hc, ih2]

theorem firstDashIdx_eq_none (l : List Char) (h : ∀ c ∈ l, c ≠ '-') :
    firstDashIdx l = none := by
  induction l with
  | nil => rfl
  | cons c cs ih =>
    have hc : c ≠ '-' := h c (by simp)
    have ih2 := ih (fun x hx => h x (by simp [hx]))
    simp [firstDashIdx, hc, ih2]

theorem pySliceTo_natCast (s : String) (n : Nat) :
    pySliceTo s (n : Int) = String.mk (s.data.take n) := by
  unfold pySliceTo
  rw [if_neg (by omega : ¬ ((n : Int) < 0))]
  simp

theorem pySliceFrom_natCast (s : String) (n : Nat) :
    pySliceFrom s (n : Int) = String.mk (s.data.drop n) := by
  unfold pySliceFrom
  rw [if_neg (by omega : ¬ ((n : Int) < 0))]
  simp

theorem pySliceTo_neg_one (s : String) :
    pySliceTo s (-1) = String.mk (s.data.take (s.data.length - 1)) := by
  unfold pySliceTo
  congr 2
  omega

theorem pySliceFrom_neg_one (s : String) :
    pySliceFrom s (-1) = String.mk (s.data.drop (s.data.length - 1)) := by
  unfold pySliceFrom
  congr 2
  omega

/-- Claim C9: for a tag containing a dash, the mobile tag transformation
inserts the literal marker "-m" immediately before the first dash: writing
the tag as `s₁ ++ "-" ++ s₂` with no dash in `s₁`, the result is
`s₁ ++ "-m" ++ "-" ++ s₂`.  In particular "ABC-1234" becomes "ABC-m-1234"
(see the witness). -/
theorem mobileTagTransform_dash (s₁ s₂ : String)
    (h : ∀ c ∈ s₁.data, c ≠ '-') :
    mobileTagTransform (s₁ ++ "-" ++ s₂) = s₁ ++ "-m" ++ "-" ++ s₂ := by
  have hdata : (s₁ ++ "-" ++ s₂).data = s₁.data ++ '-' :: s₂.data := by
    rw [String.data_append, String.data_append, List.append_assoc]
    rfl
  have hfind : pyFindDash (s₁ ++ "-" ++ s₂) = ((s₁.data.length : Nat) : Int) := by
    unfold pyFindDash
    rw [hdata, firstDashIdx_append_cons _ _ h]
  have htake : (s₁ ++ "-" ++ s₂).data.take s₁.data.length = s₁.data := by
    rw [hdata]; exact List.take_left s₁.data ('-' :: s₂.data)
  have hdrop : (s₁ ++ "-" ++ s₂).data.drop s₁.data.length = '-' :: s₂.data := by
    rw [hdata]; exact List.drop_left s₁.data ('-' :: s₂.data)
  apply String.ext
  rw [mobileTagTransform, hfind, pySliceTo_natCast, pySliceFrom_natCast,
    htake, hdrop]
  rw [String.data_append, String.data_append, String.data_append,
    String.data_append, String.data_append]
  simp

/-- Witness for C9: the spec scenario, tag "ABC-1234" becomes "ABC-m-1234". -/
theorem mobileTagTransform_dash_witness :
    mobileTagTransform ("ABC" ++ "-" ++ "1234") = "ABC" ++ "-m" ++ "-" ++ "1234" :=
  mobileTagTransform_dash "ABC" "1234" (by decide)

/-- Counterexample to claim C10 as stated: the empty tag contains no dash,
and the transformation turns it into "-m", which IS the original tag
suffixed with "-m" — contradicting the claim that a dashless tag is never
merely suffixed with "-m". -/
theorem mobileTagTransform_empty :
    (∀ c ∈ ("" : String).data, c ≠ '-') ∧
      mobileTagTransform "" = "" ++ "-m" := by
  constructor
  · intro c hc
    simp at hc
  · rfl

/-- Claim C10 (amended): for a tag with no dash, the transformation yields
`tag[:-1] ++ "-m" ++ tag[-1:]` (the marker lands immediately before the
last character); and provided the tag is non-empty, the result is neither
the tag unchanged nor the tag suffixed with "-m". -/
theorem mobileTagTransform_no_dash (tag : String)
    (h : ∀ c ∈ tag.data, c ≠ '-') :
    mobileTagTransform tag = pySliceTo tag (-1) ++ "-m" ++ pySliceFrom tag (-1) ∧
      (tag ≠ "" →
        mobileTagTransform tag ≠ tag ∧ mobileTagTransform tag ≠ tag ++ "-m") := by
  have hfind : pyFindDash tag = -1 := by
    unfold pyFindDash
    rw [firstDashIdx_eq_none tag.data h]
  refine ⟨by rw [mobileTagTransform, hfind], fun h0 => ?_⟩
  have hlen : 1 ≤ tag.data.length := by
    rcases Nat.eq_zero_or_pos tag.data.length with h1 | h1
    · exact absurd (String.ext (List.length_eq_zero.mp h1)) h0
    · exact h1
  have hdata : (mobileTagTransform tag).data
      = tag.data.take (tag.data.length - 1) ++ '-' :: 'm' ::
          tag.data.drop (tag.data.length - 1) := by
    rw [mobileTagTransform, hfind, pySliceTo_neg_one, pySliceFrom_neg_one,
      String.data_append, String.data_append, List.append_assoc]
    rfl
  have hlentake : (tag.data.take (tag.data.length - 1)).length
      = tag.data.length - 1 := by
    rw [List.length_take]; omega
  have hlendrop : (tag.data.drop (tag.data.length - 1)).length = 1 := by
    rw [List.length_drop]; omega
  constructor
  · intro heq
    have hL : (mobileTagTransform tag).data.length = tag.data.length :=
      congrArg (fun s => s.data.length) heq
    rw [hdata] at hL
    rw [List.length_append, hlentake] at hL
    simp only [List.length_cons, hlendrop] at hL
    omega
  · intro heq
    have hd : (mobileTagTransform tag).data = (tag ++ "-m").data :=
      congrArg String.data heq
    obtain ⟨c, hc⟩ : ∃ c, tag.data.drop (tag.data.length - 1) = [c] := by
      match hsing : tag.data.drop (tag.data.length - 1) with
      | [c] => exact ⟨c, rfl⟩
      | [] => rw [hsing] at hlendrop; simp at hlendrop
      | c :: d :: l => rw [hsing] at hlendrop; simp at hlendrop
    have hsplit : tag.data
        = tag.data.take (tag.data.length - 1) ++ [c] := by
      conv_lhs => rw [← List.take_append_drop (tag.data.length - 1) tag.data]
      rw [hc]
    rw [hdata, hc, String.data_append] at hd
    conv at hd => rhs; rw [hsplit]
    rw [List.append_assoc] at hd
    have hd2 : ('-' :: 'm' :: [c] : List Char) = [c] ++ ("-m").data :=
      List.append_cancel_left hd
    simp at hd2

/-- Witness for C10 (amended): on "SN12345" the transformation yields
"SN1234-m5", which differs from the tag and from the tag suffixed "-m". -/
theorem mobileTagTransform_no_dash_witness :
    mobileTagTransform "SN12345"
        = pySliceTo "SN12345" (-1) ++ "-m" ++ pySliceFrom "SN12345" (-1) ∧
      (mobileTagTransform "SN12345" ≠ "SN12345" ∧
        mobileTagTransform "SN12345" ≠ "SN12345" ++ "-m") :=
  ⟨(mobileTagTransform_no_dash "SN12345" (by decide)).1,
    (mobileTagTransform_no_dash "SN12345" (by decide)).2 (by decide)⟩


/-! ## search_snipe_asset (mosyle2snipe.py lines 121-139)

The function issues a GET against `hardware/byserial/{serial}` and inspects
the response:

    if response.status_code == 200:
        jsonresponse = response.json()
        if 'rows' in jsonresponse:
            if jsonresponse['total'] == 1:
                return jsonresponse
            else:
                return "MultiMatch"
        elif 'messages' in jsonresponse and jsonresponse['messages'] == 'Asset does not exist.':
            return "NoMatch"
    else:
        return "ERROR"

Note the implicit fall-through: a 200 response whose body has no 'rows' key
and whose 'messages' value is missing or different reaches the end of the
function and returns Python None.
-/

/-- The JSON body shapes `search_snipe_asset` can distinguish: a body with a
'rows' key (and its 'total'), a body with a 'messages' key but no 'rows',
or a body with neither key.  Row data is opaque (`ρ`). -/
inductive SearchBody (ρ : Type) where
  | withRows (total : Nat) (rows : List ρ)
  | withMessages (messages : String)
  | otherBody
deriving DecidableEq

/-- An HTTP response to the by-serial lookup: a status code and a body. -/
structure SearchResponse (ρ : Type) where
  status_code : Nat
  body : SearchBody ρ
deriving DecidableEq

/-- The possible return values of `search_snipe_asset`: the whole JSON body
(single match), the strings "MultiMatch" / "NoMatch" / "ERROR", or the
implicit Python None. -/
inductive SearchResult (ρ : Type) where
  | fullBody (total : Nat) (rows : List ρ)
  | multiMatch
  | noMatch
  | errorResult
  | pyNone
deriving DecidableEq

/-- `search_snipe_asset` (lines 121-139), as a function of the response. -/
def search_snipe_asset {ρ : Type} (r : SearchResponse ρ) : SearchResult ρ :=
  if r.status_code = 200 then
    match r.body with
    | .withRows total rows =>
        if total = 1 then .fullBody total rows else .multiMatch
    | .withMessages m =>
        if m = "Asset does not exist." then .noMatch else .pyNone
    | .otherBody => .pyNone
  else .errorResult

/-- Counterexample to claim C3 as stated: a 200 response whose body carries
neither a 'rows' collection nor the asset-does-not-exist message makes
`search_snipe_asset` fall off the end of the function and return Python
None — a fifth return value beyond the four the claim allows. -/
theorem search_snipe_asset_fifth_outcome :
    search_snipe_asset ⟨200, SearchBody.otherBody (ρ := Unit)⟩ = .pyNone ∧
      (SearchResult.pyNone (ρ := Unit)) ≠ .multiMatch ∧
      (SearchResult.pyNone (ρ := Unit)) ≠ .noMatch ∧
      (SearchResult.pyNone (ρ := Unit)) ≠ .errorResult ∧
      ∀ t rows, (SearchResult.pyNone (ρ := Unit)) ≠ .fullBody t rows := by
  refine ⟨rfl, by simp, by simp, by simp, fun t rows => by simp⟩

/-- Claim C3 (amended): `search_snipe_asset` returns exactly one of FIVE
outcomes, characterised as follows — ERROR exactly on non-200 status; the
full body exactly on a 200 body carrying rows with total equal to 1;
MultiMatch exactly on a 200 body carrying rows with total not 1 (including
total 0); NoMatch exactly on a 200 body carrying the literal message
"Asset does not exist."; and Python None exactly on any other 200 body. -/
theorem search_snipe_asset_characterisation {ρ : Type} (r : SearchResponse ρ) :
    (search_snipe_asset r = .errorResult ↔ r.status_code ≠ 200) ∧
    (∀ t rows, search_snipe_asset r = .fullBody t rows ↔
      r.status_code = 200 ∧ r.body = .withRows t rows ∧ t = 1) ∧
    (search_snipe_asset r = .multiMatch ↔
      r.status_code = 200 ∧ ∃ t rows, r.body = .withRows t rows ∧ t ≠ 1) ∧
    (search_snipe_asset r = .noMatch ↔
      r.status_code = 200 ∧ r.body = .withMessages "Asset does not exist.") ∧
    (search_snipe_asset r = .pyNone ↔
      r.status_code = 200 ∧
        (r.body = .otherBody ∨
          ∃ m, r.body = .withMessages m ∧ m ≠ "Asset does not exist.")) := by
  obtain ⟨sc, body⟩ := r
  by_cases hsc : sc = 200
  · subst hsc
    cases body with
    | withRows t rows =>
        by_cases ht : t = 1
        · subst ht
          simp [search_snipe_asset]
        · simp [search_snipe_asset, ht]
    | withMessages m =>
        by_cases hm : m = "Asset does not exist."
        · subst hm
          simp [search_snipe_asset]
        · simp [search_snipe_asset, hm]
    | otherBody =>
        simp [search_snipe_asset]
  · simp [search_snipe_asset, hsc]

/-! ## request_handler (mosyle2snipe.py lines 94-118)

    def request_handler(r, *args, **kwargs):
        if (snipe_base in r.url) and user_args.ratelimited:
            if '"messages":429' in r.text:
                ... time.sleep(2); re_req = r.request
                s = requests.Session(); return s.send(re_req)
            ... cooperative pacing (sleeps only) ...
        if '"messages":429' in r.text:
            logging.error(r.content)
            raise SystemExit(...)
        return r

The resend branch is reached only when the `-r` flag is set AND the URL is
on the Snipe base.  The prepared request it resends still carries this very
hook, so the resent response is processed by the same function again, which
makes the resend recursive.  Without `-r`, a 429-marked body goes straight
to the fatal `SystemExit`.
-/

/-- What the hook observes of a response: whether the Snipe base URL occurs
in `r.url` and whether the body carries the `"messages":429` marker. -/
structure HandlerResponse where
  urlHasSnipeBase : Bool
  has429 : Bool
deriving DecidableEq

/-- Outcome of the hook: the returned response, the fatal `SystemExit`, or
exhaustion of the modelling fuel (the code itself has no bound on the
number of recursive resends). -/
inductive HandlerOutcome where
  | okResp (r : HandlerResponse)
  | fatalExit
  | outOfFuel
deriving DecidableEq

/-- `request_handler` as a function of the `-r` flag and the response, with
resends answered by the oracle `resends` (the i-th resend gets `resends i`);
returns the outcome together with the total number of resend requests
issued.  `fuel` bounds the recursion depth of the model only. -/
def request_handler (ratelimited : Bool) (resends : Nat → HandlerResponse) :
    Nat → Nat → HandlerResponse → HandlerOutcome × Nat
  | 0, i, _ => (.outOfFuel, i)
  | fuel+1, i, r =>
    if r.urlHasSnipeBase && ratelimited && r.has429 then
      request_handler ratelimited resends fuel (i+1) (resends i)
    else if r.has429 then (.fatalExit, i)
    else (.okResp r, i)

/-- Counterexample to claim C4 as stated: with cooperative rate limiting
disabled (no `-r` flag), a response whose body carries the 429 marker is
NOT resent at all — the run aborts fatally immediately, with zero resends.
The claim said the pause-and-resend happens "regardless of whether
cooperative rate limiting is enabled". -/
theorem request_handler_no_flag_fatal :
    request_handler false (fun _ => ⟨true, false⟩) 10 0 ⟨true, true⟩
      = (.fatalExit, 0) := by
  rfl

/-- Claim C4 (amended): (a) when `-r` is off, a 429-marked response aborts
the run immediately, with no resend; (b) when `-r` is on and the URL is on
the Snipe base, a 429-marked response is resent, and if the resent response
is clean it is returned after exactly one resend; (c) still with `-r` on,
if every resend keeps carrying the 429 marker on the Snipe base the hook
keeps resending without ever aborting: for every fuel bound it performs
that many resends and exhausts the model's fuel — the single-retry-then-
fatal behaviour described by the claim does not exist in the code. -/
theorem request_handler_persistent (resends : Nat → HandlerResponse)
    (hall : ∀ j, (resends j).has429 = true ∧ (resends j).urlHasSnipeBase = true) :
    ∀ fuel i r, r.has429 = true → r.urlHasSnipeBase = true →
      request_handler true resends fuel i r = (.outOfFuel, i + fuel) := by
  intro fuel
  induction fuel with
  | zero =>
    intro i r _ _
    simp [request_handler]
  | succ n ih =>
    intro i r h429 hurl
    simp only [request_handler, hurl, h429, Bool.and_self, Bool.and_true,
      if_pos]
    rw [ih (i+1) (resends i) (hall i).1 (hall i).2]
    simp only [Prod.mk.injEq, true_and]
    omega

theorem request_handler_amended (r : HandlerResponse)
    (resends : Nat → HandlerResponse) (fuel i : Nat) :
    (r.has429 = true →
      request_handler false resends (fuel+1) i r = (.fatalExit, i)) ∧
    (r.urlHasSnipeBase = true → r.has429 = true →
      (resends i).has429 = false →
      request_handler true resends (fuel+2) i r = (.okResp (resends i), i+1)) ∧
    ((∀ j, (resends j).has429 = true ∧ (resends j).urlHasSnipeBase = true) →
      r.has429 = true → r.urlHasSnipeBase = true →
      request_handler true resends fuel i r = (.outOfFuel, i + fuel)) := by
  refine ⟨fun h429 => ?_, fun hurl h429 hclean => ?_, fun hall h429 hurl => ?_⟩
  · simp [request_handler, h429]
  · simp [request_handler, hurl, h429, hclean]
  · exact request_handler_persistent resends hall fuel i r h429 hurl

/-- Witness for C4 (amended), at concrete inputs: a 429-marked Snipe-base
response with `-r` off aborts with zero resends; with `-r` on and a clean
resend it returns the resent response after one resend; with `-r` on and
persistently 429-marked resends it exhausts any fuel without aborting. -/
theorem request_handler_amended_witness :
    (request_handler false (fun _ => ⟨true, true⟩) 4 0 ⟨true, true⟩
        = (.fatalExit, 0)) ∧
    (request_handler true (fun _ => ⟨true, false⟩) 5 0 ⟨true, true⟩
        = (.okResp ⟨true, false⟩, 1)) ∧
    (request_handler true (fun _ => ⟨true, true⟩) 7 0 ⟨true, true⟩
        = (.outOfFuel, 7)) := by
  have h := request_handler_amended ⟨true, true⟩ (fun _ => ⟨true, true⟩) 7 0
  have h2 := request_handler_amended ⟨true, true⟩ (fun _ => ⟨true, false⟩) 3 0
  exact ⟨(request_handler_amended ⟨true, true⟩ (fun _ => ⟨true, true⟩) 3 0).1 rfl,
    h2.2.1 rfl rfl rfl,
    h.2.2 (fun _ => ⟨rfl, rfl⟩) rfl rfl⟩

/-! ## MosyleConnection.get_devices (mosyle_api.py lines 70-96)

    fail = 1
    page = 1
    ...
    all_devices = []
    while fail > 0 and fail <= 3:
        request = ...
        response, validated = self.validate_request(request)
        if not validated:
            fail = fail + 1
            continue
        mosyle_response = json.loads(response.text)['response'][0]
        if 'status' in mosyle_response and mosyle_response['status'] == "DEVICES_NOTFOUND":
            fail = 0
            break
        for device in mosyle_response['devices']:
            all_devices.append(device)
        payload['options']['page'] = payload['options']['page'] + 1
    return all_devices

The failure counter starts at 1, is incremented on every failed validation,
and is NEVER reset on a successful page; the loop stops once it exceeds 3.
-/

/-- What `get_devices` observes of a single response: a failed validation,
a DEVICES_NOTFOUND status, or a page of devices. -/
inductive PageResp (δ : Type) where
  | invalid
  | notFound
  | page (devices : List δ)
deriving DecidableEq

/-- The `while` loop of `get_devices`: responses are taken from the oracle
list in order (`none` = the model ran out of oracle entries, which the
non-terminating-free code cannot do on an adequate oracle). -/
def getDevicesLoop {δ : Type} : List (PageResp δ) → Nat → List δ → Option (List δ)
  | or, fail, acc =>
    if fail = 0 ∨ 3 < fail then some acc
    else match or with
      | [] => none
      | .invalid :: rest => getDevicesLoop rest (fail+1) acc
      | .notFound :: _ => some acc
      | .page ds :: rest => getDevicesLoop rest fail (acc ++ ds)

/-- `get_devices`: run the loop with `fail = 1` and no accumulated devices. -/
def get_devices {δ : Type} (or : List (PageResp δ)) : Option (List δ) :=
  getDevicesLoop or 1 []

/-- Modelled from the claim's words (not from the source): the same loop
but with a CONSECUTIVE-failure counter — three consecutive failures abandon
the listing, and the counter resets to zero on every successful page. -/
def getDevicesConsecutive {δ : Type} :
    List (PageResp δ) → Nat → List δ → Option (List δ)
  | or, failures, acc =>
    if 3 ≤ failures then some acc
    else match or with
      | [] => none
      | .invalid :: rest => getDevicesConsecutive rest (failures+1) acc
      | .notFound :: _ => some acc
      | .page ds :: rest => getDevicesConsecutive rest 0 (acc ++ ds)

/-- Counterexample to claim C8 as stated: on a response sequence in which
every failure is isolated (never two in a row, let alone three), the code
still abandons the listing at the third cumulative failure and returns only
the first two pages, while the claimed consecutive-failure policy would
have completed the listing with all three pages.  The code's counter never
resets on success. -/
theorem get_devices_cumulative_not_consecutive :
    get_devices [PageResp.invalid, .page [1], .invalid, .page [2],
        .invalid, .page [3], .notFound] = some [1, 2] ∧
      getDevicesConsecutive [PageResp.invalid, .page [1], .invalid, .page [2],
        .invalid, .page [3], .notFound] 0 [] = some [1, 2, 3] ∧
      get_devices [PageResp.invalid, .page [1], .invalid, .page [2],
          .invalid, .page [3], .notFound] ≠
        getDevicesConsecutive [PageResp.invalid, .page [1], .invalid, .page [2],
          .invalid, .page [3], .notFound] 0 [] := by
  refine ⟨rfl, rfl, by decide⟩

/-- Modelled from the amended claim's words: a cumulative failure counter,
counting from zero and never reset; the third cumulative failure abandons
the listing with the devices accumulated so far; a not-found response ends
pagination normally; otherwise the page's devices are appended. -/
def getDevicesCumulative {δ : Type} :
    List (PageResp δ) → Nat → List δ → Option (List δ)
  | [], _, _ => none
  | .invalid :: rest, failures, acc =>
      if failures + 1 = 3 then some acc
      else getDevicesCumulative rest (failures+1) acc
  | .notFound :: _, _, acc => some acc
  | .page ds :: rest, failures, acc => getDevicesCumulative rest failures (acc ++ ds)

theorem getDevicesLoop_eq_cumulative {δ : Type} (or : List (PageResp δ)) :
    ∀ f acc, f ≤ 2 →
      getDevicesLoop or (f+1) acc = getDevicesCumulative or f acc := by
  induction or with
  | nil =>
    intro f acc hf
    simp only [getDevicesLoop.eq_def]
    rw [if_neg (by omega : ¬ (f + 1 = 0 ∨ 3 < f + 1))]
    rfl
  | cons r rest ih =>
    intro f acc hf
    cases r with
    | invalid =>
      rw [getDevicesLoop.eq_def]
      dsimp only
      rw [if_neg (by omega : ¬ (f + 1 = 0 ∨ 3 < f + 1))]
      simp only [getDevicesCumulative]
      by_cases h3 : f + 1 = 3
      · rw [if_pos h3]
        rw [getDevicesLoop.eq_def]
        dsimp only
        rw [if_pos (by omega : f + 1 + 1 = 0 ∨ 3 < f + 1 + 1)]
      · rw [if_neg h3]
        exact ih (f+1) acc (by omega)
    | notFound =>
      rw [getDevicesLoop.eq_def]
      dsimp only
      rw [if_neg (by omega : ¬ (f + 1 = 0 ∨ 3 < f + 1))]
      rfl
    | page ds =>
      rw [getDevicesLoop.eq_def]
      dsimp only
      rw [if_neg (by omega : ¬ (f + 1 = 0 ∨ 3 < f + 1))]
      simp only [getDevicesCumulative]
      exact ih f (acc ++ ds) hf

/-- Claim C8 (amended): `get_devices` follows the cumulative-failure
policy — failures are counted across the whole listing call starting from
zero and are never reset by a success; the third cumulative failure
abandons the call, which then returns the devices accumulated so far
rather than raising; a DEVICES_NOTFOUND response terminates pagination
normally; and each successful page appends its devices and moves to the
next page. -/
theorem get_devices_eq_cumulative {δ : Type} (or : List (PageResp δ)) :
    get_devices or = getDevicesCumulative or 0 [] :=
  getDevicesLoop_eq_cumulative or 0 [] (by omega)

/-! ## The reconciliation engine (mosyle2snipe.py lines 312-489)

The per-device loop of `mosyle2snipe.py` is embedded as a state machine over
an explicit world.  The world holds the state of the two remote services:
the Snipe-IT model catalogue, asset list, user directory and status table,
and the Mosyle device lists.  Engine reads are evaluated against the world;
engine writes are emitted as `Write` values AND applied to the world (our
model of the server), so a run returns both the final world and the list of
write calls it issued.  Exceptions (`KeyError` on a missing dictionary key,
`TypeError` on subscripting a non-object) are modelled with `Except`.
The model assumes a healthy transport: HTTP requests do not fail, and
writes take effect exactly as sent (the "no intervening external changes"
reading of the idempotence claim).
-/

/-- Python dictionary lookup on an association list (first binding wins;
the builders below keep keys unique, matching dict semantics). -/
def alookup {α : Type} : List (String × α) → String → Option α
  | [], _ => none
  | p :: rest, k => if p.1 = k then some p.2 else alookup rest k

/-- Python dictionary assignment `dict[k] = v` on an association list:
replace the binding if present, append it otherwise. -/
def ainsert {α : Type} (l : List (String × α)) (k : String) (v : α) :
    List (String × α) :=
  if (alookup l k).isSome then
    l.map (fun p => if p.1 = k then (k, v) else p)
  else l ++ [(k, v)]

/-- JSON-ish values occurring in Snipe asset records, restricted to the
object shapes the code actually dereferences: `assigned_to` objects (the
code reads their `id`), `status_label` objects (`status_meta`), and
`updated_at` objects (`datetime`). -/
inductive Val where
  | vstr (s : String)
  | vnum (n : Nat)
  | vnull
  | vuser (id : Nat)
  | vstatus (status_meta : String)
  | vtime (datetime : String)
deriving DecidableEq, Repr

/-- One entry of an asset's `custom_fields` mapping: the display key the
dict is keyed by, the declared `field` name, and the `value`. -/
structure CustomField where
  display : String
  fieldName : String
  value : String
deriving DecidableEq, Repr

/-- A Snipe asset record as the code reads it: a top-level attribute
dictionary and the `custom_fields` collection. -/
structure Asset where
  attrs : List (String × Val)
  customs : List CustomField
deriving DecidableEq, Repr

/-- `asset[k]` on the top-level attributes. -/
def getAttr (a : Asset) (k : String) : Option Val :=
  alookup a.attrs k

/-- Replace the value of an existing top-level attribute. -/
def setAttr (a : Asset) (k : String) (v : Val) : Asset :=
  { a with attrs := a.attrs.map (fun p => if p.1 = k then (k, v) else p) }

/-- Set a top-level attribute, adding it when absent (used for the
server-side effect of checkout/checkin on `assigned_to`). -/
def upsertAttr (a : Asset) (k : String) (v : Val) : Asset :=
  if (getAttr a k).isSome then setAttr a k v
  else { a with attrs := a.attrs ++ [(k, v)] }

/-- A Snipe model record (id, model_number, display name). -/
structure SnipeModel where
  id : Nat
  model_number : String
  name : String
deriving DecidableEq, Repr

/-- A Mosyle device record.  `serial_number` is an `Option` because the key
can be missing from the dictionary (claim C2); the other keys the code
dereferences unconditionally are modelled as always-present fields, and
`extra` holds the remaining device fields used by the api-mapping and
user-mapping configuration. -/
structure Device where
  serial_number : Option String
  device_name : String
  device_model : String
  device_model_name : String
  asset_tag : String
  date_last_beat : String
  extra : List (String × String)
deriving DecidableEq, Repr

/-- Python `md[k]` / `k in md` on a device record. -/
def mdGet (d : Device) (k : String) : Option String :=
  if k = "serial_number" then d.serial_number
  else if k = "device_name" then some d.device_name
  else if k = "device_model" then some d.device_model
  else if k = "device_model_name" then some d.device_model_name
  else if k = "asset_tag" then some d.asset_tag
  else if k = "date_last_beat" then some d.date_last_beat
  else alookup d.extra k

/-- The state of the two services: Snipe models, assets, users (search
name to user id, for `get_snipe_user_id`), the status table (status id to
the `status_meta` a newly created asset of that status gets), the Mosyle
device lists, and fresh-id counters for created records. -/
structure World where
  models : List SnipeModel
  assets : List Asset
  users : List (String × Nat)
  statusMetas : List (String × String)
  computers : List Device
  mobiles : List Device
  nextModelId : Nat
  nextAssetId : Nat
deriving DecidableEq, Repr

/-- The settings.conf and section lookups the engine reads. -/
structure Config where
  defaultStatus : String
  computer_model_category_id : String
  manufacturer_id : String
  computer_custom_fieldset_id : Option String
  asset_tag_source : Option String
  computers_api_mapping : List (String × String)
  mobile_devices_api_mapping : List (String × String)
  user_mapping_field : String
deriving DecidableEq, Repr

/-- The command-line flags the engine consults (argparse makes the three
user-sync flags mutually exclusive, and the two class filters too). -/
structure Flags where
  users : Bool
  users_inverse : Bool
  users_force : Bool
  computers : Bool
  mobiles : Bool
deriving DecidableEq, Repr

/-- The two device classes (`mosyle_types` keys). -/
inductive DevClass where
  | computers
  | mobile_devices
deriving DecidableEq, Repr

/-- `config['{}-api-mapping'.format(mosyle_type)]`. -/
def Config.mapping (cfg : Config) : DevClass → List (String × String)
  | .computers => cfg.computers_api_mapping
  | .mobile_devices => cfg.mobile_devices_api_mapping

/-- The write calls the engine can issue. -/
inductive Write where
  | createModel (model_number name category_id manufacturer_id : String)
      (fieldset_id : Option String)
  | updateModelName (model_id : Nat) (name : String)
  | createAsset (asset_tag : String) (model_id : Nat)
      (name status_id serial : String)
  | updateAsset (asset_id : Val) (payload : List (String × String))
  | checkinAsset (asset_id : Val)
  | checkoutAsset (asset_id : Val) (user_id : Nat)
  | updateDevice (serial asset_tag : String)
deriving DecidableEq, Repr

/-- Applying one staged payload entry, as the Snipe server does: a key that
names an existing top-level attribute replaces that attribute's value; any
other key updates every custom field whose declared name matches. -/
def applyPayloadEntry (a : Asset) (e : String × String) : Asset :=
  if (getAttr a e.1).isSome then setAttr a e.1 (Val.vstr e.2)
  else { a with customs := a.customs.map (fun cf =>
    if cf.fieldName = e.1 then { cf with value := e.2 } else cf) }

/-- Applying a whole update payload in order. -/
def applyPayload (a : Asset) (p : List (String × String)) : Asset :=
  p.foldl applyPayloadEntry a

/-- The record a freshly created asset gets on the server: the payload
fields of `create_snipe_asset` plus a null assignment, the status_meta of
the requested status, and an updated_at object. -/
def mkNewAsset (id : Nat) (tag name serial meta : String) : Asset :=
  { attrs := [("id", Val.vnum id), ("asset_tag", Val.vstr tag),
      ("serial", Val.vstr serial), ("name", Val.vstr name),
      ("assigned_to", Val.vnull), ("status_label", Val.vstatus meta),
      ("updated_at", Val.vtime "")],
    customs := [] }

/-- Server-side effect of one write on the world. -/
def World.applyWrite (w : World) (wr : Write) : World :=
  match wr with
  | .createModel number name _ _ _ =>
      { w with models := w.models ++ [⟨w.nextModelId, number, name⟩],
               nextModelId := w.nextModelId + 1 }
  | .updateModelName mid name =>
      { w with models := w.models.map (fun m =>
          if m.id = mid then { m with name := name } else m) }
  | .createAsset tag _ nm st serial =>
      let meta := (alookup w.statusMetas st).getD ""
      { w with assets := w.assets ++ [mkNewAsset w.nextAssetId tag nm serial meta],
               nextAssetId := w.nextAssetId + 1 }
  | .updateAsset aid payload =>
      { w with assets := w.assets.map (fun a =>
          if getAttr a "id" = some aid then applyPayload a payload else a) }
  | .checkinAsset aid =>
      { w with assets := w.assets.map (fun a =>
          if getAttr a "id" = some aid then upsertAttr a "assigned_to" Val.vnull else a) }
  | .checkoutAsset aid uid =>
      { w with assets := w.assets.map (fun a =>
          if getAttr a "id" = some aid then upsertAttr a "assigned_to" (Val.vuser uid) else a) }
  | .updateDevice serial tag =>
      let upd := fun (d : Device) =>
        if d.serial_number = some serial then { d with asset_tag := tag } else d
      { w with computers := w.computers.map upd, mobiles := w.mobiles.map upd }

def World.applyWrites (w : World) (ws : List Write) : World :=
  ws.foldl World.applyWrite w

/-- Outcome of the serial lookup against a healthy server: the rows with
that serial, classified as the code does on `total` (lines 121-139 plus
403/435/438).  A transport error has no counterpart in the healthy-server
world model. -/
inductive LookupOutcome where
  | noMatch
  | multiMatch
  | single (a : Asset)
deriving DecidableEq, Repr

def assetsWithSerial (w : World) (s : String) : List Asset :=
  w.assets.filter (fun a => getAttr a "serial" = some (Val.vstr s))

def lookupSerial (w : World) (s : String) : LookupOutcome :=
  match assetsWithSerial w s with
  | [] => .noMatch
  | [a] => .single a
  | _ => .multiMatch

/-- Modelled Python exceptions. -/
inductive Err where
  | keyError
  | typeError
deriving DecidableEq, Repr

/-- `jsonresponse`-style mandatory dictionary access. -/
def requireAttr (a : Asset) (k : String) : Except Err Val :=
  match getAttr a k with
  | some v => .ok v
  | none => .error .keyError

theorem bindOk {α β : Type} (a : α) (f : α → Except Err β) :
    (Except.ok a >>= f) = f a := rfl

theorem bindErr {α β : Type} (e : Err) (f : α → Except Err β) :
    ((Except.error e : Except Err α) >>= f) = Except.error e := rfl

/-- The model registry built from `get_snipe_models` (lines 315-324):
`modelnumbers` maps model_number to id (later rows overwrite earlier
ones, as repeated dict assignment does) and `modelnames` collects the
names; models with an empty model_number are skipped entirely. -/
structure Registry where
  modelnumbers : List (String × Nat)
  modelnames : List String
deriving DecidableEq, Repr

def registryStep (reg : Registry) (m : SnipeModel) : Registry :=
  if m.model_number = "" then reg
  else ⟨ainsert reg.modelnumbers m.model_number m.id,
        reg.modelnames ++ [m.name]⟩

def buildRegistry (models : List SnipeModel) : Registry :=
  models.foldl registryStep ⟨[], []⟩

/-- Model resolution (lines 372-384, computers only).  Model creation
registers the echoed model_number under the fresh id (create_snipe_model,
lines 184-194); a display-name update re-registers the echoed (unchanged)
model_number (update_snipe_model, lines 197-207).  `modelnames` is NOT
extended in either case, exactly as in the source. -/
def modelPhase (cfg : Config) (w : World) (reg : Registry) (d : Device) :
    Registry × List Write :=
  match alookup reg.modelnumbers d.device_model with
  | none =>
      (⟨ainsert reg.modelnumbers d.device_model w.nextModelId, reg.modelnames⟩,
        [Write.createModel d.device_model d.device_model_name
          cfg.computer_model_category_id cfg.manufacturer_id
          cfg.computer_custom_fieldset_id])
  | some mid =>
      if d.device_model_name ∈ reg.modelnames then (reg, [])
      else
        let number := match w.models.find? (fun m => m.id = mid) with
          | some m => m.model_number
          | none => d.device_model
        (⟨ainsert reg.modelnumbers number mid, reg.modelnames⟩,
          [Write.updateModelName mid d.device_model_name])

/-- `checkout_snipe_asset` (lines 259-290): resolve the user (NotFound
gives up without a write); `checked_out_user == None` or the "NewAsset"
marker check out directly; an assignment object with the same id is a
no-op; a different holder is checked in first; any other value crashes on
`checked_out_user['id']`. -/
def checkout_snipe_asset (users : List (String × Nat)) (username : String)
    (asset_id : Val) (checked_out_user : Val) : Except Err (List Write) :=
  match alookup users username with
  | none => .ok []
  | some uid =>
    match checked_out_user with
    | .vnull => .ok [Write.checkoutAsset asset_id uid]
    | .vstr s =>
        if s = "NewAsset" then .ok [Write.checkoutAsset asset_id uid]
        else .error .typeError
    | .vuser uid2 =>
        if uid2 = uid then .ok []
        else .ok [Write.checkinAsset asset_id, Write.checkoutAsset asset_id uid]
    | _ => .error .typeError

/-- One field-mapping entry of the diff (lines 450-477): the Mosyle value
is the mapped device field or "" when absent; a top-level attribute is
staged when its value differs; otherwise the custom fields with the
matching declared name are compared; a key matching neither stages
nothing. -/
def stagedEntry (d : Device) (a : Asset) (e : String × String) :
    Option (String × String) :=
  let mosyle_value := (mdGet d e.2).getD ""
  match getAttr a e.1 with
  | some cur =>
      if cur ≠ Val.vstr mosyle_value then some (e.1, mosyle_value) else none
  | none =>
      if a.customs.any (fun cf =>
          cf.fieldName == e.1 && cf.value != mosyle_value) then
        some (e.1, mosyle_value)
      else none

/-- The staged update payload for a device/asset pair (lines 449-477). -/
def buildPayload (mapping : List (String × String)) (d : Device) (a : Asset) :
    List (String × String) :=
  mapping.filterMap (stagedEntry d a)

/-- Lines 478-479: one update call carrying the whole payload, only when
the payload is non-empty. -/
def updateCallWrites (snipe_id : Val) (payload : List (String × String)) :
    List Write :=
  if payload.length > 0 then [Write.updateAsset snipe_id payload] else []

/-- The checkout condition of line 481, literally:
`((users or users_inverse) and (assigned_to == None) == users) or users_force`. -/
def checkoutCond (fl : Flags) (assigned : Val) : Bool :=
  ((fl.users || fl.users_inverse) && ((assigned == Val.vnull) == fl.users))
    || fl.users_force

/-- Line 482: `status_meta in ('deployable', 'deployed')`. -/
def statusDeployable (meta : String) : Bool :=
  meta == "deployable" || meta == "deployed"

/-- Lines 482-485, evaluated when the line-481 condition is true: read the
status; when deployable, resolve the configured user field (KeyError when
the device lacks it), read `assigned_to`, and call `checkout_snipe_asset`;
otherwise log and skip. -/
def checkoutStage (cfg : Config) (users : List (String × Nat)) (d : Device)
    (a : Asset) (snipe_id : Val) : Except Err (List Write) := do
  let meta ← match getAttr a "status_label" with
    | some (.vstatus m) => .ok m
    | some _ => .error .typeError
    | none => .error .keyError
  if statusDeployable meta then do
    let username ← match mdGet d cfg.user_mapping_field with
      | some u => .ok u
      | none => .error .keyError
    let assigned ← requireAttr a "assigned_to"
    checkout_snipe_asset users username snipe_id assigned
  else .ok []

/-- Line 481 with Python's short-circuit evaluation: `assigned_to` is read
at line 481 only when -u or -ui is set; with only -uf the condition is
true without reading it (it is then read at line 483 inside
`checkoutStage`). -/
def checkoutPhase (cfg : Config) (fl : Flags) (users : List (String × Nat))
    (d : Device) (a : Asset) (snipe_id : Val) : Except Err (List Write) :=
  if fl.users || fl.users_inverse then do
    let assigned ← requireAttr a "assigned_to"
    if checkoutCond fl assigned then checkoutStage cfg users d a snipe_id
    else .ok []
  else if fl.users_force then checkoutStage cfg users d a snipe_id
  else .ok []

/-- Lines 487-489: push the Snipe asset tag back to Mosyle when the device
record's tag differs.  The comparison and the pushed value both come from
the record fetched at line 400/432, NOT from the updated asset.  (The
model requires the Snipe tag to be a string to push it into the device
record; the idempotence theorem's hypotheses keep tags string-valued.) -/
def backSyncPhase (d : Device) (a : Asset) (s : String) :
    Except Err (List Write) := do
  let tagv ← requireAttr a "asset_tag"
  if Val.vstr d.asset_tag ≠ tagv then
    match tagv with
    | .vstr t => .ok [Write.updateDevice s t]
    | _ => .error .typeError
  else .ok []

/-- The update sub-flow on a fetched record (lines 443-489): read the id
and timestamp, stage and apply the field diff, take the checkout decision
on the pre-update record, and back-sync the asset tag — all three phases
computed from the same fetched record `a`. -/
def updateFlow (cfg : Config) (fl : Flags) (users : List (String × Nat))
    (ty : DevClass) (d : Device) (a : Asset) (s : String) :
    Except Err (List Write) := do
  let snipe_id ← requireAttr a "id"
  let _snipe_time ← match getAttr a "updated_at" with
    | some (.vtime dt) => Except.ok dt
    | some _ => .error .typeError
    | none => .error .keyError
  let payload := buildPayload (cfg.mapping ty) d a
  let updWrites := updateCallWrites snipe_id payload
  let ckWrites ← checkoutPhase cfg fl users d a snipe_id
  let bsWrites ← backSyncPhase d a s
  .ok (updWrites ++ ckWrites ++ bsWrites)

/-- The create sub-flow (lines 403-432) up to and including the immediate
checkout of the new asset: tag selection (identity comparison with "" on
line 406, then the optional configured source field with its try/except),
the mobile tag transformation, the `modelnumbers` lookup (KeyError when
the model is unknown — reachable for mobiles, whose model resolution is
commented out), the dead serial guard of line 421, the creation, and the
"NewAsset" checkout.  Returns `none` for the `continue` of line 423. -/
def createFlow (cfg : Config) (fl : Flags) (ty : DevClass) (reg : Registry)
    (w : World) (d : Device) (s : String) :
    Except Err (Option (List Write × World)) := do
  let tag0 := if d.asset_tag = "" then s else d.asset_tag
  let tag1 := match cfg.asset_tag_source with
    | some f => match mdGet d f with
      | some v => v
      | none => tag0
    | none => tag0
  let tagFinal := match ty with
    | .computers => tag1
    | .mobile_devices => mobileTagTransform tag1
  let mid ← match alookup reg.modelnumbers d.device_model with
    | some mid => Except.ok mid
    | none => .error .keyError
  if d.serial_number.isNone then
    .ok none
  else do
    let newAssetId := w.nextAssetId
    let wr1 := Write.createAsset tagFinal mid d.device_name cfg.defaultStatus s
    let w1 := w.applyWrite wr1
    if fl.users || fl.users_force || fl.users_inverse then do
      let username ← match mdGet d cfg.user_mapping_field with
        | some u => Except.ok u
        | none => .error .keyError
      let ws2 ← checkout_snipe_asset w.users username (Val.vnum newAssetId)
        (Val.vstr "NewAsset")
      .ok (some ([wr1] ++ ws2, w1.applyWrites ws2))
    else .ok (some ([wr1], w1))

/-- Per-device processing (lines 366-489): the progress log of line 368
dereferences `md['serial_number']` (KeyError when absent — before any
guard); model resolution (computers only); the serial lookup; then the
four-way branch.  A multi-match skips the device; no-match runs the create
sub-flow and re-looks-up (the code then proceeds to line 443
unconditionally, so a non-single re-lookup would crash on
`snipe['rows'][0]`); a single match runs the update sub-flow. -/
def processDevice (cfg : Config) (fl : Flags) (ty : DevClass)
    (reg : Registry) (w : World) (d : Device) :
    Except Err (Registry × World × List Write) := do
  let s ← match d.serial_number with
    | some s => Except.ok s
    | none => .error .keyError
  let rw1 := match ty with
    | .computers => modelPhase cfg w reg d
    | .mobile_devices => (reg, [])
  let reg1 := rw1.1
  let ws1 := rw1.2
  let w1 := w.applyWrites ws1
  match lookupSerial w1 s with
  | .multiMatch => .ok (reg1, w1, ws1)
  | .noMatch => do
      match ← createFlow cfg fl ty reg1 w1 d s with
      | none => .ok (reg1, w1, ws1)
      | some (ws2, w2) =>
        match lookupSerial w2 s with
        | .single a => do
            let ws3 ← updateFlow cfg fl w2.users ty d a s
            .ok (reg1, w2.applyWrites ws3, ws1 ++ ws2 ++ ws3)
        | _ => .error .typeError
  | .single a => do
      let ws3 ← updateFlow cfg fl w1.users ty d a s
      .ok (reg1, w1.applyWrites ws3, ws1 ++ ws3)

/-- The device sequence of the run (lines 359-365): the computers list then
the mobile list, with the -c / -m filters applied. -/
def deviceSeq (fl : Flags) (w : World) : List (DevClass × Device) :=
  (if fl.mobiles then [] else w.computers.map (fun d => (DevClass.computers, d)))
    ++ (if fl.computers then []
        else w.mobiles.map (fun d => (DevClass.mobile_devices, d)))

/-- The fold of `processDevice` over a device sequence. -/
def runFold (cfg : Config) (fl : Flags) :
    List (DevClass × Device) → Registry → World → List Write →
    Except Err (Registry × World × List Write)
  | [], reg, w, acc => .ok (reg, w, acc)
  | (ty, d) :: rest, reg, w, acc => do
      let (reg1, w1, ws) ← processDevice cfg fl ty reg w d
      runFold cfg fl rest reg1 w1 (acc ++ ws)

/-- One full run of the engine: build the registry from a fresh model
listing, snapshot the device lists, and process every device, returning
the final world and all writes issued. -/
def engineRun (cfg : Config) (fl : Flags) (w : World) :
    Except Err (World × List Write) := do
  let reg := buildRegistry w.models
  let (_, w1, ws) ← runFold cfg fl (deviceSeq fl w) reg w []
  .ok (w1, ws)

/-! ## Two consecutive runs -/

/-- The writes of the first run, when it completes. -/
def firstRunWrites (cfg : Config) (fl : Flags) (w : World) :
    Option (List Write) :=
  match engineRun cfg fl w with
  | .ok (_, ws) => some ws
  | .error _ => none

/-- The writes of a second run started from the final world of the first
(no intervening external changes), when both runs complete. -/
def secondRunWrites (cfg : Config) (fl : Flags) (w : World) :
    Option (List Write) :=
  match engineRun cfg fl w with
  | .ok (w1, _) =>
      match engineRun cfg fl w1 with
      | .ok (_, ws2) => some ws2
      | .error _ => none
  | .error _ => none

/-- Counterexample configuration for claim C1: the field mapping maps the
Snipe `asset_tag` attribute to the Mosyle `asset_tag` field — a key the
back-sync stage also reads, from the record fetched BEFORE the update. -/
def cexConfig : Config :=
  { defaultStatus := "2"
    computer_model_category_id := "5"
    manufacturer_id := "1"
    computer_custom_fieldset_id := none
    asset_tag_source := none
    computers_api_mapping := [("asset_tag", "asset_tag")]
    mobile_devices_api_mapping := []
    user_mapping_field := "user" }

/-- No user-sync mode, no class filter. -/
def cexFlags : Flags := ⟨false, false, false, false, false⟩

def cexDevice : Device :=
  { serial_number := some "SN1"
    device_name := "Mac1"
    device_model := "MBP18,1"
    device_model_name := "MacBook Pro"
    asset_tag := "OLD-1"
    date_last_beat := "2024"
    extra := [] }

def cexAsset : Asset :=
  { attrs := [("id", Val.vnum 10), ("asset_tag", Val.vstr "NEW-1"),
      ("serial", Val.vstr "SN1"), ("name", Val.vstr "Mac1"),
      ("assigned_to", Val.vnull), ("status_label", Val.vstatus "deployable"),
      ("updated_at", Val.vtime "t")],
    customs := [] }

def cexWorld : World :=
  { models := [⟨3, "MBP18,1", "MacBook Pro"⟩]
    assets := [cexAsset]
    users := []
    statusMetas := [("2", "deployable")]
    computers := [cexDevice]
    mobiles := []
    nextModelId := 100
    nextAssetId := 100 }

/-- Counterexample to claim C1 as stated: with a field mapping that maps
the `asset_tag` attribute, the first run sets the asset's tag to the
device's value ("OLD-1") but the back-sync stage then compares and pushes
the STALE pre-update Snipe tag ("NEW-1") to the device — the two sides
swap values.  The second run, over the same device list with no
intervening external changes, again issues an update and an updateDevice
call (swapping the values back), so the second run's writes are not zero:
not every write is gated by an equality check against a freshly fetched
record. -/
theorem engineRun_not_idempotent :
    firstRunWrites cexConfig cexFlags cexWorld
        = some [Write.updateAsset (Val.vnum 10) [("asset_tag", "OLD-1")],
                Write.updateDevice "SN1" "NEW-1"] ∧
      secondRunWrites cexConfig cexFlags cexWorld
        = some [Write.updateAsset (Val.vnum 10) [("asset_tag", "NEW-1")],
                Write.updateDevice "SN1" "OLD-1"] ∧
      secondRunWrites cexConfig cexFlags cexWorld ≠ some [] := by
  refine ⟨rfl, rfl, by decide⟩

/-! ## Claim C2: a device record with no serial_number key -/

/-- General fact: per-device processing of a device whose record lacks the
`serial_number` key raises KeyError immediately — the very first statement
of the loop body (the progress log of line 368) dereferences
`md['serial_number']`, before the serial lookup of line 400 and before the
skip guard of line 421, which is therefore dead code. -/
theorem processDevice_missing_serial (cfg : Config) (fl : Flags)
    (ty : DevClass) (reg : Registry) (w : World) (d : Device)
    (h : d.serial_number = none) :
    processDevice cfg fl ty reg w d = .error .keyError := by
  unfold processDevice
  rw [h]
  rfl

/-- A mobile device record with no serial_number key at all. -/
def c2Device : Device :=
  { serial_number := none
    device_name := "iPad-new"
    device_model := "iPad13,1"
    device_model_name := "iPad"
    asset_tag := ""
    date_last_beat := "2024"
    extra := [] }

/-- A healthy device queued after the serial-less one: the claim says the
engine continues with it, but the run never reaches it. -/
def c2World : World :=
  { models := []
    assets := []
    users := []
    statusMetas := []
    computers := []
    mobiles := [c2Device, cexDevice]
    nextModelId := 1
    nextAssetId := 1 }

/-- Claim C2, evaluated at the failing input: the whole run aborts with
KeyError on the serial-less device instead of skipping it and continuing
with the next device.  (The code's own guard at lines 421-423 — "we'll
skip it for now" — shows the intended skip behaviour; it is unreachable
because lines 368, 400, 404 and 416/420 dereference the key first.) -/
theorem engineRun_missing_serial_keyError :
    engineRun cexConfig cexFlags c2World = .error .keyError := by
  rfl

/-! ## Claim C5: the field diff -/

theorem stagedEntry_value (d : Device) (a : Asset) (e : String × String)
    (p : String × String) (h : stagedEntry d a e = some p) :
    p = (e.1, (mdGet d e.2).getD "") := by
  unfold stagedEntry at h
  cases hg : getAttr a e.1 with
  | some cur =>
    rw [hg] at h
    dsimp only at h
    by_cases hne : cur ≠ Val.vstr ((mdGet d e.2).getD "")
    · rw [if_pos hne] at h
      exact (Option.some.inj h).symm
    · rw [if_neg hne] at h
      exact absurd h (by simp)
  | none =>
    rw [hg] at h
    dsimp only at h
    by_cases hany : a.customs.any (fun cf =>
        cf.fieldName == e.1 && cf.value != (mdGet d e.2).getD "") = true
    · rw [if_pos hany] at h
      exact (Option.some.inj h).symm
    · rw [if_neg hany] at h
      exact absurd h (by simp)

theorem stagedEntry_unmapped (d : Device) (a : Asset) (e : String × String)
    (htop : getAttr a e.1 = none)
    (hcf : ∀ cf ∈ a.customs, cf.fieldName ≠ e.1) :
    stagedEntry d a e = none := by
  unfold stagedEntry
  rw [htop]
  have hany : a.customs.any (fun cf =>
      cf.fieldName == e.1 && cf.value != (mdGet d e.2).getD "") = false := by
    rw [List.any_eq_false]
    intro cf hmem
    simp [hcf cf hmem]
  simp [hany]

/-- Claim C5: (1) a field-mapping entry whose Snipe-side name is neither a
top-level attribute of the asset nor the declared name of any of its
custom fields stages no payload entry (and the diff is a total function —
no error is raised); (2) every staged value is the mapped device field's
value, or "" when that field is absent from the device record; (3) the
staged changes go out in a single update call, issued exactly when the
staged set is non-empty and carrying the whole payload. -/
theorem fieldDiff_claim (mapping : List (String × String)) (d : Device)
    (a : Asset) (snipe_id : Val) :
    (∀ k mk, (k, mk) ∈ mapping → getAttr a k = none →
        (∀ cf ∈ a.customs, cf.fieldName ≠ k) →
        ∀ v, (k, v) ∉ buildPayload mapping d a) ∧
    (∀ k v, (k, v) ∈ buildPayload mapping d a →
        ∃ mk, (k, mk) ∈ mapping ∧ v = (mdGet d mk).getD "") ∧
    (buildPayload mapping d a = [] →
        updateCallWrites snipe_id (buildPayload mapping d a) = []) ∧
    (buildPayload mapping d a ≠ [] →
        updateCallWrites snipe_id (buildPayload mapping d a)
          = [Write.updateAsset snipe_id (buildPayload mapping d a)]) := by
  refine ⟨?_, ?_, ?_, ?_⟩
  · intro k mk hmem htop hcf v hv
    rw [buildPayload, List.mem_filterMap] at hv
    obtain ⟨e, hemem, he⟩ := hv
    have hp := stagedEntry_value d a e _ he
    injection hp with hk hv2
    subst hk
    have hnone := stagedEntry_unmapped d a e htop hcf
    rw [hnone] at he
    exact absurd he (by simp)
  · intro k v hv
    rw [buildPayload, List.mem_filterMap] at hv
    obtain ⟨e, hemem, he⟩ := hv
    have hp := stagedEntry_value d a e _ he
    injection hp with hk hv2
    refine ⟨e.2, ?_, hv2⟩
    rw [hk]
    exact hemem
  · intro hempty
    rw [hempty]
    rfl
  · intro hne
    unfold updateCallWrites
    rw [if_pos (by
      cases hpl : buildPayload mapping d a with
      | nil => exact absurd hpl hne
      | cons x xs => simp)]

/-- Witness for C5 at a concrete mapping, device and asset: the mapping
key "ram" matches neither a top-level attribute nor a custom field of the
asset and stages nothing; the staged entries carry the device values; the
single update call carries the whole payload. -/
theorem fieldDiff_claim_witness :
    (∀ v, ("ram", v) ∉ buildPayload [("name", "device_name"), ("ram", "memory")]
        cexDevice cexAsset) ∧
      updateCallWrites (Val.vnum 10)
          (buildPayload [("name", "device_name"), ("ram", "memory")]
            cexDevice cexAsset) = [] := by
  have h := fieldDiff_claim [("name", "device_name"), ("ram", "memory")]
    cexDevice cexAsset (Val.vnum 10)
  refine ⟨fun v => h.1 "ram" "memory" (by decide) (by decide)
    (fun cf hmem => by simp [cexAsset] at hmem) v, h.2.2.1 (by decide)⟩

/-! ## Claim C6: the checkout decision -/

/-- Claim C6: on a matched asset whose record carries the assignment, the
status object and the configured user field, the checkout stage is exactly
`checkout_snipe_asset` guarded by the line-481 condition AND the
deployability test; under the mutually exclusive argparse modes the
line-481 condition is: -u exactly when unassigned, -ui exactly when
assigned, -uf always; with no user-sync flag no checkout is evaluated; and
when the status test fails the stage is a logged skip with no write. -/
theorem checkout_decision_claim (cfg : Config) (fl : Flags)
    (users : List (String × Nat)) (d : Device) (a : Asset) (snipe_id : Val)
    (assigned : Val) (meta uname : String)
    (ha : getAttr a "assigned_to" = some assigned)
    (hm : getAttr a "status_label" = some (Val.vstatus meta))
    (hu : mdGet d cfg.user_mapping_field = some uname) :
    (checkoutPhase cfg fl users d a snipe_id
        = if checkoutCond fl assigned && statusDeployable meta
          then checkout_snipe_asset users uname snipe_id assigned
          else Except.ok []) ∧
    (fl.users = true → fl.users_inverse = false → fl.users_force = false →
      (checkoutCond fl assigned = true ↔ assigned = Val.vnull)) ∧
    (fl.users_inverse = true → fl.users = false → fl.users_force = false →
      (checkoutCond fl assigned = true ↔ assigned ≠ Val.vnull)) ∧
    (fl.users_force = true → checkoutCond fl assigned = true) ∧
    (fl.users = false → fl.users_inverse = false → fl.users_force = false →
      checkoutPhase cfg fl users d a snipe_id = Except.ok []) := by
  have hstage : checkoutStage cfg users d a snipe_id
      = if statusDeployable meta
        then checkout_snipe_asset users uname snipe_id assigned
        else Except.ok [] := by
    unfold checkoutStage
    rw [hm]
    dsimp only
    rw [bindOk]
    by_cases hdep : statusDeployable meta = true
    · rw [if_pos hdep, if_pos hdep, hu]
      dsimp only
      rw [bindOk, requireAttr.eq_def, ha]
      dsimp only
      rw [bindOk]
    · rw [if_neg hdep, if_neg hdep]
  refine ⟨?_, ?_, ?_, ?_, ?_⟩
  · unfold checkoutPhase
    by_cases h1 : (fl.users || fl.users_inverse) = true
    · rw [if_pos h1, requireAttr.eq_def, ha]
      dsimp only
      rw [bindOk]
      by_cases h2 : checkoutCond fl assigned = true
      · rw [if_pos h2, hstage]
        simp [h2]
      · rw [if_neg h2]
        have h2f : checkoutCond fl assigned = false :=
          Bool.not_eq_true _ ▸ h2
        simp [h2f]
    · rw [if_neg h1]
      have h1f : (fl.users || fl.users_inverse) = false :=
        Bool.not_eq_true _ ▸ h1
      by_cases h3 : fl.users_force = true
      · rw [if_pos h3, hstage]
        have hc : checkoutCond fl assigned = true := by
          simp [checkoutCond, h3]
        simp [hc]
      · rw [if_neg h3]
        have h3f : fl.users_force = false := Bool.not_eq_true _ ▸ h3
        have hc : checkoutCond fl assigned = false := by
          simp [checkoutCond, h1f, h3f]
        simp [hc]
  · intro hU hUI hUF
    simp [checkoutCond, hU, hUI, hUF, beq_iff_eq]
  · intro hUI hU hUF
    simp [checkoutCond, hU, hUI, hUF, beq_iff_eq]
  · intro hUF
    simp [checkoutCond, hUF]
  · intro hU hUI hUF
    unfold checkoutPhase
    simp [hU, hUI, hUF]

/-- Witness for C6 at concrete inputs: -u mode on an unassigned deployable
asset attempts the checkout. -/
theorem checkout_decision_claim_witness :
    (checkoutPhase cexConfig ⟨true, false, false, false, false⟩
        [("alice", 7)] { cexDevice with extra := [("user", "alice")] }
        cexAsset (Val.vnum 10)
      = if checkoutCond ⟨true, false, false, false, false⟩ Val.vnull
            && statusDeployable "deployable"
        then checkout_snipe_asset [("alice", 7)] "alice" (Val.vnum 10) Val.vnull
        else Except.ok []) ∧
      (checkoutCond ⟨true, false, false, false, false⟩ Val.vnull = true ↔
        Val.vnull = Val.vnull) := by
  have h := checkout_decision_claim cexConfig ⟨true, false, false, false, false⟩
    [("alice", 7)] { cexDevice with extra := [("user", "alice")] }
    cexAsset (Val.vnum 10) Val.vnull "deployable" "alice"
    (by decide) (by decide) (by decide)
  exact ⟨h.1, h.2.1 rfl rfl rfl⟩

/-! ## Claim C7: the asset-tag back-sync -/

def isUpdateDeviceWrite : Write → Bool
  | .updateDevice _ _ => true
  | _ => false

theorem bind_eq_ok {α β : Type} {x : Except Err α} {f : α → Except Err β}
    {b : β} (h : (x >>= f) = .ok b) : ∃ a, x = .ok a ∧ f a = .ok b := by
  cases x with
  | ok a => exact ⟨a, rfl, h⟩
  | error e =>
    rw [bindErr] at h
    exact absurd h (by simp)

theorem checkout_snipe_asset_writes (users : List (String × Nat))
    (username : String) (aid : Val) (cu : Val) (ws : List Write)
    (h : checkout_snipe_asset users username aid cu = .ok ws) :
    ∀ wr ∈ ws, isUpdateDeviceWrite wr = false := by
  unfold checkout_snipe_asset at h
  cases hlk : alookup users username with
  | none =>
    rw [hlk] at h
    simp only [Except.ok.injEq] at h
    subst h
    intro wr hwr
    simp at hwr
  | some uid =>
    rw [hlk] at h
    cases cu with
    | vnull =>
      dsimp only at h
      simp only [Except.ok.injEq] at h
      subst h
      intro wr hwr
      simp at hwr
      subst hwr
      rfl
    | vstr s =>
      dsimp only at h
      by_cases hs : s = "NewAsset"
      · rw [if_pos hs] at h
        simp only [Except.ok.injEq] at h
        subst h
        intro wr hwr
        simp at hwr
        subst hwr
        rfl
      · rw [if_neg hs] at h
        exact absurd h (by simp)
    | vuser uid2 =>
      dsimp only at h
      by_cases he : uid2 = uid
      · rw [if_pos he] at h
        simp only [Except.ok.injEq] at h
        subst h
        intro wr hwr
        simp at hwr
      · rw [if_neg he] at h
        simp only [Except.ok.injEq] at h
        subst h
        intro wr hwr
        simp at hwr
        rcases hwr with h1 | h1 <;> (subst h1; rfl)
    | vnum n => exact absurd h (by simp)
    | vstatus m => exact absurd h (by simp)
    | vtime m => exact absurd h (by simp)

theorem checkoutStage_writes (cfg : Config) (users : List (String × Nat))
    (d : Device) (a : Asset) (snipe_id : Val) (ws : List Write)
    (h : checkoutStage cfg users d a snipe_id = .ok ws) :
    ∀ wr ∈ ws, isUpdateDeviceWrite wr = false := by
  unfold checkoutStage at h
  cases hst : getAttr a "status_label" with
  | none =>
    rw [hst] at h
    dsimp only at h
    rw [bindErr] at h
    exact absurd h (by simp)
  | some v =>
    rw [hst] at h
    cases v with
    | vstatus m =>
      dsimp only at h
      rw [bindOk] at h
      by_cases hdep : statusDeployable m = true
      · rw [if_pos hdep] at h
        cases hmd : mdGet d cfg.user_mapping_field with
        | none =>
          rw [hmd] at h
          dsimp only at h
          rw [bindErr] at h
          exact absurd h (by simp)
        | some u =>
          rw [hmd] at h
          dsimp only at h
          rw [bindOk] at h
          obtain ⟨assigned, hassigned, h⟩ := bind_eq_ok h
          exact checkout_snipe_asset_writes users u snipe_id assigned ws h
      · rw [if_neg hdep] at h
        simp only [Except.ok.injEq] at h
        subst h
        intro wr hwr
        simp at hwr
    | vstr s =>
      dsimp only at h
      rw [bindErr] at h
      exact absurd h (by simp)
    | vnull =>
      dsimp only at h
      rw [bindErr] at h
      exact absurd h (by simp)
    | vnum n =>
      dsimp only at h
      rw [bindErr] at h
      exact absurd h (by simp)
    | vuser uid =>
      dsimp only at h
      rw [bindErr] at h
      exact absurd h (by simp)
    | vtime t =>
      dsimp only at h
      rw [bindErr] at h
      exact absurd h (by simp)

theorem checkoutPhase_writes (cfg : Config) (fl : Flags)
    (users : List (String × Nat)) (d : Device) (a : Asset) (snipe_id : Val)
    (ws : List Write) (h : checkoutPhase cfg fl users d a snipe_id = .ok ws) :
    ∀ wr ∈ ws, isUpdateDeviceWrite wr = false := by
  unfold checkoutPhase at h
  by_cases h1 : (fl.users || fl.users_inverse) = true
  · rw [if_pos h1] at h
    obtain ⟨assigned, hassigned, h⟩ := bind_eq_ok h
    by_cases h2 : checkoutCond fl assigned = true
    · rw [if_pos h2] at h
      exact checkoutStage_writes cfg users d a snipe_id ws h
    · rw [if_neg h2] at h
      simp only [Except.ok.injEq] at h
      subst h
      intro wr hwr
      simp at hwr
  · rw [if_neg h1] at h
    by_cases h3 : fl.users_force = true
    · rw [if_pos h3] at h
      exact checkoutStage_writes cfg users d a snipe_id ws h
    · rw [if_neg h3] at h
      simp only [Except.ok.injEq] at h
      subst h
      intro wr hwr
      simp at hwr

theorem backSyncPhase_eq (d : Device) (a : Asset) (s t : String)
    (ht : getAttr a "asset_tag" = some (Val.vstr t)) :
    backSyncPhase d a s
      = .ok (if d.asset_tag = t then [] else [Write.updateDevice s t]) := by
  unfold backSyncPhase
  rw [requireAttr.eq_def, ht]
  dsimp only
  rw [bindOk]
  by_cases hd : d.asset_tag = t
  · rw [if_pos hd]
    rw [if_neg (by simp [hd])]
  · rw [if_neg hd]
    rw [if_pos (by simp [hd])]

/-- Claim C7: whenever the update sub-flow completes on a fetched record
whose asset_tag attribute is the string `t`, the updateDevice calls among
its writes are exactly one call pushing `t` when the device's recorded tag
differs from `t`, and none when they are equal — independently of what the
field-update and checkout phases did, since neither ever issues an
updateDevice call. -/
theorem backsync_claim (cfg : Config) (fl : Flags)
    (users : List (String × Nat)) (ty : DevClass) (d : Device) (a : Asset)
    (s t : String) (ws : List Write)
    (ht : getAttr a "asset_tag" = some (Val.vstr t))
    (hrun : updateFlow cfg fl users ty d a s = .ok ws) :
    ws.filter isUpdateDeviceWrite
      = if d.asset_tag = t then [] else [Write.updateDevice s t] := by
  unfold updateFlow at hrun
  dsimp only at hrun
  obtain ⟨sid, hsid, hrun⟩ := bind_eq_ok hrun
  have hrun2 : ∃ dt, (getAttr a "updated_at" = some (Val.vtime dt)) ∧
      (checkoutPhase cfg fl users d a sid >>= fun ckWrites =>
        backSyncPhase d a s >>= fun bsWrites =>
          Except.ok (updateCallWrites sid (buildPayload (cfg.mapping ty) d a)
            ++ ckWrites ++ bsWrites)) = .ok ws := by
    cases hup : getAttr a "updated_at" with
    | none =>
      rw [hup] at hrun
      dsimp only at hrun
      rw [bindErr] at hrun
      exact absurd hrun (by simp)
    | some v =>
      rw [hup] at hrun
      cases v with
      | vtime dt =>
        dsimp only at hrun
        rw [bindOk] at hrun
        exact ⟨dt, rfl, hrun⟩
      | vstr s2 =>
        dsimp only at hrun
        rw [bindErr] at hrun
        exact absurd hrun (by simp)
      | vnull =>
        dsimp only at hrun
        rw [bindErr] at hrun
        exact absurd hrun (by simp)
      | vnum n =>
        dsimp only at hrun
        rw [bindErr] at hrun
        exact absurd hrun (by simp)
      | vuser uid =>
        dsimp only at hrun
        rw [bindErr] at hrun
        exact absurd hrun (by simp)
      | vstatus m =>
        dsimp only at hrun
        rw [bindErr] at hrun
        exact absurd hrun (by simp)
  obtain ⟨dt, hup, hrun3⟩ := hrun2
  obtain ⟨ck, hck, hrun4⟩ := bind_eq_ok hrun3
  obtain ⟨bs, hbs, hrun5⟩ := bind_eq_ok hrun4
  simp only [Except.ok.injEq] at hrun5
  subst hrun5
  rw [List.filter_append, List.filter_append]
  have hupd : (updateCallWrites sid (buildPayload (cfg.mapping ty) d a)).filter
      isUpdateDeviceWrite = [] := by
    unfold updateCallWrites
    by_cases hp : (buildPayload (cfg.mapping ty) d a).length > 0
    · rw [if_pos hp]
      rfl
    · rw [if_neg hp]
      rfl
  have hckf : ck.filter isUpdateDeviceWrite = [] := by
    rw [List.filter_eq_nil_iff]
    intro wr hwr
    rw [checkoutPhase_writes cfg fl users d a sid ck hck wr hwr]
    simp
  rw [backSyncPhase_eq d a s t ht] at hbs
  simp only [Except.ok.injEq] at hbs
  subst hbs
  rw [hupd, hckf]
  by_cases hd : d.asset_tag = t
  · simp [hd]
  · simp [hd, isUpdateDeviceWrite]

/-- Witness for C7: on the concrete device/asset pair whose tags differ
("OLD-1" vs "NEW-1"), the completed update sub-flow contains exactly one
updateDevice call pushing "NEW-1". -/
theorem backsync_claim_witness :
    ([Write.updateAsset (Val.vnum 10) [("asset_tag", "OLD-1")],
        Write.updateDevice "SN1" "NEW-1"].filter isUpdateDeviceWrite)
      = if cexDevice.asset_tag = "NEW-1" then []
        else [Write.updateDevice "SN1" "NEW-1"] :=
  backsync_claim cexConfig cexFlags [] .computers cexDevice cexAsset
    "SN1" "NEW-1" _ (by decide) (by rfl)

/-! ## Toward the amended idempotence theorem: payload application lemmas -/

/-- The top-level attribute names the engine itself reads after the update
call or uses for targeting; a sane field-mapping configuration maps none
of them (and maps no Mosyle-side field to the device's asset_tag, which
the back-sync stage rewrites). -/
def reservedAttrKeys : List String :=
  ["id", "serial", "asset_tag", "assigned_to", "status_label",
   "updated_at", "custom_fields"]

theorem alookup_cons {α : Type} (p : String × α) (l : List (String × α))
    (k : String) :
    alookup (p :: l) k = if p.1 = k then some p.2 else alookup l k := rfl

theorem alookup_append {α : Type} (l1 l2 : List (String × α)) (k : String) :
    alookup (l1 ++ l2) k
      = match alookup l1 k with
        | some v => some v
        | none => alookup l2 k := by
  induction l1 with
  | nil => rfl
  | cons p rest ih =>
    rw [List.cons_append, alookup_cons, alookup_cons]
    by_cases hk : p.1 = k
    · rw [if_pos hk, if_pos hk]
    · rw [if_neg hk, if_neg hk]
      exact ih

theorem alookup_replace_other {α : Type} (l : List (String × α))
    (k k2 : String) (v : α) (h : k2 ≠ k) :
    alookup (l.map (fun p => if p.1 = k then (k, v) else p)) k2
      = alookup l k2 := by
  induction l with
  | nil => rfl
  | cons p rest ih =>
    rw [List.map_cons, alookup_cons, alookup_cons]
    by_cases hk : p.1 = k
    · rw [if_pos hk]
      rw [if_neg (show (k, v).1 ≠ k2 from fun hc => h hc.symm)]
      rw [if_neg (show p.1 ≠ k2 from hk ▸ fun hc => h hc.symm)]
      exact ih
    · rw [if_neg hk]
      by_cases hk2 : p.1 = k2
      · rw [if_pos hk2, if_pos hk2]
      · rw [if_neg hk2, if_neg hk2]
        exact ih

theorem alookup_replace_self {α : Type} (l : List (String × α))
    (k : String) (v : α) (h : (alookup l k).isSome) :
    alookup (l.map (fun p => if p.1 = k then (k, v) else p)) k = some v := by
  induction l with
  | nil => simp [alookup] at h
  | cons p rest ih =>
    rw [List.map_cons, alookup_cons]
    by_cases hk : p.1 = k
    · rw [if_pos hk]
      rw [if_pos (show (k, v).1 = k from rfl)]
    · rw [if_neg hk, if_neg hk]
      rw [alookup_cons, if_neg hk] at h
      exact ih h

theorem alookup_replace_none {α : Type} (l : List (String × α))
    (k : String) (v : α) (h : alookup l k = none) :
    alookup (l.map (fun p => if p.1 = k then (k, v) else p)) k = none := by
  induction l with
  | nil => rfl
  | cons p rest ih =>
    rw [alookup_cons] at h
    by_cases hk : p.1 = k
    · rw [if_pos hk] at h
      exact absurd h (by simp)
    · rw [if_neg hk] at h
      rw [List.map_cons, alookup_cons, if_neg hk, if_neg hk]
      exact ih h

theorem getAttr_setAttr_other (a : Asset) (k k2 : String) (v : Val)
    (h : k2 ≠ k) : getAttr (setAttr a k v) k2 = getAttr a k2 :=
  alookup_replace_other a.attrs k k2 v h

theorem getAttr_setAttr_self (a : Asset) (k : String) (v : Val)
    (h : (getAttr a k).isSome) : getAttr (setAttr a k v) k = some v :=
  alookup_replace_self a.attrs k v h

theorem getAttr_setAttr_none (a : Asset) (k : String) (v : Val)
    (h : getAttr a k = none) : getAttr (setAttr a k v) k = none :=
  alookup_replace_none a.attrs k v h

theorem customs_setAttr (a : Asset) (k : String) (v : Val) :
    (setAttr a k v).customs = a.customs := rfl

theorem getAttr_upsertAttr_self (a : Asset) (k : String) (v : Val) :
    getAttr (upsertAttr a k v) k = some v := by
  unfold upsertAttr
  by_cases h : (getAttr a k).isSome
  · rw [if_pos h]
    exact getAttr_setAttr_self a k v h
  · rw [if_neg h]
    show alookup (a.attrs ++ [(k, v)]) k = some v
    rw [alookup_append]
    rw [Option.not_isSome_iff_eq_none] at h
    rw [show alookup a.attrs k = none from h]
    simp [alookup_cons]

theorem getAttr_upsertAttr_other (a : Asset) (k k2 : String) (v : Val)
    (h : k2 ≠ k) : getAttr (upsertAttr a k v) k2 = getAttr a k2 := by
  unfold upsertAttr
  by_cases hs : (getAttr a k).isSome
  · rw [if_pos hs]
    exact getAttr_setAttr_other a k k2 v h
  · rw [if_neg hs]
    show alookup (a.attrs ++ [(k, v)]) k2 = alookup a.attrs k2
    rw [alookup_append]
    cases hl : alookup a.attrs k2 with
    | some v2 => rfl
    | none =>
      rw [alookup_cons, if_neg (show (k, v).1 ≠ k2 from fun hc => h hc.symm)]
      rfl

theorem customs_upsertAttr (a : Asset) (k : String) (v : Val) :
    (upsertAttr a k v).customs = a.customs := by
  unfold upsertAttr
  split <;> rfl

/-- The values of the custom fields declared under name `k`. -/
def cvals (cs : List CustomField) (k : String) : List String :=
  cs.filterMap (fun cf => if cf.fieldName = k then some cf.value else none)

theorem cvals_cons (cf : CustomField) (cs : List CustomField) (k : String) :
    cvals (cf :: cs) k
      = if cf.fieldName = k then cf.value :: cvals cs k else cvals cs k := by
  unfold cvals
  rw [List.filterMap_cons]
  by_cases h : cf.fieldName = k
  · rw [if_pos h, if_pos h]
  · rw [if_neg h, if_neg h]

theorem cvals_map_set_other (cs : List CustomField) (e1 v k : String)
    (h : k ≠ e1) :
    cvals (cs.map (fun cf =>
      if cf.fieldName = e1 then { cf with value := v } else cf)) k
    = cvals cs k := by
  induction cs with
  | nil => rfl
  | cons cf rest ih =>
    rw [List.map_cons]
    by_cases h1 : cf.fieldName = e1
    · rw [if_pos h1, cvals_cons, cvals_cons]
      have hnk : ¬ cf.fieldName = k := by
        rw [h1]
        exact fun hc => h hc.symm
      dsimp only
      rw [if_neg hnk, if_neg hnk]
      exact ih
    · rw [if_neg h1, cvals_cons, cvals_cons]
      by_cases h2 : cf.fieldName = k
      · rw [if_pos h2, if_pos h2, ih]
      · rw [if_neg h2, if_neg h2]
        exact ih

theorem cvals_map_set_self (cs : List CustomField) (e1 v : String) :
    cvals (cs.map (fun cf =>
      if cf.fieldName = e1 then { cf with value := v } else cf)) e1
    = (cvals cs e1).map (fun _ => v) := by
  induction cs with
  | nil => rfl
  | cons cf rest ih =>
    rw [List.map_cons]
    by_cases h1 : cf.fieldName = e1
    · rw [if_pos h1, cvals_cons, cvals_cons]
      dsimp only
      rw [if_pos h1, if_pos h1, List.map_cons, ih]
    · rw [if_neg h1, cvals_cons, cvals_cons, if_neg h1, if_neg h1]
      exact ih

theorem applyPayloadEntry_attrs_other (a : Asset) (e : String × String)
    (k : String) (h : k ≠ e.1) :
    getAttr (applyPayloadEntry a e) k = getAttr a k := by
  unfold applyPayloadEntry
  by_cases hs : (getAttr a e.1).isSome
  · rw [if_pos hs]
    exact getAttr_setAttr_other a e.1 k (Val.vstr e.2) h
  · rw [if_neg hs]
    rfl

theorem applyPayloadEntry_attrs_self_some (a : Asset) (e : String × String)
    (h : (getAttr a e.1).isSome) :
    getAttr (applyPayloadEntry a e) e.1 = some (Val.vstr e.2) := by
  unfold applyPayloadEntry
  rw [if_pos h]
  exact getAttr_setAttr_self a e.1 (Val.vstr e.2) h

theorem applyPayloadEntry_attrs_self_none (a : Asset) (e : String × String)
    (h : getAttr a e.1 = none) :
    getAttr (applyPayloadEntry a e) e.1 = none := by
  unfold applyPayloadEntry
  rw [if_neg (by simp [h])]
  exact h

theorem applyPayloadEntry_isSome (a : Asset) (e : String × String)
    (k : String) :
    (getAttr (applyPayloadEntry a e) k).isSome = (getAttr a k).isSome := by
  by_cases hk : k = e.1
  · subst hk
    by_cases hs : (getAttr a e.1).isSome
    · rw [applyPayloadEntry_attrs_self_some a e hs, hs]
      rfl
    · rw [Option.not_isSome_iff_eq_none] at hs
      rw [applyPayloadEntry_attrs_self_none a e hs, hs]
  · rw [applyPayloadEntry_attrs_other a e k hk]

theorem applyPayloadEntry_cvals_other (a : Asset) (e : String × String)
    (k : String) (h : k ≠ e.1) :
    cvals (applyPayloadEntry a e).customs k = cvals a.customs k := by
  unfold applyPayloadEntry
  by_cases hs : (getAttr a e.1).isSome
  · rw [if_pos hs]
    rfl
  · rw [if_neg hs]
    exact cvals_map_set_other a.customs e.1 e.2 k h

theorem applyPayloadEntry_cvals_self_none (a : Asset) (e : String × String)
    (h : getAttr a e.1 = none) :
    cvals (applyPayloadEntry a e).customs e.1
      = (cvals a.customs e.1).map (fun _ => e.2) := by
  unfold applyPayloadEntry
  rw [if_neg (by simp [h])]
  exact cvals_map_set_self a.customs e.1 e.2

theorem applyPayload_cons (a : Asset) (e : String × String)
    (P : List (String × String)) :
    applyPayload a (e :: P) = applyPayload (applyPayloadEntry a e) P := rfl

theorem applyPayload_attrs_notkey (P : List (String × String)) (a : Asset)
    (k : String) (h : ∀ e ∈ P, k ≠ e.1) :
    getAttr (applyPayload a P) k = getAttr a k := by
  induction P generalizing a with
  | nil => rfl
  | cons e rest ih =>
    rw [applyPayload_cons, ih _ (fun e2 he2 => h e2 (by simp [he2])),
      applyPayloadEntry_attrs_other a e k (h e (by simp))]

theorem applyPayload_cvals_notkey (P : List (String × String)) (a : Asset)
    (k : String) (h : ∀ e ∈ P, k ≠ e.1) :
    cvals (applyPayload a P).customs k = cvals a.customs k := by
  induction P generalizing a with
  | nil => rfl
  | cons e rest ih =>
    rw [applyPayload_cons, ih _ (fun e2 he2 => h e2 (by simp [he2])),
      applyPayloadEntry_cvals_other a e k (h e (by simp))]

theorem applyPayload_isSome (P : List (String × String)) (a : Asset)
    (k : String) :
    (getAttr (applyPayload a P) k).isSome = (getAttr a k).isSome := by
  induction P generalizing a with
  | nil => rfl
  | cons e rest ih =>
    rw [applyPayload_cons, ih, applyPayloadEntry_isSome]

theorem applyPayload_key_some (P1 P2 : List (String × String))
    (e : String × String) (a : Asset)
    (h1 : ∀ e2 ∈ P1, e.1 ≠ e2.1) (h2 : ∀ e2 ∈ P2, e.1 ≠ e2.1)
    (hs : (getAttr a e.1).isSome) :
    getAttr (applyPayload a (P1 ++ e :: P2)) e.1 = some (Val.vstr e.2) := by
  have : applyPayload a (P1 ++ e :: P2)
      = applyPayload (applyPayloadEntry (applyPayload a P1) e) P2 := by
    unfold applyPayload
    rw [List.foldl_append]
    rfl
  rw [this]
  have hs1 : (getAttr (applyPayload a P1) e.1).isSome := by
    rw [applyPayload_isSome]
    exact hs
  rw [applyPayload_attrs_notkey P2 _ e.1 h2,
    applyPayloadEntry_attrs_self_some _ e hs1]

theorem applyPayload_key_custom (P1 P2 : List (String × String))
    (e : String × String) (a : Asset)
    (h1 : ∀ e2 ∈ P1, e.1 ≠ e2.1) (h2 : ∀ e2 ∈ P2, e.1 ≠ e2.1)
    (hn : getAttr a e.1 = none) :
    getAttr (applyPayload a (P1 ++ e :: P2)) e.1 = none ∧
      cvals (applyPayload a (P1 ++ e :: P2)).customs e.1
        = (cvals a.customs e.1).map (fun _ => e.2) := by
  have hsplit : applyPayload a (P1 ++ e :: P2)
      = applyPayload (applyPayloadEntry (applyPayload a P1) e) P2 := by
    unfold applyPayload
    rw [List.foldl_append]
    rfl
  have hn1 : getAttr (applyPayload a P1) e.1 = none := by
    rw [applyPayload_attrs_notkey P1 a e.1 h1]
    exact hn
  constructor
  · rw [hsplit, applyPayload_attrs_notkey P2 _ e.1 h2,
      applyPayloadEntry_attrs_self_none _ e hn1]
  · rw [hsplit, applyPayload_cvals_notkey P2 _ e.1 h2,
      applyPayloadEntry_cvals_self_none _ e hn1,
      applyPayload_cvals_notkey P1 a e.1 h1]

/-! ### Inversion and introduction lemmas for one diff entry -/

theorem stagedEntry_none_top (d : Device) (a : Asset) (e : String × String)
    (h : getAttr a e.1 = some (Val.vstr ((mdGet d e.2).getD ""))) :
    stagedEntry d a e = none := by
  unfold stagedEntry
  rw [h]
  simp

theorem stagedEntry_none_custom (d : Device) (a : Asset) (e : String × String)
    (h : getAttr a e.1 = none)
    (hall : ∀ x ∈ cvals a.customs e.1, x = (mdGet d e.2).getD "") :
    stagedEntry d a e = none := by
  unfold stagedEntry
  rw [h]
  dsimp only
  rw [if_neg]
  intro hany
  rw [List.any_eq_true] at hany
  obtain ⟨cf, hmem, hcf⟩ := hany
  rw [Bool.and_eq_true, beq_iff_eq, bne_iff_ne] at hcf
  exact hcf.2 (hall cf.value (by
    unfold cvals
    rw [List.mem_filterMap]
    exact ⟨cf, hmem, by rw [if_pos hcf.1]⟩))

theorem stagedEntry_none_inv_top (d : Device) (a : Asset)
    (e : String × String) (cur : Val) (hcur : getAttr a e.1 = some cur)
    (h : stagedEntry d a e = none) :
    cur = Val.vstr ((mdGet d e.2).getD "") := by
  unfold stagedEntry at h
  rw [hcur] at h
  dsimp only at h
  by_cases hne : cur ≠ Val.vstr ((mdGet d e.2).getD "")
  · rw [if_pos hne] at h
    exact absurd h (by simp)
  · rw [not_not] at hne
    exact hne

theorem stagedEntry_none_inv_custom (d : Device) (a : Asset)
    (e : String × String) (hn : getAttr a e.1 = none)
    (h : stagedEntry d a e = none) :
    ∀ x ∈ cvals a.customs e.1, x = (mdGet d e.2).getD "" := by
  unfold stagedEntry at h
  rw [hn] at h
  dsimp only at h
  by_cases hany : a.customs.any (fun cf =>
      cf.fieldName == e.1 && cf.value != (mdGet d e.2).getD "") = true
  · rw [if_pos hany] at h
    exact absurd h (by simp)
  · intro x hx
    unfold cvals at hx
    rw [List.mem_filterMap] at hx
    obtain ⟨cf, hmem, hcf⟩ := hx
    by_cases hf : cf.fieldName = e.1
    · rw [if_pos hf] at hcf
      by_contra hne
      apply hany
      rw [List.any_eq_true]
      refine ⟨cf, hmem, ?_⟩
      rw [Bool.and_eq_true, beq_iff_eq, bne_iff_ne]
      exact ⟨hf, by rw [Option.some.inj hcf]; exact hne⟩
    · rw [if_neg hf] at hcf
      exact absurd hcf (by simp)

theorem buildPayload_keys (mapping : List (String × String)) (d : Device)
    (a : Asset) (p : String × String) (hp : p ∈ buildPayload mapping d a) :
    ∃ e ∈ mapping, stagedEntry d a e = some p ∧ p.1 = e.1 ∧
      p.2 = (mdGet d e.2).getD "" := by
  rw [buildPayload, List.mem_filterMap] at hp
  obtain ⟨e, hemem, he⟩ := hp
  have hv := stagedEntry_value d a e p he
  exact ⟨e, hemem, he, by rw [hv], by rw [hv]⟩

/-- The central diff-stability lemma: re-running the field diff after the
staged payload has been applied to the asset stages nothing, for any
second device record that agrees with the first on every mapped Mosyle
field, provided the mapping's Snipe-side keys are free of duplicates. -/
theorem buildPayload_stable (mapping : List (String × String))
    (d d2 : Device) (a : Asset)
    (hnodup : (mapping.map Prod.fst).Nodup)
    (hmv : ∀ e ∈ mapping, mdGet d2 e.2 = mdGet d e.2) :
    buildPayload mapping d2 (applyPayload a (buildPayload mapping d a)) = [] := by
  rw [buildPayload, List.filterMap_eq_nil_iff]
  intro e hmem
  have hmve : (mdGet d2 e.2).getD "" = (mdGet d e.2).getD "" := by
    rw [hmv e hmem]
  have hinj : ∀ e2 ∈ mapping, e2.1 = e.1 → e2 = e := by
    intro e2 he2 hk
    exact List.inj_on_of_nodup_map hnodup he2 hmem hk
  cases hse : stagedEntry d a e with
  | some p =>
    have hpval := stagedEntry_value d a e p hse
    subst hpval
    obtain ⟨M1, M2, hM⟩ := List.append_of_mem hmem
    have hPsplit : buildPayload mapping d a
        = buildPayload M1 d a ++ (e.1, (mdGet d e.2).getD "")
            :: buildPayload M2 d a := by
      rw [hM, buildPayload, buildPayload, buildPayload,
        List.filterMap_append, List.filterMap_cons, hse]
    have hM1 : ∀ e2 ∈ buildPayload M1 d a, e.1 ≠ e2.1 := by
      intro e2 he2
      obtain ⟨e3, he3mem, _, hk3, _⟩ := buildPayload_keys M1 d a e2 he2
      intro hc
      have he3mapping : e3 ∈ mapping := by
        rw [hM]
        exact List.mem_append_left _ he3mem
      have : e3 = e := hinj e3 he3mapping (by rw [← hk3, ← hc])
      subst this
      have : (mapping.map Prod.fst).Nodup := hnodup
      rw [hM] at this
      simp only [List.map_append, List.map_cons] at this
      rcases List.disjoint_of_nodup_append this with hdis
      exact hdis (List.mem_map_of_mem Prod.fst he3mem) (by simp)
    have hM2 : ∀ e2 ∈ buildPayload M2 d a, e.1 ≠ e2.1 := by
      intro e2 he2
      obtain ⟨e3, he3mem, _, hk3, _⟩ := buildPayload_keys M2 d a e2 he2
      intro hc
      have he3mapping : e3 ∈ mapping := by
        rw [hM]
        exact List.mem_append_right _ (List.mem_cons_of_mem _ he3mem)
      have : e3 = e := hinj e3 he3mapping (by rw [← hk3, ← hc])
      subst this
      have hnd : (mapping.map Prod.fst).Nodup := hnodup
      rw [hM] at hnd
      simp only [List.map_append, List.map_cons] at hnd
      have := List.Nodup.of_append_right hnd
      rw [List.nodup_cons] at this
      exact this.1 (List.mem_map_of_mem Prod.fst he3mem)
    cases hg : getAttr a e.1 with
    | some cur =>
      have := applyPayload_key_some (buildPayload M1 d a)
        (buildPayload M2 d a) (e.1, (mdGet d e.2).getD "") a hM1 hM2
        (by rw [hg]; rfl)
      rw [← hPsplit] at this
      exact stagedEntry_none_top d2 _ e (by rw [this, hmve])
    | none =>
      have := applyPayload_key_custom (buildPayload M1 d a)
        (buildPayload M2 d a) (e.1, (mdGet d e.2).getD "") a hM1 hM2 hg
      rw [← hPsplit] at this
      refine stagedEntry_none_custom d2 _ e this.1 ?_
      intro x hx
      rw [this.2] at hx
      rw [List.mem_map] at hx
      obtain ⟨y, _, hy⟩ := hx
      rw [← hy, hmve]
  | none =>
    have hnotkey : ∀ e2 ∈ buildPayload mapping d a, e.1 ≠ e2.1 := by
      intro e2 he2
      obtain ⟨e3, he3mem, hst3, hk3, _⟩ := buildPayload_keys mapping d a e2 he2
      intro hc
      have : e3 = e := hinj e3 he3mem (by rw [← hk3, ← hc])
      subst this
      rw [hse] at hst3
      exact absurd hst3 (by simp)
    cases hg : getAttr a e.1 with
    | some cur =>
      have hcur := stagedEntry_none_inv_top d a e cur hg hse
      have hpres := applyPayload_attrs_notkey (buildPayload mapping d a) a
        e.1 hnotkey
      exact stagedEntry_none_top d2 _ e (by rw [hpres, hg, hcur, hmve])
    | none =>
      have hall := stagedEntry_none_inv_custom d a e hg hse
      have hpres := applyPayload_attrs_notkey (buildPayload mapping d a) a
        e.1 hnotkey
      have hcv := applyPayload_cvals_notkey (buildPayload mapping d a) a
        e.1 hnotkey
      refine stagedEntry_none_custom d2 _ e (by rw [hpres, hg]) ?_
      intro x hx
      rw [hcv] at hx
      rw [hmve]
      exact hall x hx

/-! ### Local application of a device's own writes -/

/-- Effect of one write on a single asset record (the asset-level view of
`World.applyWrite`). -/
def assetApplyWrite (a : Asset) (wr : Write) : Asset :=
  match wr with
  | .updateAsset aid P =>
      if getAttr a "id" = some aid then applyPayload a P else a
  | .checkinAsset aid =>
      if getAttr a "id" = some aid then upsertAttr a "assigned_to" Val.vnull else a
  | .checkoutAsset aid uid =>
      if getAttr a "id" = some aid then upsertAttr a "assigned_to" (Val.vuser uid)
      else a
  | _ => a

def assetApplyWrites (a : Asset) (ws : List Write) : Asset :=
  ws.foldl assetApplyWrite a

/-- Effect of one write on a single device record. -/
def devApplyWrite (dv : Device) (wr : Write) : Device :=
  match wr with
  | .updateDevice serial tag =>
      if dv.serial_number = some serial then { dv with asset_tag := tag } else dv
  | _ => dv

def devApplyWrites (dv : Device) (ws : List Write) : Device :=
  ws.foldl devApplyWrite dv

/-- The assignment value an asset's `assigned_to` ends with after a list of
checkout/checkin writes. -/
def ckFoldAssigned (orig : Option Val) (ck : List Write) : Option Val :=
  ck.foldl (fun acc wr => match wr with
    | Write.checkoutAsset _ uid => some (Val.vuser uid)
    | Write.checkinAsset _ => some Val.vnull
    | _ => acc) orig

theorem assetApplyWrites_append (a : Asset) (ws1 ws2 : List Write) :
    assetApplyWrites a (ws1 ++ ws2)
      = assetApplyWrites (assetApplyWrites a ws1) ws2 := by
  unfold assetApplyWrites
  rw [List.foldl_append]

theorem devApplyWrites_append (dv : Device) (ws1 ws2 : List Write) :
    devApplyWrites dv (ws1 ++ ws2)
      = devApplyWrites (devApplyWrites dv ws1) ws2 := by
  unfold devApplyWrites
  rw [List.foldl_append]

theorem devApplyWrite_not_upd (dv : Device) (wr : Write)
    (h : isUpdateDeviceWrite wr = false) : devApplyWrite dv wr = dv := by
  cases wr <;> first | rfl | (exact absurd h (by simp [isUpdateDeviceWrite]))

theorem devApplyWrites_not_upd (dv : Device) (ws : List Write)
    (h : ∀ wr ∈ ws, isUpdateDeviceWrite wr = false) :
    devApplyWrites dv ws = dv := by
  induction ws with
  | nil => rfl
  | cons wr rest ih =>
    show devApplyWrites (devApplyWrite dv wr) rest = dv
    rw [devApplyWrite_not_upd dv wr (h wr (by simp))]
    exact ih (fun w2 hw2 => h w2 (by simp [hw2]))

theorem requireAttr_ok (a : Asset) (k : String) (v : Val) :
    requireAttr a k = .ok v ↔ getAttr a k = some v := by
  unfold requireAttr
  cases h : getAttr a k <;> simp

/-- Changing a device record's asset_tag leaves every other field lookup
unchanged. -/
theorem mdGet_set_tag (d : Device) (t : String) (k : String)
    (hk : k ≠ "asset_tag") :
    mdGet { d with asset_tag := t } k = mdGet d k := by
  unfold mdGet
  split_ifs <;> first | rfl | (exact absurd (by assumption) hk)

/-- `any` over the custom-field collection is determined by the declared
values under the key. -/
theorem customs_any_eq_cvals (cs : List CustomField) (k mv : String) :
    (cs.any (fun cf => cf.fieldName == k && cf.value != mv))
      = ((cvals cs k).any (fun x => x != mv)) := by
  induction cs with
  | nil => rfl
  | cons cf rest ih =>
    rw [List.any_cons, cvals_cons]
    by_cases h : cf.fieldName = k
    · rw [if_pos h, List.any_cons]
      rw [show (cf.fieldName == k) = true from beq_iff_eq.mpr h]
      rw [Bool.true_and, ih]
    · rw [if_neg h]
      rw [show (cf.fieldName == k) = false from beq_eq_false_iff_ne.mpr h]
      rw [Bool.false_and, Bool.false_or, ih]

/-- The diff of one entry depends on the asset only through the attribute
under the entry's key and the custom values declared under it. -/
theorem stagedEntry_congr (d : Device) (x y : Asset) (e : String × String)
    (hattr : getAttr y e.1 = getAttr x e.1)
    (hcv : cvals y.customs e.1 = cvals x.customs e.1) :
    stagedEntry d y e = stagedEntry d x e := by
  unfold stagedEntry
  rw [hattr]
  cases getAttr x e.1 with
  | some cur => rfl
  | none =>
    dsimp only
    rw [customs_any_eq_cvals, customs_any_eq_cvals, hcv]

theorem buildPayload_congr (mapping : List (String × String)) (d : Device)
    (x y : Asset)
    (h : ∀ e ∈ mapping, getAttr y e.1 = getAttr x e.1 ∧
      cvals y.customs e.1 = cvals x.customs e.1) :
    buildPayload mapping d y = buildPayload mapping d x := by
  unfold buildPayload
  apply List.filterMap_congr
  intro e he
  exact stagedEntry_congr d x y e (h e he).1 (h e he).2

/-! ### Inversion lemmas for the checkout and back-sync phases -/

theorem checkout_snipe_asset_shape (users : List (String × Nat))
    (uname : String) (aid : Val) (cu : Val) (ws : List Write)
    (h : checkout_snipe_asset users uname aid cu = .ok ws) :
    ws = [] ∨ (∃ uid, ws = [Write.checkoutAsset aid uid]) ∨
      (∃ uid, ws = [Write.checkinAsset aid, Write.checkoutAsset aid uid]) := by
  unfold checkout_snipe_asset at h
  cases hu : alookup users uname with
  | none =>
    rw [hu] at h
    dsimp only at h
    exact Or.inl ((Except.ok.inj h)).symm
  | some uid =>
    rw [hu] at h
    dsimp only at h
    cases cu with
    | vnull =>
      exact Or.inr (Or.inl ⟨uid, ((Except.ok.inj h)).symm⟩)
    | vstr s2 =>
      dsimp only at h
      by_cases hs2 : s2 = "NewAsset"
      · rw [if_pos hs2] at h
        exact Or.inr (Or.inl ⟨uid, ((Except.ok.inj h)).symm⟩)
      · rw [if_neg hs2] at h
        exact absurd h (by simp)
    | vuser uid2 =>
      dsimp only at h
      by_cases he : uid2 = uid
      · rw [if_pos he] at h
        exact Or.inl ((Except.ok.inj h)).symm
      · rw [if_neg he] at h
        exact Or.inr (Or.inr ⟨uid, ((Except.ok.inj h)).symm⟩)
    | vnum n => exact absurd h (by simp)
    | vstatus m => exact absurd h (by simp)
    | vtime m => exact absurd h (by simp)

theorem checkoutStage_shape (cfg : Config) (users : List (String × Nat))
    (d : Device) (a : Asset) (sid : Val) (ck : List Write)
    (h : checkoutStage cfg users d a sid = .ok ck) :
    ck = [] ∨ (∃ uid, ck = [Write.checkoutAsset sid uid]) ∨
      (∃ uid, ck = [Write.checkinAsset sid, Write.checkoutAsset sid uid]) := by
  unfold checkoutStage at h
  cases hst : getAttr a "status_label" with
  | none =>
    rw [hst] at h
    dsimp only at h
    rw [bindErr] at h
    exact absurd h (by simp)
  | some v =>
    rw [hst] at h
    cases v with
    | vstatus m =>
      dsimp only at h
      rw [bindOk] at h
      by_cases hdep : statusDeployable m = true
      · rw [if_pos hdep] at h
        cases hmd : mdGet d cfg.user_mapping_field with
        | none =>
          rw [hmd] at h
          dsimp only at h
          rw [bindErr] at h
          exact absurd h (by simp)
        | some uname =>
          rw [hmd] at h
          dsimp only at h
          rw [bindOk] at h
          obtain ⟨asg, hasg, h⟩ := bind_eq_ok h
          exact checkout_snipe_asset_shape users uname sid asg ck h
      · rw [if_neg hdep] at h
        exact Or.inl ((Except.ok.inj h)).symm
    | vstr s2 =>
      dsimp only at h
      rw [bindErr] at h
      exact absurd h (by simp)
    | vnull =>
      dsimp only at h
      rw [bindErr] at h
      exact absurd h (by simp)
    | vnum n =>
      dsimp only at h
      rw [bindErr] at h
      exact absurd h (by simp)
    | vuser uid =>
      dsimp only at h
      rw [bindErr] at h
      exact absurd h (by simp)
    | vtime t =>
      dsimp only at h
      rw [bindErr] at h
      exact absurd h (by simp)

theorem checkoutPhase_shape (cfg : Config) (fl : Flags)
    (users : List (String × Nat)) (d : Device) (a : Asset) (sid : Val)
    (ck : List Write) (h : checkoutPhase cfg fl users d a sid = .ok ck) :
    ck = [] ∨ (∃ uid, ck = [Write.checkoutAsset sid uid]) ∨
      (∃ uid, ck = [Write.checkinAsset sid, Write.checkoutAsset sid uid]) := by
  unfold checkoutPhase at h
  by_cases h1 : (fl.users || fl.users_inverse) = true
  · rw [if_pos h1] at h
    obtain ⟨asg, hasg, h⟩ := bind_eq_ok h
    by_cases h2 : checkoutCond fl asg = true
    · rw [if_pos h2] at h
      exact checkoutStage_shape cfg users d a sid ck h
    · rw [if_neg h2] at h
      exact Or.inl ((Except.ok.inj h)).symm
  · rw [if_neg h1] at h
    by_cases h3 : fl.users_force = true
    · rw [if_pos h3] at h
      exact checkoutStage_shape cfg users d a sid ck h
    · rw [if_neg h3] at h
      exact Or.inl ((Except.ok.inj h)).symm

theorem backSyncPhase_inv (d : Device) (a : Asset) (s : String)
    (bs : List Write) (h : backSyncPhase d a s = .ok bs) :
    ∃ tagv, getAttr a "asset_tag" = some tagv ∧
      ((Val.vstr d.asset_tag = tagv ∧ bs = []) ∨
        (∃ t, tagv = Val.vstr t ∧ d.asset_tag ≠ t ∧
          bs = [Write.updateDevice s t])) := by
  unfold backSyncPhase at h
  cases ht : getAttr a "asset_tag" with
  | none =>
    rw [requireAttr.eq_def, ht] at h
    dsimp only at h
    rw [bindErr] at h
    exact absurd h (by simp)
  | some tagv =>
    rw [requireAttr.eq_def, ht] at h
    dsimp only at h
    rw [bindOk] at h
    refine ⟨tagv, rfl, ?_⟩
    by_cases hne : Val.vstr d.asset_tag ≠ tagv
    · rw [if_pos hne] at h
      cases tagv with
      | vstr t =>
        refine Or.inr ⟨t, rfl, fun hc => hne (by rw [hc]), ?_⟩
        exact ((Except.ok.inj h)).symm
      | vnum n => exact absurd h (by simp)
      | vnull => exact absurd h (by simp)
      | vuser u => exact absurd h (by simp)
      | vstatus m => exact absurd h (by simp)
      | vtime t => exact absurd h (by simp)
    · rw [if_neg hne] at h
      rw [not_not] at hne
      exact Or.inl ⟨hne, ((Except.ok.inj h)).symm⟩

/-! ### Second-run stability of the checkout phase -/

theorem checkoutStage_stabilize (cfg : Config) (users : List (String × Nat))
    (d d2 : Device) (a a2 : Asset) (sid sid2 : Val) (ck : List Write)
    (hck : checkoutStage cfg users d a sid = .ok ck)
    (hst : getAttr a2 "status_label" = getAttr a "status_label")
    (hun : mdGet d2 cfg.user_mapping_field = mdGet d cfg.user_mapping_field)
    (has : getAttr a2 "assigned_to"
      = ckFoldAssigned (getAttr a "assigned_to") ck) :
    checkoutStage cfg users d2 a2 sid2 = .ok [] := by
  unfold checkoutStage at hck ⊢
  cases hstat : getAttr a "status_label" with
  | none =>
    rw [hstat] at hck
    dsimp only at hck
    rw [bindErr] at hck
    exact absurd hck (by simp)
  | some v =>
    rw [hstat] at hck
    rw [hst, hstat]
    cases v with
    | vstatus m =>
      dsimp only at hck ⊢
      rw [bindOk] at hck ⊢
      by_cases hdep : statusDeployable m = true
      · rw [if_pos hdep] at hck ⊢
        cases hund : mdGet d cfg.user_mapping_field with
        | none =>
          rw [hund] at hck
          dsimp only at hck
          rw [bindErr] at hck
          exact absurd hck (by simp)
        | some uname =>
          rw [hund] at hck
          rw [hun, hund]
          dsimp only at hck ⊢
          rw [bindOk] at hck ⊢
          obtain ⟨asg, hasg, hck⟩ := bind_eq_ok hck
          rw [requireAttr_ok] at hasg
          unfold checkout_snipe_asset at hck
          cases hu : alookup users uname with
          | none =>
            rw [hu] at hck
            dsimp only at hck
            have hcknil : ck = [] := ((Except.ok.inj hck)).symm
            subst hcknil
            have has2 : getAttr a2 "assigned_to" = some asg := by
              rw [has, ckFoldAssigned, List.foldl_nil, hasg]
            rw [requireAttr.eq_def, has2]
            dsimp only
            rw [bindOk]
            unfold checkout_snipe_asset
            rw [hu]
          | some uid =>
            rw [hu] at hck
            dsimp only at hck
            have hfinal : getAttr a2 "assigned_to" = some (Val.vuser uid) := by
              cases asg with
              | vnull =>
                have : ck = [Write.checkoutAsset sid uid] :=
                  ((Except.ok.inj hck)).symm
                subst this
                rw [has]
                rfl
              | vstr s2 =>
                dsimp only at hck
                by_cases hs2 : s2 = "NewAsset"
                · rw [if_pos hs2] at hck
                  have : ck = [Write.checkoutAsset sid uid] :=
                    ((Except.ok.inj hck)).symm
                  subst this
                  rw [has]
                  rfl
                · rw [if_neg hs2] at hck
                  exact absurd hck (by simp)
              | vuser uid2 =>
                dsimp only at hck
                by_cases he : uid2 = uid
                · rw [if_pos he] at hck
                  have : ck = [] := ((Except.ok.inj hck)).symm
                  subst this
                  rw [has, ckFoldAssigned, List.foldl_nil, hasg, he]
                · rw [if_neg he] at hck
                  have : ck = [Write.checkinAsset sid, Write.checkoutAsset sid uid] :=
                    ((Except.ok.inj hck)).symm
                  subst this
                  rw [has]
                  rfl
              | vnum n => exact absurd hck (by simp)
              | vstatus m2 => exact absurd hck (by simp)
              | vtime t => exact absurd hck (by simp)
            rw [requireAttr.eq_def, hfinal]
            dsimp only
            rw [bindOk]
            unfold checkout_snipe_asset
            rw [hu]
            dsimp only
            rw [if_pos rfl]
      · rw [if_neg hdep] at hck ⊢
    | vstr s2 =>
      dsimp only at hck
      rw [bindErr] at hck
      exact absurd hck (by simp)
    | vnull =>
      dsimp only at hck
      rw [bindErr] at hck
      exact absurd hck (by simp)
    | vnum n =>
      dsimp only at hck
      rw [bindErr] at hck
      exact absurd hck (by simp)
    | vuser uid =>
      dsimp only at hck
      rw [bindErr] at hck
      exact absurd hck (by simp)
    | vtime t =>
      dsimp only at hck
      rw [bindErr] at hck
      exact absurd hck (by simp)

theorem checkoutPhase_stabilize (cfg : Config) (fl : Flags)
    (users : List (String × Nat)) (d d2 : Device) (a a2 : Asset)
    (sid sid2 : Val) (ck : List Write)
    (hck : checkoutPhase cfg fl users d a sid = .ok ck)
    (hst : getAttr a2 "status_label" = getAttr a "status_label")
    (hun : mdGet d2 cfg.user_mapping_field = mdGet d cfg.user_mapping_field)
    (has : getAttr a2 "assigned_to"
      = ckFoldAssigned (getAttr a "assigned_to") ck) :
    checkoutPhase cfg fl users d2 a2 sid2 = .ok [] := by
  unfold checkoutPhase at hck ⊢
  by_cases h1 : (fl.users || fl.users_inverse) = true
  · rw [if_pos h1] at hck ⊢
    obtain ⟨asg, hasg, hck⟩ := bind_eq_ok hck
    rw [requireAttr_ok] at hasg
    by_cases h2 : checkoutCond fl asg = true
    · rw [if_pos h2] at hck
      rcases checkoutStage_shape cfg users d a sid ck hck with hsh | hsh | hsh
      · subst hsh
        have has2 : getAttr a2 "assigned_to" = some asg := by
          rw [has, ckFoldAssigned, List.foldl_nil, hasg]
        rw [requireAttr.eq_def, has2]
        dsimp only
        rw [bindOk, if_pos h2]
        exact checkoutStage_stabilize cfg users d d2 a a2 sid sid2 [] hck hst
          hun has
      · obtain ⟨uid, hsh⟩ := hsh
        subst hsh
        have has2 : getAttr a2 "assigned_to" = some (Val.vuser uid) := by
          rw [has]
          rfl
        rw [requireAttr.eq_def, has2]
        dsimp only
        rw [bindOk]
        by_cases h2b : checkoutCond fl (Val.vuser uid) = true
        · rw [if_pos h2b]
          exact checkoutStage_stabilize cfg users d d2 a a2 sid sid2 _ hck hst
            hun has
        · rw [if_neg h2b]
      · obtain ⟨uid, hsh⟩ := hsh
        subst hsh
        have has2 : getAttr a2 "assigned_to" = some (Val.vuser uid) := by
          rw [has]
          rfl
        rw [requireAttr.eq_def, has2]
        dsimp only
        rw [bindOk]
        by_cases h2b : checkoutCond fl (Val.vuser uid) = true
        · rw [if_pos h2b]
          exact checkoutStage_stabilize cfg users d d2 a a2 sid sid2 _ hck hst
            hun has
        · rw [if_neg h2b]
    · rw [if_neg h2] at hck
      have hcknil : ck = [] := ((Except.ok.inj hck)).symm
      subst hcknil
      have has2 : getAttr a2 "assigned_to" = some asg := by
        rw [has, ckFoldAssigned, List.foldl_nil, hasg]
      rw [requireAttr.eq_def, has2]
      dsimp only
      rw [bindOk, if_neg h2]
  · rw [if_neg h1] at hck ⊢
    by_cases h3 : fl.users_force = true
    · rw [if_pos h3] at hck ⊢
      exact checkoutStage_stabilize cfg users d d2 a a2 sid sid2 ck hck hst
        hun has
    · rw [if_neg h3] at hck ⊢

/-! ### Second-run stability of the whole update sub-flow -/

theorem buildPayload_keys_reserved (mapping : List (String × String))
    (d : Device) (a : Asset)
    (hmapKeys : ∀ e ∈ mapping, e.1 ∉ reservedAttrKeys) :
    ∀ p ∈ buildPayload mapping d a, p.1 ∉ reservedAttrKeys := by
  intro p hp
  obtain ⟨e, hemem, _, hk, _⟩ := buildPayload_keys mapping d a p hp
  rw [hk]
  exact hmapKeys e hemem

theorem updateCallWrites_not_upd (sid : Val) (P : List (String × String)) :
    ∀ wr ∈ updateCallWrites sid P, isUpdateDeviceWrite wr = false := by
  unfold updateCallWrites
  by_cases hp : P.length > 0
  · rw [if_pos hp]
    intro wr hwr
    simp at hwr
    subst hwr
    rfl
  · rw [if_neg hp]
    intro wr hwr
    simp at hwr

theorem assetApplyWrites_updateCall (a : Asset) (sid : Val)
    (P : List (String × String)) (h : getAttr a "id" = some sid) :
    assetApplyWrites a (updateCallWrites sid P) = applyPayload a P := by
  unfold updateCallWrites
  by_cases hp : P.length > 0
  · rw [if_pos hp]
    show assetApplyWrite a (.updateAsset sid P) = applyPayload a P
    unfold assetApplyWrite
    dsimp only
    rw [if_pos h]
  · rw [if_neg hp]
    have hP : P = [] := by
      cases P with
      | nil => rfl
      | cons x xs => simp at hp
    rw [hP]
    rfl

theorem updateFlow_inv (cfg : Config) (fl : Flags)
    (users : List (String × Nat)) (ty : DevClass) (d : Device) (a : Asset)
    (s : String) (ws : List Write)
    (hrun : updateFlow cfg fl users ty d a s = .ok ws) :
    ∃ sid dt ck bs, getAttr a "id" = some sid ∧
      getAttr a "updated_at" = some (Val.vtime dt) ∧
      checkoutPhase cfg fl users d a sid = .ok ck ∧
      backSyncPhase d a s = .ok bs ∧
      ws = updateCallWrites sid (buildPayload (cfg.mapping ty) d a) ++ ck ++ bs := by
  unfold updateFlow at hrun
  dsimp only at hrun
  obtain ⟨sid, hsid, hrun⟩ := bind_eq_ok hrun
  rw [requireAttr_ok] at hsid
  cases hup : getAttr a "updated_at" with
  | none =>
    rw [hup] at hrun
    dsimp only at hrun
    rw [bindErr] at hrun
    exact absurd hrun (by simp)
  | some v =>
    rw [hup] at hrun
    cases v with
    | vtime dt =>
      dsimp only at hrun
      rw [bindOk] at hrun
      obtain ⟨ck, hck, hrun⟩ := bind_eq_ok hrun
      obtain ⟨bs, hbs, hrun⟩ := bind_eq_ok hrun
      exact ⟨sid, dt, ck, bs, hsid, rfl, hck, hbs,
        ((Except.ok.inj hrun)).symm⟩
    | vstr s2 =>
      dsimp only at hrun
      rw [bindErr] at hrun
      exact absurd hrun (by simp)
    | vnull =>
      dsimp only at hrun
      rw [bindErr] at hrun
      exact absurd hrun (by simp)
    | vnum n =>
      dsimp only at hrun
      rw [bindErr] at hrun
      exact absurd hrun (by simp)
    | vuser uid =>
      dsimp only at hrun
      rw [bindErr] at hrun
      exact absurd hrun (by simp)
    | vstatus m =>
      dsimp only at hrun
      rw [bindErr] at hrun
      exact absurd hrun (by simp)

theorem updateFlow_intro (cfg : Config) (fl : Flags)
    (users : List (String × Nat)) (ty : DevClass) (d : Device) (a : Asset)
    (s : String) (sid : Val) (dt : String)
    (hid : getAttr a "id" = some sid)
    (hup : getAttr a "updated_at" = some (Val.vtime dt))
    (hpl : buildPayload (cfg.mapping ty) d a = [])
    (hck : checkoutPhase cfg fl users d a sid = .ok [])
    (hbs : backSyncPhase d a s = .ok []) :
    updateFlow cfg fl users ty d a s = .ok [] := by
  unfold updateFlow
  rw [requireAttr.eq_def, hid]
  dsimp only
  rw [bindOk, hup]
  dsimp only
  rw [bindOk, hpl, hck]
  rw [show updateCallWrites sid [] = [] from rfl, bindOk, hbs, bindOk]
  rfl

/-- The central per-asset stability theorem: after the update sub-flow's
own writes are applied to the device and asset records, re-running the
update sub-flow issues no write at all — provided the field mapping's
Snipe-side keys avoid the engine-reserved attributes and are free of
duplicates, its Mosyle-side fields avoid the device's asset_tag, and the
configured user field is not the asset_tag. -/
theorem updateFlow_stabilize (cfg : Config) (fl : Flags)
    (users : List (String × Nat)) (ty : DevClass) (d : Device) (a : Asset)
    (s : String) (ws : List Write)
    (hmapKeys : ∀ e ∈ cfg.mapping ty, e.1 ∉ reservedAttrKeys ∧ e.2 ≠ "asset_tag")
    (hmapNodup : (((cfg.mapping ty)).map Prod.fst).Nodup)
    (huser : cfg.user_mapping_field ≠ "asset_tag")
    (hs : d.serial_number = some s)
    (hrun : updateFlow cfg fl users ty d a s = .ok ws) :
    updateFlow cfg fl users ty (devApplyWrites d ws) (assetApplyWrites a ws) s
      = .ok [] := by
  obtain ⟨sid, dt, ck, bs, hsid, hup, hck, hbs, hws⟩ :=
    updateFlow_inv cfg fl users ty d a s ws hrun
  set P := buildPayload (cfg.mapping ty) d a with hPdef
  have hPres : ∀ (k : String), k ∈ reservedAttrKeys → ∀ e ∈ P, k ≠ e.1 := by
    intro k hk e he hceq
    exact buildPayload_keys_reserved (cfg.mapping ty) d a
      (fun e2 he2 => (hmapKeys e2 he2).1) e he (hceq ▸ hk)
  -- the device after the run's writes
  have hdev : devApplyWrites d ws
      = devApplyWrites d bs := by
    rw [hws, devApplyWrites_append, devApplyWrites_append]
    rw [devApplyWrites_not_upd d _ (updateCallWrites_not_upd sid P),
      devApplyWrites_not_upd d ck
        (checkoutPhase_writes cfg fl users d a sid ck hck)]
  -- the asset after the run's writes
  have hasset : assetApplyWrites a ws
      = assetApplyWrites (applyPayload a P) ck := by
    rw [hws, assetApplyWrites_append, assetApplyWrites_append,
      assetApplyWrites_updateCall a sid P hsid]
    obtain ⟨tagv, htagv, hd⟩ := backSyncPhase_inv d a s bs hbs
    rcases hd with ⟨heq, hbsnil⟩ | ⟨t, htv, hne, hbs1⟩
    · rw [hbsnil]
      rfl
    · rw [hbs1]
      rfl
  set aP := applyPayload a P with haPdef
  have hidP : getAttr aP "id" = some sid := by
    rw [haPdef, applyPayload_attrs_notkey P a _ (hPres "id" (by decide))]
    exact hsid
  have hupP : getAttr aP "updated_at" = some (Val.vtime dt) := by
    rw [haPdef, applyPayload_attrs_notkey P a _ (hPres "updated_at" (by decide))]
    exact hup
  have hstP : getAttr aP "status_label" = getAttr a "status_label" := by
    rw [haPdef]
    exact applyPayload_attrs_notkey P a _ (hPres "status_label" (by decide))
  have hasgP : getAttr aP "assigned_to" = getAttr a "assigned_to" := by
    rw [haPdef]
    exact applyPayload_attrs_notkey P a _ (hPres "assigned_to" (by decide))
  have htagP : getAttr aP "asset_tag" = getAttr a "asset_tag" := by
    rw [haPdef]
    exact applyPayload_attrs_notkey P a _ (hPres "asset_tag" (by decide))
  -- shape of the checkout writes and the resulting asset
  have hckshape := checkoutPhase_shape cfg fl users d a sid ck hck
  have ha2 : ∃ a2, assetApplyWrites aP ck = a2 ∧ a2.customs = aP.customs ∧
      getAttr a2 "id" = some sid ∧
      getAttr a2 "updated_at" = some (Val.vtime dt) ∧
      getAttr a2 "status_label" = getAttr a "status_label" ∧
      getAttr a2 "asset_tag" = getAttr a "asset_tag" ∧
      (∀ k, k ≠ "assigned_to" → getAttr a2 k = getAttr aP k) ∧
      getAttr a2 "assigned_to"
        = ckFoldAssigned (getAttr a "assigned_to") ck := by
    rcases hckshape with hsh | ⟨uid, hsh⟩ | ⟨uid, hsh⟩
    · subst hsh
      refine ⟨aP, rfl, rfl, hidP, hupP, hstP, htagP, fun k _ => rfl, ?_⟩
      rw [ckFoldAssigned, List.foldl_nil, hasgP]
    · subst hsh
      have happ : assetApplyWrites aP [Write.checkoutAsset sid uid]
          = upsertAttr aP "assigned_to" (Val.vuser uid) := by
        show assetApplyWrite aP (Write.checkoutAsset sid uid) = _
        unfold assetApplyWrite
        dsimp only
        rw [if_pos hidP]
      refine ⟨_, happ, customs_upsertAttr aP _ _, ?_, ?_, ?_, ?_, ?_, ?_⟩
      · rw [getAttr_upsertAttr_other _ _ _ _ (by decide)]
        exact hidP
      · rw [getAttr_upsertAttr_other _ _ _ _ (by decide)]
        exact hupP
      · rw [getAttr_upsertAttr_other _ _ _ _ (by decide)]
        exact hstP
      · rw [getAttr_upsertAttr_other _ _ _ _ (by decide)]
        exact htagP
      · intro k hk
        exact getAttr_upsertAttr_other aP _ k _ hk
      · rw [getAttr_upsertAttr_self]
        rfl
    · subst hsh
      have happ : assetApplyWrites aP
            [Write.checkinAsset sid, Write.checkoutAsset sid uid]
          = upsertAttr (upsertAttr aP "assigned_to" Val.vnull)
              "assigned_to" (Val.vuser uid) := by
        show assetApplyWrite (assetApplyWrite aP (Write.checkinAsset sid))
            (Write.checkoutAsset sid uid) = _
        unfold assetApplyWrite
        dsimp only
        rw [if_pos hidP]
        rw [if_pos (by
          rw [getAttr_upsertAttr_other _ _ _ _ (by decide)]
          exact hidP)]
      refine ⟨_, happ, ?_, ?_, ?_, ?_, ?_, ?_, ?_⟩
      · rw [customs_upsertAttr, customs_upsertAttr]
      · rw [getAttr_upsertAttr_other _ _ _ _ (by decide),
          getAttr_upsertAttr_other _ _ _ _ (by decide)]
        exact hidP
      · rw [getAttr_upsertAttr_other _ _ _ _ (by decide),
          getAttr_upsertAttr_other _ _ _ _ (by decide)]
        exact hupP
      · rw [getAttr_upsertAttr_other _ _ _ _ (by decide),
          getAttr_upsertAttr_other _ _ _ _ (by decide)]
        exact hstP
      · rw [getAttr_upsertAttr_other _ _ _ _ (by decide),
          getAttr_upsertAttr_other _ _ _ _ (by decide)]
        exact htagP
      · intro k hk
        rw [getAttr_upsertAttr_other _ _ _ _ hk,
          getAttr_upsertAttr_other _ _ _ _ hk]
      · rw [getAttr_upsertAttr_self]
        rfl
  obtain ⟨a2, ha2eq, ha2cust, ha2id, ha2up, ha2st, ha2tag, ha2other, ha2asg⟩ := ha2
  -- the device after the run's writes, concretely
  obtain ⟨tagv, htagv, hdcase⟩ := backSyncPhase_inv d a s bs hbs
  have hd2 : ∃ d2, devApplyWrites d ws = d2 ∧
      (∀ k, k ≠ "asset_tag" → mdGet d2 k = mdGet d k) ∧
      backSyncPhase d2 a2 s = .ok [] := by
    rcases hdcase with ⟨heq, hbsnil⟩ | ⟨t, htv, hne, hbs1⟩
    · refine ⟨d, by rw [hdev, hbsnil]; rfl, fun k _ => rfl, ?_⟩
      unfold backSyncPhase
      rw [requireAttr.eq_def, ha2tag, htagv]
      dsimp only
      rw [bindOk, if_neg (by rw [← heq]; exact fun hc => hc rfl)]
    · refine ⟨{ d with asset_tag := t }, ?_, ?_, ?_⟩
      · rw [hdev, hbs1]
        show devApplyWrite d (Write.updateDevice s t) = _
        unfold devApplyWrite
        dsimp only
        rw [if_pos hs]
      · intro k hk
        exact mdGet_set_tag d t k hk
      · unfold backSyncPhase
        rw [requireAttr.eq_def, ha2tag, htagv, htv]
        dsimp only
        rw [bindOk, if_neg (by
          intro hc
          exact hc rfl)]
  obtain ⟨d2, hd2eq, hd2md, hd2bs⟩ := hd2
  rw [hd2eq, hasset, ha2eq]
  -- the second-run payload is empty
  have hpl2 : buildPayload (cfg.mapping ty) d2 a2 = [] := by
    have hcongr : buildPayload (cfg.mapping ty) d2 a2
        = buildPayload (cfg.mapping ty) d2 aP := by
      apply buildPayload_congr
      intro e he
      constructor
      · apply ha2other
        intro hc
        exact (hmapKeys e he).1 (hc ▸ (by decide : "assigned_to" ∈ reservedAttrKeys))
      · rw [ha2cust]
    rw [hcongr, haPdef, hPdef]
    apply buildPayload_stable (cfg.mapping ty) d d2 a hmapNodup
    intro e he
    by_cases hk : e.2 = "asset_tag"
    · exact absurd hk (hmapKeys e he).2
    · exact hd2md e.2 hk
  -- the second-run checkout issues nothing
  have hck2 : checkoutPhase cfg fl users d2 a2 sid = .ok [] := by
    apply checkoutPhase_stabilize cfg fl users d d2 a a2 sid sid ck hck
    · rw [ha2st]
    · exact hd2md cfg.user_mapping_field huser
    · exact ha2asg
  exact updateFlow_intro cfg fl users ty d2 a2 s sid dt ha2id ha2up hpl2
    hck2 hd2bs

/-! ### World-level views and frame lemmas -/

/-- The devices of one class carrying a given serial. -/
def devsWithSerial (w : World) (ty : DevClass) (s : String) : List Device :=
  (match ty with
    | DevClass.computers => w.computers
    | DevClass.mobile_devices => w.mobiles).filter
    (fun dv => dv.serial_number = some s)

/-- Distinctness and freshness of asset ids: the engine targets update,
checkin and checkout calls by the id attribute, so two distinct assets may
not share one, and ids of numeric form stay below the creation counter. -/
def AssetIdInv (w : World) : Prop :=
  List.Pairwise (fun a b => getAttr a "id" ≠ getAttr b "id") w.assets ∧
    ∀ a ∈ w.assets, ∀ n, getAttr a "id" = some (Val.vnum n) →
      n < w.nextAssetId

theorem filter_map_comm {α : Type} (f : α → α) (p : α → Bool) (l : List α)
    (h : ∀ a ∈ l, p (f a) = p a) :
    (l.map f).filter p = (l.filter p).map f := by
  induction l with
  | nil => rfl
  | cons a rest ih =>
    rw [List.map_cons, List.filter_cons, List.filter_cons, h a (by simp)]
    by_cases hp : p a = true
    · rw [if_pos hp, if_pos hp, List.map_cons,
        ih (fun x hx => h x (by simp [hx]))]
    · rw [if_neg hp, if_neg hp, ih (fun x hx => h x (by simp [hx]))]

theorem filter_map_of_fixed {α : Type} (f : α → α) (p : α → Bool) (l : List α)
    (h : ∀ a ∈ l, p (f a) = p a ∧ (p a = true → f a = a)) :
    (l.map f).filter p = l.filter p := by
  induction l with
  | nil => rfl
  | cons a rest ih =>
    rw [List.map_cons, List.filter_cons, List.filter_cons, (h a (by simp)).1]
    by_cases hp : p a = true
    · rw [if_pos hp, if_pos hp, (h a (by simp)).2 hp,
        ih (fun x hx => h x (by simp [hx]))]
    · rw [if_neg hp, if_neg hp, ih (fun x hx => h x (by simp [hx]))]

theorem assetsWithSerial_mapped (w : World) (s : String) (f : Asset → Asset)
    (hser : ∀ a ∈ w.assets, getAttr (f a) "serial" = getAttr a "serial") :
    assetsWithSerial { w with assets := w.assets.map f } s
      = (assetsWithSerial w s).map f := by
  unfold assetsWithSerial
  exact filter_map_comm f _ w.assets (fun a ha => by
    simp only [hser a ha])

theorem assetsWithSerial_mapped_frame (w : World) (s2 : String)
    (f : Asset → Asset)
    (hser : ∀ a ∈ w.assets, getAttr (f a) "serial" = getAttr a "serial")
    (hfix : ∀ a ∈ w.assets,
      getAttr a "serial" = some (Val.vstr s2) → f a = a) :
    assetsWithSerial { w with assets := w.assets.map f } s2
      = assetsWithSerial w s2 := by
  unfold assetsWithSerial
  exact filter_map_of_fixed f _ w.assets (fun a ha =>
    ⟨by simp only [hser a ha], fun hp => hfix a ha (by
      simpa using hp)⟩)

theorem assetsWithSerial_append_other (w : World) (s2 : String) (a : Asset)
    (h : getAttr a "serial" ≠ some (Val.vstr s2)) :
    assetsWithSerial { w with assets := w.assets ++ [a] } s2
      = assetsWithSerial w s2 := by
  unfold assetsWithSerial
  rw [List.filter_append]
  have : List.filter (fun b => decide (getAttr b "serial" = some (Val.vstr s2)))
      [a] = [] := by
    rw [List.filter_cons]
    rw [if_neg (by simpa using h)]
    rfl
  rw [this, List.append_nil]

theorem assetsWithSerial_append_self (w : World) (s : String) (a : Asset)
    (h : getAttr a "serial" = some (Val.vstr s)) :
    assetsWithSerial { w with assets := w.assets ++ [a] } s
      = assetsWithSerial w s ++ [a] := by
  unfold assetsWithSerial
  rw [List.filter_append]
  congr 1
  rw [List.filter_cons, if_pos (by simpa using h)]
  rfl

theorem getAttr_mkNewAsset_serial (id : Nat) (tag name serial meta : String) :
    getAttr (mkNewAsset id tag name serial meta) "serial"
      = some (Val.vstr serial) := rfl

theorem getAttr_mkNewAsset_id (id : Nat) (tag name serial meta : String) :
    getAttr (mkNewAsset id tag name serial meta) "id"
      = some (Val.vnum id) := rfl

/-! Projection facts for each write kind. -/

theorem applyWrite_users (w : World) (wr : Write) :
    (w.applyWrite wr).users = w.users := by
  cases wr <;> rfl

theorem applyWrite_statusMetas (w : World) (wr : Write) :
    (w.applyWrite wr).statusMetas = w.statusMetas := by
  cases wr <;> rfl

theorem applyWrites_users (w : World) (ws : List Write) :
    (w.applyWrites ws).users = w.users := by
  induction ws generalizing w with
  | nil => rfl
  | cons wr rest ih =>
    show ((w.applyWrite wr).applyWrites rest).users = w.users
    rw [ih, applyWrite_users]

theorem applyWrites_statusMetas (w : World) (ws : List Write) :
    (w.applyWrites ws).statusMetas = w.statusMetas := by
  induction ws generalizing w with
  | nil => rfl
  | cons wr rest ih =>
    show ((w.applyWrite wr).applyWrites rest).statusMetas = w.statusMetas
    rw [ih, applyWrite_statusMetas]

theorem applyWrites_append (w : World) (ws1 ws2 : List Write) :
    w.applyWrites (ws1 ++ ws2) = (w.applyWrites ws1).applyWrites ws2 := by
  unfold World.applyWrites
  rw [List.foldl_append]

theorem applyWrites_cons (w : World) (wr : Write) (ws : List Write) :
    w.applyWrites (wr :: ws) = (w.applyWrite wr).applyWrites ws := rfl

theorem applyWrites_nil (w : World) : w.applyWrites [] = w := rfl

/-! ### Dictionary assignment lemmas -/

theorem alookup_ainsert_self {α : Type} (l : List (String × α)) (k : String)
    (v : α) : alookup (ainsert l k v) k = some v := by
  unfold ainsert
  by_cases h : (alookup l k).isSome
  · rw [if_pos h]
    exact alookup_replace_self l k v h
  · rw [if_neg h, alookup_append]
    rw [Option.not_isSome_iff_eq_none] at h
    rw [h, alookup_cons, if_pos rfl]

theorem alookup_ainsert_other {α : Type} (l : List (String × α))
    (k k2 : String) (v : α) (h : k2 ≠ k) :
    alookup (ainsert l k v) k2 = alookup l k2 := by
  unfold ainsert
  by_cases hs : (alookup l k).isSome
  · rw [if_pos hs]
    exact alookup_replace_other l k k2 v h
  · rw [if_neg hs, alookup_append]
    cases hl : alookup l k2 with
    | some v2 => rfl
    | none =>
      rw [alookup_cons, if_neg (fun hc => h hc.symm)]
      rfl

theorem alookup_ainsert_isSome {α : Type} (l : List (String × α))
    (k k2 : String) (v : α) (h : (alookup l k2).isSome) :
    (alookup (ainsert l k v) k2).isSome := by
  by_cases hk : k2 = k
  · rw [hk, alookup_ainsert_self]
    rfl
  · rw [alookup_ainsert_other l k k2 v hk]
    exact h

/-! ### Registry characterisation -/

/-- The last model of a listing carrying a given model_number — the one
whose id the repeated dict assignment of lines 319-322 leaves in
`modelnumbers`. -/
def lastFind (models : List SnipeModel) (n : String) : Option SnipeModel :=
  models.foldl (fun acc m => if m.model_number = n then some m else acc) none

theorem lastFind_fold_acc (n : String) (models : List SnipeModel) :
    ∀ acc : Option SnipeModel,
    models.foldl (fun acc m => if m.model_number = n then some m else acc) acc
      = match lastFind models n with
        | some m2 => some m2
        | none => acc := by
  induction models with
  | nil => intro acc; rfl
  | cons m rest ih =>
    intro acc
    show List.foldl _ (if m.model_number = n then some m else acc) rest = _
    rw [ih]
    show _ = match List.foldl _ (if m.model_number = n then some m else none)
      rest with
      | some m2 => some m2
      | none => acc
    rw [ih (if m.model_number = n then some m else none)]
    by_cases hm : m.model_number = n
    · rw [if_pos hm, if_pos hm]
      cases lastFind rest n <;> rfl
    · rw [if_neg hm, if_neg hm]
      cases lastFind rest n <;> rfl

theorem lastFind_cons (m : SnipeModel) (rest : List SnipeModel) (n : String) :
    lastFind (m :: rest) n
      = match lastFind rest n with
        | some m2 => some m2
        | none => if m.model_number = n then some m else none := by
  show List.foldl _ (if m.model_number = n then some m else none) rest = _
  rw [lastFind_fold_acc]

theorem lastFind_mem (models : List SnipeModel) (n : String) :
    ∀ m, lastFind models n = some m → m ∈ models ∧ m.model_number = n := by
  induction models with
  | nil => intro m h; exact absurd h (by simp [lastFind])
  | cons m0 rest ih =>
    intro m h
    rw [lastFind_cons] at h
    cases hr : lastFind rest n with
    | some m2 =>
      rw [hr] at h
      dsimp only at h
      have h2 : m2 = m := Option.some.inj h
      obtain ⟨hmem, hnum⟩ := ih m2 hr
      exact ⟨h2 ▸ List.mem_cons_of_mem m0 hmem, h2 ▸ hnum⟩
    | none =>
      rw [hr] at h
      dsimp only at h
      by_cases hm : m0.model_number = n
      · rw [if_pos hm] at h
        have h2 : m0 = m := Option.some.inj h
        exact ⟨h2 ▸ List.mem_cons_self m0 rest, h2 ▸ hm⟩
      · rw [if_neg hm] at h
        exact absurd h (by simp)

theorem lastFind_isSome_of_mem (models : List SnipeModel) (n : String)
    (m : SnipeModel) (hmem : m ∈ models) (hnum : m.model_number = n) :
    (lastFind models n).isSome := by
  induction models with
  | nil => exact absurd hmem (by simp)
  | cons m0 rest ih =>
    rw [lastFind_cons]
    cases hr : lastFind rest n with
    | some m2 => rfl
    | none =>
      rcases List.mem_cons.mp hmem with hm0 | hrest
      · rw [hm0] at hnum
        rw [if_pos hnum]
        rfl
      · have := ih hrest
        rw [hr] at this
        exact absurd this (by simp)

theorem registry_fold_lookup (n : String) (hn : n ≠ "") :
    ∀ (models : List SnipeModel) (init : Registry),
    alookup (List.foldl registryStep init models).modelnumbers n
      = match lastFind models n with
        | some m => some m.id
        | none => alookup init.modelnumbers n := by
  intro models
  induction models with
  | nil => intro init; rfl
  | cons m rest ih =>
    intro init
    rw [List.foldl_cons, ih (registryStep init m), lastFind_cons]
    by_cases hm : m.model_number = n
    · have hstep : registryStep init m
          = ⟨ainsert init.modelnumbers m.model_number m.id,
             init.modelnames ++ [m.name]⟩ := by
        unfold registryStep
        rw [if_neg (hm ▸ hn)]
      rw [hstep, if_pos hm]
      cases lastFind rest n with
      | some m2 => rfl
      | none =>
        show alookup (ainsert init.modelnumbers m.model_number m.id) n
          = some m.id
        rw [hm, alookup_ainsert_self]
    · rw [if_neg hm]
      have hbase : alookup (registryStep init m).modelnumbers n
          = alookup init.modelnumbers n := by
        unfold registryStep
        by_cases hz : m.model_number = ""
        · rw [if_pos hz]
        · rw [if_neg hz]
          exact alookup_ainsert_other _ _ _ _ (fun hc => hm hc.symm)
      cases lastFind rest n with
      | some m2 => rfl
      | none => exact hbase

theorem buildRegistry_numbers (models : List SnipeModel) (n : String)
    (hn : n ≠ "") :
    alookup (buildRegistry models).modelnumbers n
      = (lastFind models n).map (fun m => m.id) := by
  unfold buildRegistry
  rw [registry_fold_lookup n hn models ⟨[], []⟩]
  cases lastFind models n <;> rfl

theorem registry_fold_lookup_empty :
    ∀ (models : List SnipeModel) (init : Registry),
    alookup init.modelnumbers "" = none →
    alookup (List.foldl registryStep init models).modelnumbers "" = none := by
  intro models
  induction models with
  | nil => intro init h; exact h
  | cons m rest ih =>
    intro init h
    rw [List.foldl_cons]
    refine ih (registryStep init m) ?_
    unfold registryStep
    by_cases hz : m.model_number = ""
    · rw [if_pos hz]
      exact h
    · rw [if_neg hz]
      rw [alookup_ainsert_other _ _ _ _ (fun hc => hz hc.symm)]
      exact h

theorem buildRegistry_numbers_empty (models : List SnipeModel) :
    alookup (buildRegistry models).modelnumbers "" = none :=
  registry_fold_lookup_empty models ⟨[], []⟩ rfl

theorem registry_fold_names :
    ∀ (models : List SnipeModel) (init : Registry),
    (List.foldl registryStep init models).modelnames
      = init.modelnames
        ++ (models.filter (fun m => ¬(m.model_number = ""))).map
            (fun m => m.name) := by
  intro models
  induction models with
  | nil =>
    intro init
    rw [List.filter_nil, List.map_nil, List.append_nil]
    rfl
  | cons m rest ih =>
    intro init
    rw [List.foldl_cons, ih (registryStep init m), List.filter_cons]
    by_cases hz : m.model_number = ""
    · rw [if_neg (by simpa using hz)]
      unfold registryStep
      rw [if_pos hz]
    · rw [if_pos (by simpa using hz)]
      unfold registryStep
      rw [if_neg hz]
      rw [List.map_cons, List.append_assoc]
      rfl

theorem buildRegistry_names (models : List SnipeModel) :
    (buildRegistry models).modelnames
      = (models.filter (fun m => ¬(m.model_number = ""))).map
          (fun m => m.name) :=
  registry_fold_names models ⟨[], []⟩

/-! ### Device-record preservation under writes -/

theorem devApplyWrite_serial (dv : Device) (wr : Write) :
    (devApplyWrite dv wr).serial_number = dv.serial_number := by
  cases wr <;> unfold devApplyWrite <;> dsimp only
  case updateDevice serial tag =>
    by_cases h : dv.serial_number = some serial
    · rw [if_pos h]
    · rw [if_neg h]

theorem devApplyWrites_serial (dv : Device) (ws : List Write) :
    (devApplyWrites dv ws).serial_number = dv.serial_number := by
  induction ws generalizing dv with
  | nil => rfl
  | cons wr rest ih =>
    show (devApplyWrites (devApplyWrite dv wr) rest).serial_number = _
    rw [ih, devApplyWrite_serial]

theorem devApplyWrite_model (dv : Device) (wr : Write) :
    (devApplyWrite dv wr).device_model = dv.device_model := by
  cases wr <;> unfold devApplyWrite <;> dsimp only
  case updateDevice serial tag =>
    by_cases h : dv.serial_number = some serial
    · rw [if_pos h]
    · rw [if_neg h]

theorem devApplyWrites_model (dv : Device) (ws : List Write) :
    (devApplyWrites dv ws).device_model = dv.device_model := by
  induction ws generalizing dv with
  | nil => rfl
  | cons wr rest ih =>
    show (devApplyWrites (devApplyWrite dv wr) rest).device_model = _
    rw [ih, devApplyWrite_model]

theorem devApplyWrite_model_name (dv : Device) (wr : Write) :
    (devApplyWrite dv wr).device_model_name = dv.device_model_name := by
  cases wr <;> unfold devApplyWrite <;> dsimp only
  case updateDevice serial tag =>
    by_cases h : dv.serial_number = some serial
    · rw [if_pos h]
    · rw [if_neg h]

theorem devApplyWrites_model_name (dv : Device) (ws : List Write) :
    (devApplyWrites dv ws).device_model_name = dv.device_model_name := by
  induction ws generalizing dv with
  | nil => rfl
  | cons wr rest ih =>
    show (devApplyWrites (devApplyWrite dv wr) rest).device_model_name = _
    rw [ih, devApplyWrite_model_name]

/-! ### Projections of the world under one write -/

theorem applyWrite_computers (w : World) (wr : Write) :
    (w.applyWrite wr).computers
      = w.computers.map (fun dv => devApplyWrite dv wr) := by
  cases wr <;> simp [World.applyWrite, devApplyWrite]

theorem applyWrite_mobiles (w : World) (wr : Write) :
    (w.applyWrite wr).mobiles
      = w.mobiles.map (fun dv => devApplyWrite dv wr) := by
  cases wr <;> simp [World.applyWrite, devApplyWrite]

theorem applyWrites_computers (w : World) (ws : List Write) :
    (w.applyWrites ws).computers
      = w.computers.map (fun dv => devApplyWrites dv ws) := by
  induction ws generalizing w with
  | nil =>
    show w.computers = w.computers.map (fun dv => devApplyWrites dv [])
    rw [show (fun dv => devApplyWrites dv []) = fun dv : Device => dv from rfl]
    rw [List.map_id']
  | cons wr rest ih =>
    show ((w.applyWrite wr).applyWrites rest).computers = _
    rw [ih, applyWrite_computers, List.map_map]
    rfl

theorem applyWrites_mobiles (w : World) (ws : List Write) :
    (w.applyWrites ws).mobiles
      = w.mobiles.map (fun dv => devApplyWrites dv ws) := by
  induction ws generalizing w with
  | nil =>
    show w.mobiles = w.mobiles.map (fun dv => devApplyWrites dv [])
    rw [show (fun dv => devApplyWrites dv []) = fun dv : Device => dv from rfl]
    rw [List.map_id']
  | cons wr rest ih =>
    show ((w.applyWrite wr).applyWrites rest).mobiles = _
    rw [ih, applyWrite_mobiles, List.map_map]
    rfl

theorem applyWrite_models_eq (w : World) (wr : Write) :
    (w.applyWrite wr).models
      = match wr with
        | .createModel number name _ _ _ =>
            w.models ++ [⟨w.nextModelId, number, name⟩]
        | .updateModelName mid name =>
            w.models.map (fun m => if m.id = mid then { m with name := name }
              else m)
        | _ => w.models := by
  cases wr <;> rfl

theorem applyWrite_nextModelId (w : World) (wr : Write) :
    (w.applyWrite wr).nextModelId
      = match wr with
        | .createModel _ _ _ _ _ => w.nextModelId + 1
        | _ => w.nextModelId := by
  cases wr <;> rfl

theorem applyWrite_nextAssetId (w : World) (wr : Write) :
    (w.applyWrite wr).nextAssetId
      = match wr with
        | .createAsset _ _ _ _ _ => w.nextAssetId + 1
        | _ => w.nextAssetId := by
  cases wr <;> rfl

/-! ### Run-level invariants -/

/-- Every model listed under a given model_number carries the given name
(what the global `modelnames` membership test of line 375 implicitly
relies on). -/
abbrev NameInv (dm dname : String) (w : World) : Prop :=
  ∀ m ∈ w.models, m.model_number = dm → m.name = dname

/-- Some model with the given model_number exists. -/
def ModelPresent (w : World) (dm : String) : Prop :=
  ∃ m ∈ w.models, m.model_number = dm

/-- Registry entries point at listed models carrying the entry's
model_number. -/
def RegInv (reg : Registry) (w : World) : Prop :=
  ∀ n mid, alookup reg.modelnumbers n = some mid →
    ∃ m ∈ w.models, m.id = mid ∧ m.model_number = n

/-- Distinctness and freshness of model ids. -/
def ModelIdInv (w : World) : Prop :=
  (w.models.map (fun m => m.id)).Nodup ∧
    ∀ m ∈ w.models, m.id < w.nextModelId

theorem buildRegistry_regInv (w : World) :
    RegInv (buildRegistry w.models) w := by
  intro n mid hl
  by_cases hn : n = ""
  · rw [hn, buildRegistry_numbers_empty] at hl
    exact absurd hl (by simp)
  · rw [buildRegistry_numbers w.models n hn] at hl
    cases hf : lastFind w.models n with
    | none => rw [hf] at hl; exact absurd hl (by simp)
    | some m =>
      rw [hf] at hl
      obtain ⟨hmem, hnum⟩ := lastFind_mem w.models n m hf
      exact ⟨m, hmem, Option.some.inj hl, hnum⟩

theorem modelPresent_applyWrite (w : World) (wr : Write) (dm : String)
    (h : ModelPresent w dm) : ModelPresent (w.applyWrite wr) dm := by
  obtain ⟨m, hmem, hnum⟩ := h
  cases wr with
  | createModel number name c mf f =>
    exact ⟨m, List.mem_append_left _ hmem, hnum⟩
  | updateModelName mid name =>
    by_cases hid : m.id = mid
    · refine ⟨{ m with name := name }, ?_, hnum⟩
      refine List.mem_map.mpr ⟨m, hmem, ?_⟩
      rw [if_pos hid]
    · refine ⟨m, ?_, hnum⟩
      refine List.mem_map.mpr ⟨m, hmem, ?_⟩
      rw [if_neg hid]
  | createAsset t mi nm st se => exact ⟨m, hmem, hnum⟩
  | updateAsset aid p => exact ⟨m, hmem, hnum⟩
  | checkinAsset aid => exact ⟨m, hmem, hnum⟩
  | checkoutAsset aid uid => exact ⟨m, hmem, hnum⟩
  | updateDevice s t => exact ⟨m, hmem, hnum⟩

theorem modelPresent_applyWrites (w : World) (ws : List Write) (dm : String)
    (h : ModelPresent w dm) : ModelPresent (w.applyWrites ws) dm := by
  induction ws generalizing w with
  | nil => exact h
  | cons wr rest ih =>
    rw [applyWrites_cons]
    exact ih (w.applyWrite wr) (modelPresent_applyWrite w wr dm h)

/-- Within a list of models with pairwise-distinct ids, `find?` by a
member's id returns that member. -/
theorem find_id_of_mem (models : List SnipeModel)
    (hnd : (models.map (fun m => m.id)).Nodup) (m : SnipeModel)
    (hmem : m ∈ models) :
    models.find? (fun m2 => m2.id = m.id) = some m := by
  induction models with
  | nil => exact absurd hmem (by simp)
  | cons m0 rest ih =>
    rw [List.map_cons, List.nodup_cons] at hnd
    by_cases h0 : m0.id = m.id
    · have hd : decide (m0.id = m.id) = true := by simpa using h0
      rw [List.find?_cons, hd]
      rcases List.mem_cons.mp hmem with he | hr
      · rw [he]
      · exact absurd (h0 ▸ List.mem_map_of_mem (fun m2 => m2.id) hr) hnd.1
    · have hd : decide (m0.id = m.id) = false := by simpa using h0
      rw [List.find?_cons, hd]
      rcases List.mem_cons.mp hmem with he | hr
      · exact absurd (congrArg (fun m2 => m2.id) he.symm) h0
      · exact ih hnd.2 hr

/-- Distinct asset ids make the id attribute injective on the listing. -/
theorem asset_id_inj (l : List Asset)
    (hp : List.Pairwise (fun a b => getAttr a "id" ≠ getAttr b "id") l) :
    ∀ a ∈ l, ∀ b ∈ l, getAttr a "id" = getAttr b "id" → a = b := by
  induction l with
  | nil => intro a ha; exact absurd ha (by simp)
  | cons x rest ih =>
    rw [List.pairwise_cons] at hp
    intro a ha b hb heq
    rcases List.mem_cons.mp ha with hax | har
    · rcases List.mem_cons.mp hb with hbx | hbr
      · rw [hax, hbx]
      · exact absurd (hax ▸ heq) (hp.1 b hbr)
    · rcases List.mem_cons.mp hb with hbx | hbr
      · exact absurd (hbx ▸ heq.symm) (hp.1 a har)
      · exact ih hp.2 a har b hbr heq

/-! ### Lookup classification lemmas -/

theorem lookupSerial_single (w : World) (s : String) (a : Asset)
    (h : assetsWithSerial w s = [a]) : lookupSerial w s = .single a := by
  unfold lookupSerial
  rw [h]

theorem lookupSerial_multi (w : World) (s : String)
    (h : 2 ≤ (assetsWithSerial w s).length) :
    lookupSerial w s = .multiMatch := by
  unfold lookupSerial
  cases hl : assetsWithSerial w s with
  | nil => rw [hl] at h; exact absurd h (by simp)
  | cons a rest =>
    cases rest with
    | nil => rw [hl] at h; exact absurd h (by simp)
    | cons b rest2 => rfl

theorem lookupSerial_none (w : World) (s : String)
    (h : assetsWithSerial w s = []) : lookupSerial w s = .noMatch := by
  unfold lookupSerial
  rw [h]

/-- A device list with pairwise-distinct serial numbers filters to the
singleton of any member whose serial is given. -/
theorem filter_serial_singleton (l : List Device)
    (hnd : (l.map (fun dv => dv.serial_number)).Nodup) (d : Device)
    (hmem : d ∈ l) (s : String) (hs : d.serial_number = some s) :
    l.filter (fun dv => dv.serial_number = some s) = [d] := by
  induction l with
  | nil => exact absurd hmem (by simp)
  | cons d0 rest ih =>
    rw [List.map_cons, List.nodup_cons] at hnd
    rw [List.filter_cons]
    rcases List.mem_cons.mp hmem with he | hr
    · rw [he] at hs
      rw [he]
      rw [if_pos (by simpa using hs)]
      have hrest : rest.filter (fun dv => dv.serial_number = some s) = [] := by
        rw [List.filter_eq_nil_iff]
        intro dv hdv hp
        have hdvs : dv.serial_number = some s := by simpa using hp
        refine hnd.1 ?_
        rw [hs, ← hdvs]
        exact List.mem_map_of_mem (fun dv2 => dv2.serial_number) hdv
      rw [hrest]
    · have h0 : ¬(d0.serial_number = some s) := by
        intro hc
        refine hnd.1 ?_
        rw [hc, ← hs]
        exact List.mem_map_of_mem (fun dv2 => dv2.serial_number) hr
      rw [if_neg (by simpa using h0)]
      exact ih hnd.2 hr

theorem mem_of_filter_singleton {α : Type} (p : α → Bool) (l : List α)
    (x y : α) (hf : l.filter p = [x]) (hy : y ∈ l) (hp : p y = true) :
    y = x := by
  have : y ∈ l.filter p := List.mem_filter.mpr ⟨hy, hp⟩
  rw [hf] at this
  simpa using this

/-! ### Serial-indexed views under single writes -/

/-- The Mosyle serial a write touches, if any. -/
def wrDevTarget : Write → Option String
  | .updateDevice s _ => some s
  | _ => none

/-- The asset id a write touches, if any. -/
def wrAssetTarget : Write → Option Val
  | .updateAsset aid _ => some aid
  | .checkinAsset aid => some aid
  | .checkoutAsset aid _ => some aid
  | _ => none

/-- An update payload that stays away from the engine-reserved asset
attributes (all engine payloads under the claim's configuration
hypotheses). -/
def wrPayloadSafe : Write → Prop
  | .updateAsset _ P => ∀ e ∈ P, e.1 ∉ reservedAttrKeys
  | _ => True

theorem devsWithSerial_applyWrite (w : World) (ty : DevClass) (s : String)
    (wr : Write) :
    devsWithSerial (w.applyWrite wr) ty s
      = (devsWithSerial w ty s).map (fun dv => devApplyWrite dv wr) := by
  cases ty with
  | computers =>
    show ((w.applyWrite wr).computers).filter _
      = ((w.computers).filter _).map _
    rw [applyWrite_computers]
    exact filter_map_comm _ _ w.computers (fun dv hdv => by
      simp only [devApplyWrite_serial])
  | mobile_devices =>
    show ((w.applyWrite wr).mobiles).filter _
      = ((w.mobiles).filter _).map _
    rw [applyWrite_mobiles]
    exact filter_map_comm _ _ w.mobiles (fun dv hdv => by
      simp only [devApplyWrite_serial])

theorem devsWithSerial_applyWrites (w : World) (ty : DevClass) (s : String)
    (ws : List Write) :
    devsWithSerial (w.applyWrites ws) ty s
      = (devsWithSerial w ty s).map (fun dv => devApplyWrites dv ws) := by
  induction ws generalizing w with
  | nil =>
    rw [applyWrites_nil,
      show (fun dv => devApplyWrites dv []) = fun dv : Device => dv from rfl,
      List.map_id']
  | cons wr rest ih =>
    rw [applyWrites_cons, ih, devsWithSerial_applyWrite, List.map_map]
    rfl

theorem devApplyWrite_frame (dv : Device) (wr : Write) (s : String)
    (hdv : dv.serial_number = some s) (h : wrDevTarget wr ≠ some s) :
    devApplyWrite dv wr = dv := by
  cases wr with
  | updateDevice s2 t =>
    unfold devApplyWrite
    dsimp only
    rw [if_neg (fun hc => h (by
      rw [hdv] at hc
      rw [wrDevTarget, Option.some.inj hc]))]
  | createModel number name c mf f => rfl
  | updateModelName mid name => rfl
  | createAsset t mi nm st se => rfl
  | updateAsset aid p => rfl
  | checkinAsset aid => rfl
  | checkoutAsset aid uid => rfl

theorem devsWithSerial_frame (w : World) (ty : DevClass) (s : String)
    (ws : List Write) (h : ∀ wr ∈ ws, wrDevTarget wr ≠ some s) :
    devsWithSerial (w.applyWrites ws) ty s = devsWithSerial w ty s := by
  rw [devsWithSerial_applyWrites]
  have : ∀ dv ∈ devsWithSerial w ty s, devApplyWrites dv ws = dv := by
    intro dv hdv
    have hs : dv.serial_number = some s := by
      cases ty <;>
        simpa using (List.mem_filter.mp hdv).2
    clear hdv
    induction ws generalizing dv with
    | nil => rfl
    | cons wr rest ih =>
      show devApplyWrites (devApplyWrite dv wr) rest = dv
      rw [devApplyWrite_frame dv wr s hs (h wr (by simp))]
      exact ih (fun w2 hw2 => h w2 (by simp [hw2])) dv hs
  calc (devsWithSerial w ty s).map (fun dv => devApplyWrites dv ws)
      = (devsWithSerial w ty s).map (fun dv => dv) :=
        List.map_congr_left this
    _ = devsWithSerial w ty s := List.map_id' _

theorem assetsWithSerial_applyWrite_map (w : World) (s : String) (wr : Write)
    (hnc : ∀ t mi nm st se, wr ≠ .createAsset t mi nm st se)
    (hser : wrPayloadSafe wr) :
    assetsWithSerial (w.applyWrite wr) s
      = (assetsWithSerial w s).map (fun a => assetApplyWrite a wr) := by
  cases wr with
  | createAsset t mi nm st se => exact absurd rfl (hnc t mi nm st se)
  | createModel number name c mf f =>
    show (w.assets.filter _) = (w.assets.filter _).map _
    rw [show (fun a => assetApplyWrite a (Write.createModel number name c mf f))
      = fun a : Asset => a from rfl, List.map_id']
  | updateModelName mid name =>
    show (w.assets.filter _) = (w.assets.filter _).map _
    rw [show (fun a => assetApplyWrite a (Write.updateModelName mid name))
      = fun a : Asset => a from rfl, List.map_id']
  | updateDevice s2 t =>
    show (w.assets.filter _) = (w.assets.filter _).map _
    rw [show (fun a => assetApplyWrite a (Write.updateDevice s2 t))
      = fun a : Asset => a from rfl, List.map_id']
  | updateAsset aid P =>
    show (w.assets.map _).filter _ = (w.assets.filter _).map _
    refine filter_map_comm _ _ w.assets (fun a ha => ?_)
    show decide (getAttr (assetApplyWrite a (Write.updateAsset aid P)) "serial"
      = some (Val.vstr s)) = _
    unfold assetApplyWrite
    dsimp only
    by_cases hid : getAttr a "id" = some aid
    · rw [if_pos hid, applyPayload_attrs_notkey P a "serial"
        (fun e he => fun hc => (hser e he) (hc ▸ (by decide)))]
    · rw [if_neg hid]
  | checkinAsset aid =>
    show (w.assets.map _).filter _ = (w.assets.filter _).map _
    refine filter_map_comm _ _ w.assets (fun a ha => ?_)
    show decide (getAttr (assetApplyWrite a (Write.checkinAsset aid)) "serial"
      = some (Val.vstr s)) = _
    unfold assetApplyWrite
    dsimp only
    by_cases hid : getAttr a "id" = some aid
    · rw [if_pos hid, getAttr_upsertAttr_other a _ _ _ (by decide)]
    · rw [if_neg hid]
  | checkoutAsset aid uid =>
    show (w.assets.map _).filter _ = (w.assets.filter _).map _
    refine filter_map_comm _ _ w.assets (fun a ha => ?_)
    show decide (getAttr (assetApplyWrite a (Write.checkoutAsset aid uid))
      "serial" = some (Val.vstr s)) = _
    unfold assetApplyWrite
    dsimp only
    by_cases hid : getAttr a "id" = some aid
    · rw [if_pos hid, getAttr_upsertAttr_other a _ _ _ (by decide)]
    · rw [if_neg hid]

/-! ### Asset-id invariant preservation -/

theorem assetIdInv_applyWrite (w : World) (wr : Write)
    (hinv : AssetIdInv w) (hser : wrPayloadSafe wr) :
    AssetIdInv (w.applyWrite wr) := by
  obtain ⟨hpw, hbound⟩ := hinv
  cases wr with
  | createModel number name c mf f => exact ⟨hpw, hbound⟩
  | updateModelName mid name => exact ⟨hpw, hbound⟩
  | updateDevice s t => exact ⟨hpw, hbound⟩
  | createAsset t mi nm st se =>
    constructor
    · refine List.pairwise_append.mpr ⟨hpw, List.pairwise_singleton _ _, ?_⟩
      intro a ha b hb
      rw [show b = mkNewAsset w.nextAssetId t nm se
          ((alookup w.statusMetas st).getD "") from by simpa using hb]
      intro hc
      have := hbound a ha w.nextAssetId (by rw [hc, getAttr_mkNewAsset_id])
      omega
    · intro a ha n hn
      rcases List.mem_append.mp ha with hl | hr
      · have := hbound a hl n hn
        show n < w.nextAssetId + 1
        omega
      · rw [show a = mkNewAsset w.nextAssetId t nm se
          ((alookup w.statusMetas st).getD "") from by simpa using hr,
          getAttr_mkNewAsset_id] at hn
        have : w.nextAssetId = n := Val.vnum.inj (Option.some.inj hn)
        show n < w.nextAssetId + 1
        omega
  | updateAsset aid P =>
    have hidp : ∀ a : Asset,
        getAttr (if getAttr a "id" = some aid then applyPayload a P else a)
          "id" = getAttr a "id" := by
      intro a
      by_cases hid : getAttr a "id" = some aid
      · rw [if_pos hid, applyPayload_attrs_notkey P a "id"
          (fun e he => fun hc => (hser e he) (hc ▸ (by decide)))]
      · rw [if_neg hid]
    constructor
    · refine List.Pairwise.map _ (fun a b hab => ?_) hpw
      rw [hidp a, hidp b]
      exact hab
    · intro a ha n hn
      obtain ⟨a0, ha0, he⟩ := List.mem_map.mp ha
      rw [← he, hidp a0] at hn
      exact hbound a0 ha0 n hn
  | checkinAsset aid =>
    have hidp : ∀ a : Asset,
        getAttr (if getAttr a "id" = some aid then
          upsertAttr a "assigned_to" Val.vnull else a) "id"
          = getAttr a "id" := by
      intro a
      by_cases hid : getAttr a "id" = some aid
      · rw [if_pos hid, getAttr_upsertAttr_other a _ _ _ (by decide)]
      · rw [if_neg hid]
    constructor
    · refine List.Pairwise.map _ (fun a b hab => ?_) hpw
      rw [hidp a, hidp b]
      exact hab
    · intro a ha n hn
      obtain ⟨a0, ha0, he⟩ := List.mem_map.mp ha
      rw [← he, hidp a0] at hn
      exact hbound a0 ha0 n hn
  | checkoutAsset aid uid =>
    have hidp : ∀ a : Asset,
        getAttr (if getAttr a "id" = some aid then
          upsertAttr a "assigned_to" (Val.vuser uid) else a) "id"
          = getAttr a "id" := by
      intro a
      by_cases hid : getAttr a "id" = some aid
      · rw [if_pos hid, getAttr_upsertAttr_other a _ _ _ (by decide)]
      · rw [if_neg hid]
    constructor
    · refine List.Pairwise.map _ (fun a b hab => ?_) hpw
      rw [hidp a, hidp b]
      exact hab
    · intro a ha n hn
      obtain ⟨a0, ha0, he⟩ := List.mem_map.mp ha
      rw [← he, hidp a0] at hn
      exact hbound a0 ha0 n hn

/-! ### Model-write classification -/

def isModelWrite : Write → Bool
  | .createModel _ _ _ _ _ => true
  | .updateModelName _ _ => true
  | _ => false

theorem applyWrite_models_nonmodel (w : World) (wr : Write)
    (h : isModelWrite wr = false) : (w.applyWrite wr).models = w.models := by
  cases wr <;> first | rfl | exact absurd h (by simp [isModelWrite])

theorem applyWrite_nextModelId_nonmodel (w : World) (wr : Write)
    (h : isModelWrite wr = false) :
    (w.applyWrite wr).nextModelId = w.nextModelId := by
  cases wr <;> first | rfl | exact absurd h (by simp [isModelWrite])

theorem applyWrites_models_nonmodel (w : World) (ws : List Write)
    (h : ∀ wr ∈ ws, isModelWrite wr = false) :
    (w.applyWrites ws).models = w.models ∧
      (w.applyWrites ws).nextModelId = w.nextModelId := by
  induction ws generalizing w with
  | nil => exact ⟨rfl, rfl⟩
  | cons wr rest ih =>
    rw [applyWrites_cons]
    obtain ⟨h1, h2⟩ := ih (w.applyWrite wr) (fun w2 hw2 => h w2 (by simp [hw2]))
    exact ⟨h1.trans (applyWrite_models_nonmodel w wr (h wr (by simp))),
      h2.trans (applyWrite_nextModelId_nonmodel w wr (h wr (by simp)))⟩

theorem regInv_of_models_eq (reg : Registry) (w w2 : World)
    (hm : w2.models = w.models) (h : RegInv reg w) : RegInv reg w2 := by
  intro n mid hl
  obtain ⟨m, hmem, hid, hnum⟩ := h n mid hl
  exact ⟨m, hm ▸ hmem, hid, hnum⟩

theorem nameInv_of_models_eq (dm dname : String) (w w2 : World)
    (hm : w2.models = w.models) (h : NameInv dm dname w) :
    NameInv dm dname w2 := by
  intro m hmem hnum
  exact h m (hm ▸ hmem) hnum

theorem modelIdInv_of_models_eq (w w2 : World) (hm : w2.models = w.models)
    (hn : w2.nextModelId = w.nextModelId) (h : ModelIdInv w) :
    ModelIdInv w2 := by
  refine ⟨hm ▸ h.1, fun m hmem => ?_⟩
  rw [hn]
  exact h.2 m (hm ▸ hmem)

theorem modelPresent_of_models_eq (w w2 : World) (hm : w2.models = w.models)
    (dm : String) (h : ModelPresent w dm) : ModelPresent w2 dm := by
  obtain ⟨m, hmem, hnum⟩ := h
  exact ⟨m, hm ▸ hmem, hnum⟩

/-! ### Scoped frame lemmas for the asset listing -/

theorem assetsWithSerial_createAsset_self (w : World)
    (t : String) (mi : Nat) (nm st se : String) :
    assetsWithSerial (w.applyWrite (Write.createAsset t mi nm st se)) se
      = assetsWithSerial w se
        ++ [mkNewAsset w.nextAssetId t nm se ((alookup w.statusMetas st).getD "")] := by
  show (w.assets ++ [mkNewAsset w.nextAssetId t nm se _]).filter _ = _
  rw [List.filter_append]
  congr 1
  rw [List.filter_cons, if_pos (by
    rw [getAttr_mkNewAsset_serial]
    simp)]
  rfl

theorem assetsWithSerial_createAsset_other (w : World) (s : String)
    (t : String) (mi : Nat) (nm st se : String) (hse : se ≠ s) :
    assetsWithSerial (w.applyWrite (Write.createAsset t mi nm st se)) s
      = assetsWithSerial w s := by
  show (w.assets ++ [mkNewAsset w.nextAssetId t nm se _]).filter _
    = w.assets.filter _
  rw [List.filter_append]
  rw [show List.filter _ [mkNewAsset w.nextAssetId t nm se
      ((alookup w.statusMetas st).getD "")] = ([] : List Asset) from by
    rw [List.filter_cons, if_neg (by
      rw [getAttr_mkNewAsset_serial]
      simp [hse])]
    rfl]
  rw [List.append_nil]

theorem assetsWithSerial_applyWrite_frame (w : World) (s : String)
    (wr : Write)
    (hc : ∀ t mi nm st se, wr = .createAsset t mi nm st se → se ≠ s)
    (ht : ∀ aid, wrAssetTarget wr = some aid →
      ∀ a ∈ w.assets, getAttr a "serial" = some (Val.vstr s) →
        getAttr a "id" ≠ some aid)
    (hser : wrPayloadSafe wr) :
    assetsWithSerial (w.applyWrite wr) s = assetsWithSerial w s := by
  cases wr with
  | createAsset t mi nm st se =>
    exact assetsWithSerial_createAsset_other w s t mi nm st se
      (hc t mi nm st se rfl)
  | createModel number name c mf f => rfl
  | updateModelName mid name => rfl
  | updateDevice s2 t => rfl
  | updateAsset aid P =>
    show (w.assets.map _).filter _ = w.assets.filter _
    refine filter_map_of_fixed _ _ w.assets (fun a ha => ⟨?_, ?_⟩)
    · show decide (getAttr (assetApplyWrite a (Write.updateAsset aid P))
        "serial" = some (Val.vstr s)) = _
      unfold assetApplyWrite
      dsimp only
      by_cases hid : getAttr a "id" = some aid
      · rw [if_pos hid, applyPayload_attrs_notkey P a "serial"
          (fun e he => fun hcc => (hser e he) (hcc ▸ (by decide)))]
      · rw [if_neg hid]
    · intro hp
      show assetApplyWrite a (Write.updateAsset aid P) = a
      unfold assetApplyWrite
      dsimp only
      rw [if_neg (ht aid rfl a ha (by simpa using hp))]
  | checkinAsset aid =>
    show (w.assets.map _).filter _ = w.assets.filter _
    refine filter_map_of_fixed _ _ w.assets (fun a ha => ⟨?_, ?_⟩)
    · show decide (getAttr (assetApplyWrite a (Write.checkinAsset aid))
        "serial" = some (Val.vstr s)) = _
      unfold assetApplyWrite
      dsimp only
      by_cases hid : getAttr a "id" = some aid
      · rw [if_pos hid, getAttr_upsertAttr_other a _ _ _ (by decide)]
      · rw [if_neg hid]
    · intro hp
      show assetApplyWrite a (Write.checkinAsset aid) = a
      unfold assetApplyWrite
      dsimp only
      rw [if_neg (ht aid rfl a ha (by simpa using hp))]
  | checkoutAsset aid uid =>
    show (w.assets.map _).filter _ = w.assets.filter _
    refine filter_map_of_fixed _ _ w.assets (fun a ha => ⟨?_, ?_⟩)
    · show decide (getAttr (assetApplyWrite a (Write.checkoutAsset aid uid))
        "serial" = some (Val.vstr s)) = _
      unfold assetApplyWrite
      dsimp only
      by_cases hid : getAttr a "id" = some aid
      · rw [if_pos hid, getAttr_upsertAttr_other a _ _ _ (by decide)]
      · rw [if_neg hid]
    · intro hp
      show assetApplyWrite a (Write.checkoutAsset aid uid) = a
      unfold assetApplyWrite
      dsimp only
      rw [if_neg (ht aid rfl a ha (by simpa using hp))]

/-- The scope of every write a single device's processing step issues:
devices are touched only at the device's serial, assets only at the ids
collected in `sids` (the matched or created asset), a created asset
carries the device's serial, payloads avoid the reserved attributes, and
no model write occurs. -/
def StepScope (s : String) (sids : List Val) (wr : Write) : Prop :=
  (∀ s2, wrDevTarget wr = some s2 → s2 = s) ∧
  (∀ aid, wrAssetTarget wr = some aid → aid ∈ sids) ∧
  (∀ t mi nm st se, wr = .createAsset t mi nm st se → se = s) ∧
  wrPayloadSafe wr ∧ isModelWrite wr = false

theorem assetsWithSerial_frame_scoped (s2 s : String) (sids : List Val)
    (hs2 : s2 ≠ s) :
    ∀ (ws : List Write) (w : World),
    (∀ wr ∈ ws, StepScope s sids wr) →
    (∀ aid ∈ sids, ∀ a ∈ w.assets,
      getAttr a "serial" = some (Val.vstr s2) → getAttr a "id" ≠ some aid) →
    assetsWithSerial (w.applyWrites ws) s2 = assetsWithSerial w s2 := by
  intro ws
  induction ws with
  | nil => intro w _ _; rfl
  | cons wr rest ih =>
    intro w hsc hav
    rw [applyWrites_cons]
    have hscw := hsc wr (by simp)
    have hstep : assetsWithSerial (w.applyWrite wr) s2 = assetsWithSerial w s2 :=
      assetsWithSerial_applyWrite_frame w s2 wr
        (fun t mi nm st se he => by
          rw [hscw.2.2.1 t mi nm st se he]
          exact Ne.symm hs2)
        (fun aid haid a ha has => hav aid (hscw.2.1 aid haid) a ha has)
        hscw.2.2.2.1
    rw [ih (w.applyWrite wr) (fun w2 hw2 => hsc w2 (by simp [hw2])) ?_, hstep]
    intro aid haid a ha has
    -- membership in the written world's assets traces back to the original
    cases wr with
    | createModel number name c mf f => exact hav aid haid a ha has
    | updateModelName mid name => exact hav aid haid a ha has
    | updateDevice sx t => exact hav aid haid a ha has
    | createAsset t mi nm st se =>
      rcases List.mem_append.mp ha with hl | hr
      · exact hav aid haid a hl has
      · rw [show a = mkNewAsset w.nextAssetId t nm se
          ((alookup w.statusMetas st).getD "") from by simpa using hr,
          getAttr_mkNewAsset_serial] at has
        have : se = s2 := Val.vstr.inj (Option.some.inj has)
        exact absurd (((hscw.2.2.1 t mi nm st se rfl).symm.trans this).symm) hs2
    | updateAsset aid2 P =>
      obtain ⟨a0, ha0, he⟩ := List.mem_map.mp ha
      have hser : getAttr a0 "serial" = some (Val.vstr s2) := by
        rw [← has, ← he]
        by_cases hid : getAttr a0 "id" = some aid2
        · rw [if_pos hid, applyPayload_attrs_notkey P a0 "serial"
            (fun e hee => fun hcc => (hscw.2.2.2.1 e hee) (hcc ▸ (by decide)))]
        · rw [if_neg hid]
      have hida : getAttr a "id" = getAttr a0 "id" := by
        rw [← he]
        by_cases hid : getAttr a0 "id" = some aid2
        · rw [if_pos hid, applyPayload_attrs_notkey P a0 "id"
            (fun e hee => fun hcc => (hscw.2.2.2.1 e hee) (hcc ▸ (by decide)))]
        · rw [if_neg hid]
      rw [hida]
      exact hav aid haid a0 ha0 hser
    | checkinAsset aid2 =>
      obtain ⟨a0, ha0, he⟩ := List.mem_map.mp ha
      have hser : getAttr a0 "serial" = some (Val.vstr s2) := by
        rw [← has, ← he]
        by_cases hid : getAttr a0 "id" = some aid2
        · rw [if_pos hid, getAttr_upsertAttr_other a0 _ _ _ (by decide)]
        · rw [if_neg hid]
      have hida : getAttr a "id" = getAttr a0 "id" := by
        rw [← he]
        by_cases hid : getAttr a0 "id" = some aid2
        · rw [if_pos hid, getAttr_upsertAttr_other a0 _ _ _ (by decide)]
        · rw [if_neg hid]
      rw [hida]
      exact hav aid haid a0 ha0 hser
    | checkoutAsset aid2 uid =>
      obtain ⟨a0, ha0, he⟩ := List.mem_map.mp ha
      have hser : getAttr a0 "serial" = some (Val.vstr s2) := by
        rw [← has, ← he]
        by_cases hid : getAttr a0 "id" = some aid2
        · rw [if_pos hid, getAttr_upsertAttr_other a0 _ _ _ (by decide)]
        · rw [if_neg hid]
      have hida : getAttr a "id" = getAttr a0 "id" := by
        rw [← he]
        by_cases hid : getAttr a0 "id" = some aid2
        · rw [if_pos hid, getAttr_upsertAttr_other a0 _ _ _ (by decide)]
        · rw [if_neg hid]
      rw [hida]
      exact hav aid haid a0 ha0 hser

theorem assetsWithSerial_applyWrites_map (w : World) (s : String)
    (ws : List Write)
    (hnc : ∀ wr ∈ ws, ∀ t mi nm st se, wr ≠ .createAsset t mi nm st se)
    (hser : ∀ wr ∈ ws, wrPayloadSafe wr) :
    assetsWithSerial (w.applyWrites ws) s
      = (assetsWithSerial w s).map (fun a => assetApplyWrites a ws) := by
  induction ws generalizing w with
  | nil =>
    rw [applyWrites_nil,
      show (fun a => assetApplyWrites a []) = fun a : Asset => a from rfl,
      List.map_id']
  | cons wr rest ih =>
    rw [applyWrites_cons, ih (w.applyWrite wr)
      (fun w2 hw2 => hnc w2 (by simp [hw2]))
      (fun w2 hw2 => hser w2 (by simp [hw2])),
      assetsWithSerial_applyWrite_map w s wr (hnc wr (by simp))
        (hser wr (by simp)),
      List.map_map]
    rfl

/-! ### Model-resolution lemmas -/

theorem modelPhase_stable (cfg : Config) (w : World) (d : Device)
    (hlook : (alookup (buildRegistry w.models).modelnumbers
      d.device_model).isSome)
    (hname : d.device_model_name ∈ (buildRegistry w.models).modelnames) :
    modelPhase cfg w (buildRegistry w.models) d
      = (buildRegistry w.models, []) := by
  obtain ⟨mid, hmid⟩ := Option.isSome_iff_exists.mp hlook
  unfold modelPhase
  rw [hmid]
  dsimp only
  rw [if_pos hname]

theorem modelOk_of_present (w : World) (dm dname : String) (hdm : dm ≠ "")
    (hp : ModelPresent w dm) (hni : NameInv dm dname w) :
    (alookup (buildRegistry w.models).modelnumbers dm).isSome ∧
      dname ∈ (buildRegistry w.models).modelnames := by
  obtain ⟨m, hmem, hnum⟩ := hp
  constructor
  · rw [buildRegistry_numbers w.models dm hdm]
    have hsome := lastFind_isSome_of_mem w.models dm m hmem hnum
    cases hf : lastFind w.models dm with
    | none => rw [hf] at hsome; exact absurd hsome (by simp)
    | some m2 => rfl
  · rw [buildRegistry_names]
    rw [← hni m hmem hnum]
    refine List.mem_map_of_mem _ (List.mem_filter.mpr ⟨hmem, ?_⟩)
    rw [hnum]
    simpa using hdm

theorem modelPhase_establish (cfg : Config) (w : World) (reg : Registry)
    (d : Device) (reg1 : Registry) (ws1 : List Write)
    (hreg : RegInv reg w) (hmid : ModelIdInv w) (hdm : d.device_model ≠ "")
    (hrun : modelPhase cfg w reg d = (reg1, ws1)) :
    RegInv reg1 (w.applyWrites ws1) ∧ ModelIdInv (w.applyWrites ws1) ∧
    ModelPresent (w.applyWrites ws1) d.device_model ∧
    (alookup reg1.modelnumbers d.device_model).isSome ∧
    (∀ n, (alookup reg.modelnumbers n).isSome →
      (alookup reg1.modelnumbers n).isSome) ∧
    (∀ dm2 dname2, NameInv dm2 dname2 w →
      (dm2 = d.device_model → dname2 = d.device_model_name) →
      NameInv dm2 dname2 (w.applyWrites ws1)) ∧
    (∀ dm2, ModelPresent w dm2 → ModelPresent (w.applyWrites ws1) dm2) ∧
    (w.applyWrites ws1).assets = w.assets ∧
    (w.applyWrites ws1).computers = w.computers ∧
    (w.applyWrites ws1).mobiles = w.mobiles ∧
    (w.applyWrites ws1).users = w.users ∧
    (w.applyWrites ws1).statusMetas = w.statusMetas ∧
    (w.applyWrites ws1).nextAssetId = w.nextAssetId := by
  unfold modelPhase at hrun
  cases hl : alookup reg.modelnumbers d.device_model with
  | none =>
    rw [hl] at hrun
    dsimp only at hrun
    obtain ⟨hr1, hw1⟩ := Prod.mk.inj hrun
    subst hr1
    subst hw1
    refine ⟨?_, ?_, ?_, ?_, ?_, ?_, ?_, rfl, rfl, rfl, rfl, rfl, rfl⟩
    · intro n mid2 hlk
      by_cases hn : n = d.device_model
      · rw [hn, alookup_ainsert_self] at hlk
        refine ⟨⟨w.nextModelId, d.device_model, d.device_model_name⟩,
          List.mem_append_right _ (by simp), ?_, hn.symm ▸ rfl⟩
        exact Option.some.inj hlk
      · rw [alookup_ainsert_other _ _ _ _ hn] at hlk
        obtain ⟨m, hmem, hid2, hnum⟩ := hreg n mid2 hlk
        exact ⟨m, List.mem_append_left _ hmem, hid2, hnum⟩
    · constructor
      · rw [show (w.applyWrites [Write.createModel d.device_model
          d.device_model_name cfg.computer_model_category_id
          cfg.manufacturer_id cfg.computer_custom_fieldset_id]).models
          = w.models ++ [⟨w.nextModelId, d.device_model,
            d.device_model_name⟩] from rfl]
        rw [List.map_append]
        refine List.nodup_append.mpr ⟨hmid.1, by simp, ?_⟩
        intro x hx hy
        have hxn : x = w.nextModelId := by simpa using hy
        obtain ⟨m, hmem, hid2⟩ := List.mem_map.mp hx
        have := hmid.2 m hmem
        omega
      · intro m hmem
        rcases List.mem_append.mp hmem with hml | hmr
        · have := hmid.2 m hml
          show m.id < w.nextModelId + 1
          omega
        · rw [show m = ⟨w.nextModelId, d.device_model, d.device_model_name⟩
            from by simpa using hmr]
          show w.nextModelId < w.nextModelId + 1
          omega
    · exact ⟨⟨w.nextModelId, d.device_model, d.device_model_name⟩,
        List.mem_append_right _ (by simp), rfl⟩
    · rw [alookup_ainsert_self]; rfl
    · intro n hn
      exact alookup_ainsert_isSome _ _ _ _ hn
    · intro dm2 dname2 hni himp m hmem hnum
      rcases List.mem_append.mp hmem with hml | hmr
      · exact hni m hml hnum
      · rw [show m = ⟨w.nextModelId, d.device_model, d.device_model_name⟩
          from by simpa using hmr] at hnum ⊢
        show d.device_model_name = dname2
        exact (himp hnum.symm).symm
    · intro dm2 hp
      exact modelPresent_applyWrites w _ dm2 hp
  | some mid =>
    rw [hl] at hrun
    dsimp only at hrun
    obtain ⟨mstar, hmmem, hmid2, hmnum⟩ := hreg d.device_model mid hl
    by_cases hnm : d.device_model_name ∈ reg.modelnames
    · rw [if_pos hnm] at hrun
      obtain ⟨hr1, hw1⟩ := Prod.mk.inj hrun
      subst hr1
      subst hw1
      exact ⟨hreg, hmid, ⟨mstar, hmmem, hmnum⟩, hl ▸ rfl, fun n hn => hn,
        fun dm2 dname2 hni _ => hni, fun dm2 hp => hp,
        rfl, rfl, rfl, rfl, rfl, rfl⟩
    · rw [if_neg hnm] at hrun
      have hfind : w.models.find? (fun m2 => m2.id = mid) = some mstar := by
        rw [show (fun m2 : SnipeModel => decide (m2.id = mid))
          = (fun m2 : SnipeModel => decide (m2.id = mstar.id)) from by
            rw [hmid2]]
        exact find_id_of_mem w.models hmid.1 mstar hmmem
      rw [hfind] at hrun
      dsimp only at hrun
      rw [hmnum] at hrun
      obtain ⟨hr1, hw1⟩ := Prod.mk.inj hrun
      subst hr1
      subst hw1
      have hrename : (w.applyWrites [Write.updateModelName mid
          d.device_model_name]).models
          = w.models.map (fun m => if m.id = mid then
            { m with name := d.device_model_name } else m) := rfl
      have hpres : ∀ m ∈ w.models,
          ∃ m2 ∈ (w.applyWrites [Write.updateModelName mid
            d.device_model_name]).models,
          m2.id = m.id ∧ m2.model_number = m.model_number := by
        intro m hmem
        rw [hrename]
        by_cases hid : m.id = mid
        · exact ⟨{ m with name := d.device_model_name },
            List.mem_map.mpr ⟨m, hmem, by rw [if_pos hid]⟩, hid ▸ rfl, rfl⟩
        · exact ⟨m, List.mem_map.mpr ⟨m, hmem, by rw [if_neg hid]⟩, rfl, rfl⟩
      refine ⟨?_, ?_, ?_, ?_, ?_, ?_, ?_, rfl, rfl, rfl, rfl, rfl, rfl⟩
      · intro n mid2 hlk
        by_cases hn : n = d.device_model
        · rw [hn, alookup_ainsert_self] at hlk
          refine ⟨{ mstar with name := d.device_model_name }, ?_, ?_, ?_⟩
          · rw [hrename]
            exact List.mem_map.mpr ⟨mstar, hmmem, by rw [if_pos hmid2]⟩
          · rw [← Option.some.inj hlk]
            exact hmid2
          · rw [hn]
            exact hmnum
        · rw [alookup_ainsert_other _ _ _ _ hn] at hlk
          obtain ⟨m, hmem, hid2, hnum⟩ := hreg n mid2 hlk
          obtain ⟨m2, hm2mem, hm2id, hm2num⟩ := hpres m hmem
          exact ⟨m2, hm2mem, hm2id.trans hid2, hm2num.trans hnum⟩
      · constructor
        · rw [hrename, List.map_map]
          have : ((fun m : SnipeModel => m.id) ∘ (fun m =>
              if m.id = mid then { m with name := d.device_model_name }
              else m)) = fun m : SnipeModel => m.id := by
            funext m
            show (if m.id = mid then { m with name := d.device_model_name }
              else m).id = m.id
            by_cases hid : m.id = mid
            · rw [if_pos hid]
            · rw [if_neg hid]
          rw [this]
          exact hmid.1
        · intro m hmem
          rw [hrename] at hmem
          obtain ⟨m0, hm0, he⟩ := List.mem_map.mp hmem
          have hb := hmid.2 m0 hm0
          have : m.id = m0.id := by
            rw [← he]
            by_cases hid : m0.id = mid
            · rw [if_pos hid]
            · rw [if_neg hid]
          show m.id < w.nextModelId
          omega
      · refine ⟨{ mstar with name := d.device_model_name }, ?_, hmnum⟩
        rw [hrename]
        exact List.mem_map.mpr ⟨mstar, hmmem, by rw [if_pos hmid2]⟩
      · rw [alookup_ainsert_self]; rfl
      · intro n hn
        exact alookup_ainsert_isSome _ _ _ _ hn
      · intro dm2 dname2 hni himp m hmem hnum
        rw [hrename] at hmem
        obtain ⟨m0, hm0, he⟩ := List.mem_map.mp hmem
        by_cases hid : m0.id = mid
        · have hm0star : m0 = mstar := by
            refine List.inj_on_of_nodup_map hmid.1 hm0 hmmem ?_
            show m0.id = mstar.id
            rw [hid, hmid2]
          rw [if_pos hid] at he
          have hnum0 : m0.model_number = dm2 := by
            rw [← hnum, ← he]
          have hdm2 : dm2 = d.device_model := by
            rw [← hnum0, hm0star, hmnum]
          rw [← he]
          show d.device_model_name = dname2
          exact (himp hdm2).symm
        · rw [if_neg hid] at he
          rw [← he] at hnum ⊢
          exact hni m0 hm0 hnum
      · intro dm2 hp
        exact modelPresent_applyWrites w _ dm2 hp

/-! ### Create sub-flow inversion -/

theorem createFlow_inv (cfg : Config) (fl : Flags) (ty : DevClass)
    (reg : Registry) (w : World) (d : Device) (s : String)
    (ws2 : List Write) (w2 : World)
    (hs : d.serial_number = some s)
    (hrun : createFlow cfg fl ty reg w d s = .ok (some (ws2, w2))) :
    ∃ tagF mid ck,
      ws2 = Write.createAsset tagF mid d.device_name cfg.defaultStatus s
        :: ck ∧
      w2 = (w.applyWrite (Write.createAsset tagF mid d.device_name
        cfg.defaultStatus s)).applyWrites ck ∧
      (ck = [] ∨ ∃ uid, ck = [Write.checkoutAsset (Val.vnum w.nextAssetId)
        uid]) := by
  unfold createFlow at hrun
  dsimp only at hrun
  cases hlm : alookup reg.modelnumbers d.device_model with
  | none =>
    rw [hlm] at hrun
    dsimp only at hrun
    rw [bindErr] at hrun
    exact absurd hrun (by simp)
  | some mid =>
    rw [hlm] at hrun
    dsimp only at hrun
    rw [bindOk] at hrun
    rw [if_neg (by simp [hs])] at hrun
    by_cases hfl : (fl.users || fl.users_force || fl.users_inverse) = true
    · rw [if_pos hfl] at hrun
      cases hu : mdGet d cfg.user_mapping_field with
      | none =>
        rw [hu] at hrun
        dsimp only at hrun
        rw [bindErr] at hrun
        exact absurd hrun (by simp)
      | some u =>
        rw [hu] at hrun
        dsimp only at hrun
        rw [bindOk] at hrun
        unfold checkout_snipe_asset at hrun
        cases hlu : alookup w.users u with
        | none =>
          rw [hlu] at hrun
          dsimp only at hrun
          rw [bindOk] at hrun
          obtain he := Option.some.inj (Except.ok.inj hrun)
          obtain ⟨he1, he2⟩ := Prod.mk.inj he
          exact ⟨_, mid, [], by rw [← he1]; try rfl, by rw [← he2]; try rfl,
            Or.inl rfl⟩
        | some uid =>
          rw [hlu] at hrun
          dsimp only at hrun
          rw [if_pos rfl] at hrun
          rw [bindOk] at hrun
          obtain he := Option.some.inj (Except.ok.inj hrun)
          obtain ⟨he1, he2⟩ := Prod.mk.inj he
          exact ⟨_, mid, [Write.checkoutAsset (Val.vnum w.nextAssetId) uid],
            by rw [← he1]; try rfl, by rw [← he2]; try rfl, Or.inr ⟨uid, rfl⟩⟩
    · rw [if_neg hfl] at hrun
      obtain he := Option.some.inj (Except.ok.inj hrun)
      obtain ⟨he1, he2⟩ := Prod.mk.inj he
      exact ⟨_, mid, [], by rw [← he1]; try rfl, by rw [← he2]; try rfl, Or.inl rfl⟩

/-! ### Small inversion and transfer helpers -/

theorem lookupSerial_single_inv (w : World) (s : String) (a : Asset)
    (h : lookupSerial w s = .single a) : assetsWithSerial w s = [a] := by
  unfold lookupSerial at h
  cases hl : assetsWithSerial w s with
  | nil => rw [hl] at h; exact absurd h (by simp)
  | cons x rest =>
    cases rest with
    | nil =>
      rw [hl] at h
      rw [LookupOutcome.single.inj h]
    | cons y rest2 => rw [hl] at h; exact absurd h (by simp)

theorem lookupSerial_multi_inv (w : World) (s : String)
    (h : lookupSerial w s = .multiMatch) :
    2 ≤ (assetsWithSerial w s).length := by
  unfold lookupSerial at h
  cases hl : assetsWithSerial w s with
  | nil => rw [hl] at h; exact absurd h (by simp)
  | cons x rest =>
    cases rest with
    | nil => rw [hl] at h; exact absurd h (by simp)
    | cons y rest2 => simp

theorem lookupSerial_none_inv (w : World) (s : String)
    (h : lookupSerial w s = .noMatch) : assetsWithSerial w s = [] := by
  unfold lookupSerial at h
  cases hl : assetsWithSerial w s with
  | nil => rfl
  | cons x rest =>
    cases rest with
    | nil => rw [hl] at h; exact absurd h (by simp)
    | cons y rest2 => rw [hl] at h; exact absurd h (by simp)

theorem assetsWithSerial_of_assets_eq (w w2 : World) (s : String)
    (h : w2.assets = w.assets) :
    assetsWithSerial w2 s = assetsWithSerial w s := by
  unfold assetsWithSerial
  rw [h]

theorem devsWithSerial_of_lists_eq (w w2 : World) (ty : DevClass) (s : String)
    (hc : w2.computers = w.computers) (hm : w2.mobiles = w.mobiles) :
    devsWithSerial w2 ty s = devsWithSerial w ty s := by
  unfold devsWithSerial
  cases ty
  · rw [hc]
  · rw [hm]

theorem assetIdInv_of_eq (w w2 : World) (ha : w2.assets = w.assets)
    (hn : w2.nextAssetId = w.nextAssetId) (h : AssetIdInv w) :
    AssetIdInv w2 := by
  constructor
  · rw [ha]; exact h.1
  · intro a hmem n hid
    rw [hn]
    exact h.2 a (ha ▸ hmem) n hid

theorem assetIdInv_applyWrites (w : World) (ws : List Write)
    (h : ∀ wr ∈ ws, wrPayloadSafe wr) (hinv : AssetIdInv w) :
    AssetIdInv (w.applyWrites ws) := by
  induction ws generalizing w with
  | nil => exact hinv
  | cons wr rest ih =>
    rw [applyWrites_cons]
    exact ih (w.applyWrite wr) (fun w2 hw2 => h w2 (by simp [hw2]))
      (assetIdInv_applyWrite w wr hinv (h wr (by simp)))

theorem createFlow_no_skip (cfg : Config) (fl : Flags) (ty : DevClass)
    (reg : Registry) (w : World) (d : Device) (s : String)
    (hrun : createFlow cfg fl ty reg w d s = .ok none) :
    d.serial_number.isNone = true := by
  unfold createFlow at hrun
  dsimp only at hrun
  cases hlm : alookup reg.modelnumbers d.device_model with
  | none =>
    rw [hlm] at hrun
    dsimp only at hrun
    rw [bindErr] at hrun
    exact absurd hrun (by simp)
  | some mid =>
    rw [hlm] at hrun
    dsimp only at hrun
    rw [bindOk] at hrun
    by_cases hn : d.serial_number.isNone = true
    · exact hn
    · rw [if_neg hn] at hrun
      by_cases hfl : (fl.users || fl.users_force || fl.users_inverse) = true
      · rw [if_pos hfl] at hrun
        cases hu : mdGet d cfg.user_mapping_field with
        | none =>
          rw [hu] at hrun
          dsimp only at hrun
          rw [bindErr] at hrun
          exact absurd hrun (by simp)
        | some u =>
          rw [hu] at hrun
          dsimp only at hrun
          rw [bindOk] at hrun
          unfold checkout_snipe_asset at hrun
          cases hlu : alookup w.users u with
          | none =>
            rw [hlu] at hrun
            dsimp only at hrun
            rw [bindOk] at hrun
            exact absurd (Except.ok.inj hrun) (by simp)
          | some uid =>
            rw [hlu] at hrun
            dsimp only at hrun
            rw [if_pos rfl] at hrun
            rw [bindOk] at hrun
            exact absurd (Except.ok.inj hrun) (by simp)
      · rw [if_neg hfl] at hrun
        exact absurd (Except.ok.inj hrun) (by simp)

/-- Every write of a successful update sub-flow stays inside the step's
scope: asset writes target the matched record's id, the only device write
targets the device's serial, no asset is created and no model is touched,
and the one payload avoids the reserved attributes. -/
theorem updateFlow_scope (cfg : Config) (fl : Flags)
    (users : List (String × Nat)) (ty : DevClass) (d : Device) (a : Asset)
    (s : String) (ws3 : List Write) (sid : Val)
    (hmapKeys : ∀ e ∈ cfg.mapping ty, e.1 ∉ reservedAttrKeys)
    (hsid : getAttr a "id" = some sid)
    (hrun : updateFlow cfg fl users ty d a s = .ok ws3) :
    ∀ wr ∈ ws3, StepScope s [sid] wr ∧
      ∀ t mi nm st se, wr ≠ Write.createAsset t mi nm st se := by
  obtain ⟨sid2, dt, ck, bs, hsid2, hup, hck, hbs, hws⟩ :=
    updateFlow_inv cfg fl users ty d a s ws3 hrun
  have hsideq : sid2 = sid := Option.some.inj (hsid2.symm.trans hsid)
  subst hsideq
  intro wr hwr
  rw [hws] at hwr
  rcases List.mem_append.mp hwr with hw1 | hwbs
  · rcases List.mem_append.mp hw1 with hwupd | hwck
    · unfold updateCallWrites at hwupd
      by_cases hlen : (buildPayload (cfg.mapping ty) d a).length > 0
      · rw [if_pos hlen] at hwupd
        rw [show wr = Write.updateAsset sid2
            (buildPayload (cfg.mapping ty) d a) from by simpa using hwupd]
        refine ⟨⟨fun s2 hc => absurd hc (by simp [wrDevTarget]),
          fun aid haid => ?_, fun t mi nm st se hc => absurd hc (by simp),
          ?_, rfl⟩, by intro t mi nm st se; simp⟩
        · rw [show aid = sid2 from
            (Option.some.inj (by simpa [wrAssetTarget] using haid)).symm]
          simp
        · exact fun e he =>
            buildPayload_keys_reserved (cfg.mapping ty) d a hmapKeys e he
      · rw [if_neg hlen] at hwupd
        exact absurd hwupd (by simp)
    · rcases checkoutPhase_shape cfg fl users d a sid2 ck hck with
        hnil | ⟨uid, hone⟩ | ⟨uid, htwo⟩
      · rw [hnil] at hwck
        exact absurd hwck (by simp)
      · rw [hone] at hwck
        rw [show wr = Write.checkoutAsset sid2 uid from by simpa using hwck]
        exact ⟨⟨fun s2 hc => absurd hc (by simp [wrDevTarget]),
          fun aid haid => by
            rw [show aid = sid2 from
              (Option.some.inj (by simpa [wrAssetTarget] using haid)).symm]
            simp,
          fun t mi nm st se hc => absurd hc (by simp), trivial, rfl⟩,
          by intro t mi nm st se; simp⟩
      · rw [htwo] at hwck
        rcases (by simpa using hwck :
            wr = Write.checkinAsset sid2 ∨ wr = Write.checkoutAsset sid2 uid)
          with hci | hco
        · rw [hci]
          exact ⟨⟨fun s2 hc => absurd hc (by simp [wrDevTarget]),
            fun aid haid => by
              rw [show aid = sid2 from
                (Option.some.inj (by simpa [wrAssetTarget] using haid)).symm]
              simp,
            fun t mi nm st se hc => absurd hc (by simp), trivial, rfl⟩,
            by intro t mi nm st se; simp⟩
        · rw [hco]
          exact ⟨⟨fun s2 hc => absurd hc (by simp [wrDevTarget]),
            fun aid haid => by
              rw [show aid = sid2 from
                (Option.some.inj (by simpa [wrAssetTarget] using haid)).symm]
              simp,
            fun t mi nm st se hc => absurd hc (by simp), trivial, rfl⟩,
            by intro t mi nm st se; simp⟩
  · obtain ⟨tagv, htagv, hd⟩ := backSyncPhase_inv d a s bs hbs
    rcases hd with ⟨heq, hbsnil⟩ | ⟨t, htv, hne, hbs1⟩
    · rw [hbsnil] at hwbs
      exact absurd hwbs (by simp)
    · rw [hbs1] at hwbs
      rw [show wr = Write.updateDevice s t from by simpa using hwbs]
      exact ⟨⟨fun s2 hc => (Option.some.inj (by simpa [wrDevTarget]
          using hc)).symm ▸ rfl,
        fun aid haid => absurd haid (by simp [wrAssetTarget]),
        fun t2 mi nm st se hc => absurd hc (by simp), trivial, rfl⟩,
        by intro t2 mi nm st se; simp⟩

/-! ### Per-device establish lemma -/

/-- What one successfully processed device leaves behind: its class list
still holds exactly one record with its serial, and the asset listing
holds either a data-quality multi-match (at least 2 rows, skipped again
on any later run) or exactly one matched row on which the update sub-flow
has stabilised. -/
def Fate (cfg : Config) (fl : Flags) (users : List (String × Nat))
    (ty : DevClass) (d1 : Device) (s : String) (w : World) : Prop :=
  devsWithSerial w ty s = [d1] ∧
  (2 ≤ (assetsWithSerial w s).length ∨
    ∃ aF, assetsWithSerial w s = [aF] ∧
      updateFlow cfg fl users ty d1 aF s = .ok [])

theorem processDevice_establish (cfg : Config) (fl : Flags) (ty : DevClass)
    (reg : Registry) (w : World) (d : Device) (reg1 : Registry) (w2 : World)
    (ws : List Write)
    (hmapKeys : ∀ t, ∀ e ∈ cfg.mapping t,
      e.1 ∉ reservedAttrKeys ∧ e.2 ≠ "asset_tag")
    (hmapNodup : ∀ t, ((cfg.mapping t).map Prod.fst).Nodup)
    (huser : cfg.user_mapping_field ≠ "asset_tag")
    (haid : AssetIdInv w) (hreg : RegInv reg w) (hmid : ModelIdInv w)
    (hdm : ty = DevClass.computers → d.device_model ≠ "")
    (hdev : ∀ s2, d.serial_number = some s2 → devsWithSerial w ty s2 = [d])
    (hrun : processDevice cfg fl ty reg w d = .ok (reg1, w2, ws)) :
    ∃ s d1, d.serial_number = some s ∧ d1.serial_number = some s ∧
      d1.device_model = d.device_model ∧
      d1.device_model_name = d.device_model_name ∧
      Fate cfg fl w.users ty d1 s w2 ∧
      (ty = DevClass.computers → ModelPresent w2 d.device_model) ∧
      (∀ s2, s2 ≠ s → assetsWithSerial w2 s2 = assetsWithSerial w s2) ∧
      (∀ ty2 s2, s2 ≠ s →
        devsWithSerial w2 ty2 s2 = devsWithSerial w ty2 s2) ∧
      AssetIdInv w2 ∧ RegInv reg1 w2 ∧ ModelIdInv w2 ∧
      w2.users = w.users ∧ w2.statusMetas = w.statusMetas ∧
      (∀ dm2 dname2, NameInv dm2 dname2 w →
        (ty = DevClass.computers → dm2 = d.device_model →
          dname2 = d.device_model_name) →
        NameInv dm2 dname2 w2) ∧
      (∀ dm2, ModelPresent w dm2 → ModelPresent w2 dm2) := by
  unfold processDevice at hrun
  cases hsd : d.serial_number with
  | none =>
    rw [hsd] at hrun
    dsimp only at hrun
    rw [bindErr] at hrun
    exact absurd hrun (by simp)
  | some s =>
    rw [hsd] at hrun
    dsimp only at hrun
    rw [bindOk] at hrun
    cases hmp : (match ty with
      | DevClass.computers => modelPhase cfg w reg d
      | DevClass.mobile_devices => (reg, [])) with
    | mk regM wsM =>
    rw [hmp] at hrun
    dsimp only at hrun
    have hbundle : RegInv regM (w.applyWrites wsM) ∧
        ModelIdInv (w.applyWrites wsM) ∧
        (ty = DevClass.computers →
          ModelPresent (w.applyWrites wsM) d.device_model) ∧
        (∀ dm2 dname2, NameInv dm2 dname2 w →
          (ty = DevClass.computers → dm2 = d.device_model →
            dname2 = d.device_model_name) →
          NameInv dm2 dname2 (w.applyWrites wsM)) ∧
        (∀ dm2, ModelPresent w dm2 → ModelPresent (w.applyWrites wsM) dm2) ∧
        (w.applyWrites wsM).assets = w.assets ∧
        (w.applyWrites wsM).computers = w.computers ∧
        (w.applyWrites wsM).mobiles = w.mobiles ∧
        (w.applyWrites wsM).users = w.users ∧
        (w.applyWrites wsM).statusMetas = w.statusMetas ∧
        (w.applyWrites wsM).nextAssetId = w.nextAssetId := by
      cases ty with
      | computers =>
        dsimp only at hmp
        obtain ⟨h1, h2, h3, _, _, h6, h7, h8, h9, h10, h11, h12, h13⟩ :=
          modelPhase_establish cfg w reg d regM wsM hreg hmid (hdm rfl) hmp
        exact ⟨h1, h2, fun _ => h3,
          fun dm2 dname2 hni himp => h6 dm2 dname2 hni (himp rfl),
          h7, h8, h9, h10, h11, h12, h13⟩
      | mobile_devices =>
        dsimp only at hmp
        obtain ⟨h1, h2⟩ := Prod.mk.inj hmp
        subst h1
        subst h2
        exact ⟨hreg, hmid, fun hc => absurd hc (by simp),
          fun dm2 dname2 hni _ => hni, fun dm2 hp => hp,
          rfl, rfl, rfl, rfl, rfl, rfl⟩
    obtain ⟨hregM, hmidM, hcompM, hnameM, hpresM, hprojA, hprojC, hprojM,
      hprojU, hprojS, hprojN⟩ := hbundle
    have haid1 : AssetIdInv (w.applyWrites wsM) :=
      assetIdInv_of_eq w (w.applyWrites wsM) hprojA hprojN haid
    have hdev1 : devsWithSerial (w.applyWrites wsM) ty s = [d] := by
      rw [devsWithSerial_of_lists_eq w (w.applyWrites wsM) ty s hprojC hprojM]
      exact hdev s hsd
    cases hls : lookupSerial (w.applyWrites wsM) s with
    | multiMatch =>
      rw [hls] at hrun
      dsimp only at hrun
      obtain h3 := Except.ok.inj hrun
      obtain ⟨hr1, h3b⟩ := Prod.mk.inj h3
      obtain ⟨hw2e, _⟩ := Prod.mk.inj h3b
      subst hr1
      subst hw2e
      refine ⟨s, d, rfl, hsd, rfl, rfl, ⟨hdev1,
        Or.inl (lookupSerial_multi_inv _ s hls)⟩,
        fun hty => hcompM hty,
        fun s2 _ => assetsWithSerial_of_assets_eq w _ s2 hprojA,
        fun ty2 s2 _ => devsWithSerial_of_lists_eq w _ ty2 s2 hprojC hprojM,
        haid1, hregM, hmidM, hprojU, hprojS, hnameM, hpresM⟩
    | single a =>
      rw [hls] at hrun
      dsimp only at hrun
      obtain ⟨ws3, hup, hrun⟩ := bind_eq_ok hrun
      obtain h3 := Except.ok.inj hrun
      obtain ⟨hr1, h3b⟩ := Prod.mk.inj h3
      obtain ⟨hw2e, _⟩ := Prod.mk.inj h3b
      subst hr1
      subst hw2e
      have hassets1 : assetsWithSerial (w.applyWrites wsM) s = [a] :=
        lookupSerial_single_inv _ s a hls
      have hamem : a ∈ (w.applyWrites wsM).assets := by
        have hin : a ∈ assetsWithSerial (w.applyWrites wsM) s := by
          rw [hassets1]; simp
        exact (List.mem_filter.mp hin).1
      have haser : getAttr a "serial" = some (Val.vstr s) := by
        have hin : a ∈ assetsWithSerial (w.applyWrites wsM) s := by
          rw [hassets1]; simp
        simpa using (List.mem_filter.mp hin).2
      obtain ⟨sid, dt, ck, bs, hsid, hupat, hck, hbs, hwsdec⟩ :=
        updateFlow_inv cfg fl (w.applyWrites wsM).users ty d a s ws3 hup
      have hscope := updateFlow_scope cfg fl (w.applyWrites wsM).users ty d a
        s ws3 sid (fun e he => (hmapKeys ty e he).1) hsid hup
      have hser3 : ∀ wr ∈ ws3, wrPayloadSafe wr :=
        fun wr hwr => ((hscope wr hwr).1).2.2.2.1
      have hnc3 : ∀ wr ∈ ws3, ∀ t mi nm st se,
          wr ≠ Write.createAsset t mi nm st se :=
        fun wr hwr => (hscope wr hwr).2
      have hnm3 : ∀ wr ∈ ws3, isModelWrite wr = false :=
        fun wr hwr => ((hscope wr hwr).1).2.2.2.2
      obtain ⟨hmodels3, hnmid3⟩ :=
        applyWrites_models_nonmodel (w.applyWrites wsM) ws3 hnm3
      have hav : ∀ s2, s2 ≠ s → ∀ aid ∈ [sid],
          ∀ a2 ∈ (w.applyWrites wsM).assets,
          getAttr a2 "serial" = some (Val.vstr s2) →
          getAttr a2 "id" ≠ some aid := by
        intro s2 hs2 aid haid2 a2 ha2 hser2 hc
        rw [show aid = sid from by simpa using haid2] at hc
        have ha2a : a2 = a := asset_id_inj (w.applyWrites wsM).assets
          haid1.1 a2 ha2 a hamem (hc.trans hsid.symm)
        rw [ha2a] at hser2
        exact hs2 (Val.vstr.inj (Option.some.inj (hser2.symm.trans haser)))
      have hstab := updateFlow_stabilize cfg fl (w.applyWrites wsM).users ty
        d a s ws3 (hmapKeys ty) (hmapNodup ty) huser hsd hup
      rw [hprojU] at hstab
      refine ⟨s, devApplyWrites d ws3, rfl, ?_, ?_, ?_, ?_, ?_, ?_, ?_, ?_,
        ?_, ?_, ?_, ?_, ?_, ?_⟩
      · rw [devApplyWrites_serial]; exact hsd
      · exact devApplyWrites_model d ws3
      · exact devApplyWrites_model_name d ws3
      · refine ⟨?_, Or.inr ⟨assetApplyWrites a ws3, ?_, hstab⟩⟩
        · rw [devsWithSerial_applyWrites, hdev1]
          rfl
        · rw [assetsWithSerial_applyWrites_map _ s ws3 hnc3 hser3, hassets1]
          rfl
      · intro hty
        exact modelPresent_of_models_eq _ _ hmodels3 _ (hcompM hty)
      · intro s2 hs2
        rw [assetsWithSerial_frame_scoped s2 s [sid] hs2 ws3
          (w.applyWrites wsM) (fun wr hwr => (hscope wr hwr).1) (hav s2 hs2)]
        exact assetsWithSerial_of_assets_eq w _ s2 hprojA
      · intro ty2 s2 hs2
        have hdt : ∀ wr ∈ ws3, wrDevTarget wr ≠ some s2 :=
          fun wr hwr hc => hs2 (((hscope wr hwr).1).1 s2 hc)
        rw [devsWithSerial_frame (w.applyWrites wsM) ty2 s2 ws3 hdt]
        exact devsWithSerial_of_lists_eq w _ ty2 s2 hprojC hprojM
      · exact assetIdInv_applyWrites _ ws3 hser3 haid1
      · exact regInv_of_models_eq regM _ _ hmodels3 hregM
      · exact modelIdInv_of_models_eq _ _ hmodels3 hnmid3 hmidM
      · rw [applyWrites_users]; exact hprojU
      · rw [applyWrites_statusMetas]; exact hprojS
      · intro dm2 dname2 hni himp
        exact nameInv_of_models_eq dm2 dname2 _ _ hmodels3
          (hnameM dm2 dname2 hni himp)
      · intro dm2 hp
        exact modelPresent_of_models_eq _ _ hmodels3 dm2 (hpresM dm2 hp)
    | noMatch =>
      rw [hls] at hrun
      dsimp only at hrun
      obtain ⟨cf, hcf, hrun⟩ := bind_eq_ok hrun
      cases cf with
      | none =>
        have hskip := createFlow_no_skip cfg fl ty regM (w.applyWrites wsM)
          d s hcf
        rw [hsd] at hskip
        exact absurd hskip (by simp)
      | some pr =>
        obtain ⟨ws2, w2p⟩ := pr
        dsimp only at hrun
        obtain ⟨tagF, mid, ck, hws2, hw2p, hcks⟩ :=
          createFlow_inv cfg fl ty regM (w.applyWrites wsM) d s ws2 w2p
            hsd hcf
        cases hls2 : lookupSerial w2p s with
        | noMatch =>
          rw [hls2] at hrun
          dsimp only at hrun
          exact absurd hrun (by simp)
        | multiMatch =>
          rw [hls2] at hrun
          dsimp only at hrun
          exact absurd hrun (by simp)
        | single a =>
          rw [hls2] at hrun
          dsimp only at hrun
          obtain ⟨ws3, hup, hrun⟩ := bind_eq_ok hrun
          obtain h3 := Except.ok.inj hrun
          obtain ⟨hr1, h3b⟩ := Prod.mk.inj h3
          obtain ⟨hw2e, _⟩ := Prod.mk.inj h3b
          subst hr1
          subst hw2e
          have hempty : assetsWithSerial (w.applyWrites wsM) s = [] :=
            lookupSerial_none_inv _ s hls
          have hckscope : ∀ wr ∈ ck,
              StepScope s [Val.vnum (w.applyWrites wsM).nextAssetId] wr ∧
              ∀ t2 mi2 nm2 st2 se2,
                wr ≠ Write.createAsset t2 mi2 nm2 st2 se2 := by
            rcases hcks with hnil | ⟨uid, hone⟩
            · rw [hnil]; intro wr hwr; exact absurd hwr (by simp)
            · rw [hone]; intro wr hwr
              rw [show wr = Write.checkoutAsset
                  (Val.vnum (w.applyWrites wsM).nextAssetId) uid
                from by simpa using hwr]
              exact ⟨⟨fun s2 hc => absurd hc (by simp [wrDevTarget]),
                fun aid haid2 => by
                  rw [show aid = Val.vnum (w.applyWrites wsM).nextAssetId from
                    (Option.some.inj
                      (by simpa [wrAssetTarget] using haid2)).symm]
                  simp,
                fun t2 mi2 nm2 st2 se2 hc => absurd hc (by simp), trivial,
                rfl⟩,
                by intro t2 mi2 nm2 st2 se2; simp⟩
          have hcrscope : StepScope s
              [Val.vnum (w.applyWrites wsM).nextAssetId]
              (Write.createAsset tagF mid d.device_name cfg.defaultStatus
                s) :=
            ⟨fun s2 hc => absurd hc (by simp [wrDevTarget]),
              fun aid haid2 => absurd haid2 (by simp [wrAssetTarget]),
              fun t2 mi2 nm2 st2 se2 hc => by
                exact (Write.createAsset.inj hc).2.2.2.2.symm,
              trivial, rfl⟩
          have hwcassets : assetsWithSerial
              ((w.applyWrites wsM).applyWrite (Write.createAsset tagF mid
                d.device_name cfg.defaultStatus s)) s
              = [mkNewAsset (w.applyWrites wsM).nextAssetId tagF
                  d.device_name s
                  ((alookup (w.applyWrites wsM).statusMetas
                    cfg.defaultStatus).getD "")] := by
            rw [assetsWithSerial_createAsset_self (w.applyWrites wsM) tagF
              mid d.device_name cfg.defaultStatus s, hempty]
            rfl
          have hw2passets : assetsWithSerial w2p s
              = [assetApplyWrites (mkNewAsset
                  (w.applyWrites wsM).nextAssetId tagF d.device_name s
                  ((alookup (w.applyWrites wsM).statusMetas
                    cfg.defaultStatus).getD "")) ck] := by
            rw [hw2p, assetsWithSerial_applyWrites_map _ s ck
              (fun wr hwr => (hckscope wr hwr).2)
              (fun wr hwr => ((hckscope wr hwr).1).2.2.2.1), hwcassets]
            rfl
          have ha2 : assetsWithSerial w2p s = [a] :=
            lookupSerial_single_inv w2p s a hls2
          have haeq : a = assetApplyWrites (mkNewAsset
              (w.applyWrites wsM).nextAssetId tagF d.device_name s
              ((alookup (w.applyWrites wsM).statusMetas
                cfg.defaultStatus).getD "")) ck :=
            ((List.cons.inj (hw2passets.symm.trans ha2)).1).symm
          have hamem : a ∈ w2p.assets := by
            have hin : a ∈ assetsWithSerial w2p s := by rw [ha2]; simp
            exact (List.mem_filter.mp hin).1
          have haser : getAttr a "serial" = some (Val.vstr s) := by
            have hin : a ∈ assetsWithSerial w2p s := by rw [ha2]; simp
            simpa using (List.mem_filter.mp hin).2
          have hanida : getAttr a "id"
              = some (Val.vnum (w.applyWrites wsM).nextAssetId) := by
            rw [haeq]
            rcases hcks with hnil | ⟨uid, hone⟩
            · rw [hnil]
              exact getAttr_mkNewAsset_id _ _ _ _ _
            · rw [hone]
              show getAttr (assetApplyWrite _ (Write.checkoutAsset _ uid))
                "id" = _
              unfold assetApplyWrite
              dsimp only
              rw [if_pos (by rw [getAttr_mkNewAsset_id])]
              rw [getAttr_upsertAttr_other _ _ _ _ (by decide),
                getAttr_mkNewAsset_id]
          obtain ⟨sid, dt, ck2, bs, hsid, hupat, hck2, hbs, hwsdec⟩ :=
            updateFlow_inv cfg fl w2p.users ty d a s ws3 hup
          have hsidnid : sid = Val.vnum (w.applyWrites wsM).nextAssetId :=
            Option.some.inj (hsid.symm.trans hanida)
          have hscope3 := updateFlow_scope cfg fl w2p.users ty d a s ws3 sid
            (fun e he => (hmapKeys ty e he).1) hsid hup
          rw [hsidnid] at hscope3
          have hser3 : ∀ wr ∈ ws3, wrPayloadSafe wr :=
            fun wr hwr => ((hscope3 wr hwr).1).2.2.2.1
          have hnc3 : ∀ wr ∈ ws3, ∀ t mi nm st se,
              wr ≠ Write.createAsset t mi nm st se :=
            fun wr hwr => (hscope3 wr hwr).2
          have hnm3 : ∀ wr ∈ ws3, isModelWrite wr = false :=
            fun wr hwr => ((hscope3 wr hwr).1).2.2.2.2
          have hw2pu : w2p.users = w.users := by
            rw [hw2p, applyWrites_users, applyWrite_users, hprojU]
          have hw2ps : w2p.statusMetas = w.statusMetas := by
            rw [hw2p, applyWrites_statusMetas, applyWrite_statusMetas,
              hprojS]
          have hLscope : ∀ wr ∈ (Write.createAsset tagF mid d.device_name
              cfg.defaultStatus s :: (ck ++ ws3)),
              StepScope s [Val.vnum (w.applyWrites wsM).nextAssetId] wr := by
            intro wr hwr
            rcases List.mem_cons.mp hwr with he | hrest
            · rw [he]; exact hcrscope
            · rcases List.mem_append.mp hrest with hinck | hinws3
              · exact (hckscope wr hinck).1
              · exact (hscope3 wr hinws3).1
          have hw2L : w2p.applyWrites ws3
              = (w.applyWrites wsM).applyWrites
                (Write.createAsset tagF mid d.device_name cfg.defaultStatus
                  s :: (ck ++ ws3)) := by
            rw [hw2p, applyWrites_cons, applyWrites_append]
          have hnmL : ∀ wr ∈ (Write.createAsset tagF mid d.device_name
              cfg.defaultStatus s :: (ck ++ ws3)), isModelWrite wr = false := by
            intro wr hwr
            rcases List.mem_cons.mp hwr with he | hrest
            · rw [he]; rfl
            · rcases List.mem_append.mp hrest with hinck | hinws3
              · exact ((hckscope wr hinck).1).2.2.2.2
              · exact hnm3 wr hinws3
          obtain ⟨hmodelsL, hnmidL⟩ := applyWrites_models_nonmodel
            (w.applyWrites wsM) _ hnmL
          rw [← hw2L] at hmodelsL hnmidL
          have havL : ∀ s2, s2 ≠ s →
              ∀ aid ∈ [Val.vnum (w.applyWrites wsM).nextAssetId],
              ∀ a2 ∈ (w.applyWrites wsM).assets,
              getAttr a2 "serial" = some (Val.vstr s2) →
              getAttr a2 "id" ≠ some aid := by
            intro s2 hs2 aid haid2 a2 ha2 hser2 hc
            rw [show aid = Val.vnum (w.applyWrites wsM).nextAssetId from
              by simpa using haid2] at hc
            have := haid1.2 a2 ha2 (w.applyWrites wsM).nextAssetId hc
            omega
          have hdev2p : devsWithSerial w2p ty s = [d] := by
            have hdtL : ∀ wr ∈ (Write.createAsset tagF mid d.device_name
                cfg.defaultStatus s :: ck), wrDevTarget wr = none := by
              intro wr hwr
              rcases List.mem_cons.mp hwr with he | hinck
              · rw [he]; rfl
              · rcases hcks with hnil | ⟨uid, hone⟩
                · rw [hnil] at hinck; exact absurd hinck (by simp)
                · rw [hone] at hinck
                  rw [show wr = Write.checkoutAsset
                      (Val.vnum (w.applyWrites wsM).nextAssetId) uid
                    from by simpa using hinck]
                  rfl
            rw [hw2p, show ((w.applyWrites wsM).applyWrite
                (Write.createAsset tagF mid d.device_name cfg.defaultStatus
                  s)).applyWrites ck
              = (w.applyWrites wsM).applyWrites
                (Write.createAsset tagF mid d.device_name cfg.defaultStatus
                  s :: ck) from by rw [applyWrites_cons]]
            rw [devsWithSerial_frame (w.applyWrites wsM) ty s _
              (fun wr hwr => by rw [hdtL wr hwr]; simp)]
            exact hdev1
          have hstab := updateFlow_stabilize cfg fl w2p.users ty d a s ws3
            (hmapKeys ty) (hmapNodup ty) huser hsd hup
          rw [hw2pu] at hstab
          refine ⟨s, devApplyWrites d ws3, rfl, ?_, ?_, ?_, ?_, ?_, ?_, ?_,
            ?_, ?_, ?_, ?_, ?_, ?_, ?_⟩
          · rw [devApplyWrites_serial]; exact hsd
          · exact devApplyWrites_model d ws3
          · exact devApplyWrites_model_name d ws3
          · refine ⟨?_, Or.inr ⟨assetApplyWrites a ws3, ?_, hstab⟩⟩
            · rw [devsWithSerial_applyWrites, hdev2p]
              rfl
            · rw [assetsWithSerial_applyWrites_map _ s ws3 hnc3 hser3, ha2]
              rfl
          · intro hty
            exact modelPresent_of_models_eq _ _ hmodelsL _ (hcompM hty)
          · intro s2 hs2
            rw [hw2L, assetsWithSerial_frame_scoped s2 s
              [Val.vnum (w.applyWrites wsM).nextAssetId] hs2 _
              (w.applyWrites wsM) hLscope (havL s2 hs2)]
            exact assetsWithSerial_of_assets_eq w _ s2 hprojA
          · intro ty2 s2 hs2
            have hdt : ∀ wr ∈ (Write.createAsset tagF mid d.device_name
                cfg.defaultStatus s :: (ck ++ ws3)),
                wrDevTarget wr ≠ some s2 :=
              fun wr hwr hc => hs2 ((hLscope wr hwr).1 s2 hc)
            rw [hw2L, devsWithSerial_frame (w.applyWrites wsM) ty2 s2 _ hdt]
            exact devsWithSerial_of_lists_eq w _ ty2 s2 hprojC hprojM
          · rw [hw2L]
            refine assetIdInv_applyWrites _ _ ?_ haid1
            intro wr hwr
            rcases List.mem_cons.mp hwr with he | hrest
            · rw [he]; trivial
            · rcases List.mem_append.mp hrest with hinck | hinws3
              · exact ((hckscope wr hinck).1).2.2.2.1
              · exact hser3 wr hinws3
          · exact regInv_of_models_eq regM _ _ hmodelsL hregM
          · exact modelIdInv_of_models_eq _ _ hmodelsL hnmidL hmidM
          · rw [applyWrites_users, hw2pu]
          · rw [applyWrites_statusMetas, hw2ps]
          · intro dm2 dname2 hni himp
            exact nameInv_of_models_eq dm2 dname2 _ _ hmodelsL
              (hnameM dm2 dname2 hni himp)
          · intro dm2 hp
            exact modelPresent_of_models_eq _ _ hmodelsL dm2 (hpresM dm2 hp)

/-! ### First-run fold induction -/

theorem runFold_establish (cfg : Config) (fl : Flags) (w0 : World)
    (devs : List (DevClass × Device))
    (hmapKeys : ∀ t, ∀ e ∈ cfg.mapping t,
      e.1 ∉ reservedAttrKeys ∧ e.2 ≠ "asset_tag")
    (hmapNodup : ∀ t, ((cfg.mapping t).map Prod.fst).Nodup)
    (huser : cfg.user_mapping_field ≠ "asset_tag")
    (hH6 : ∀ td1 ∈ devs, ∀ td2 ∈ devs,
      td1.1 = DevClass.computers → td2.1 = DevClass.computers →
      td1.2.device_model = td2.2.device_model →
      td1.2.device_model_name = td2.2.device_model_name)
    (hdmAll : ∀ td ∈ devs, td.1 = DevClass.computers →
      td.2.device_model ≠ "") :
    ∀ (remaining : List (DevClass × Device)) (reg : Registry) (w : World)
      (acc : List Write) (regF : Registry) (w1 : World) (ws1 : List Write),
    (∀ td ∈ remaining, td ∈ devs) →
    ((remaining.map (fun td => td.2.serial_number)).Nodup) →
    (∀ td ∈ remaining, ∀ s2, td.2.serial_number = some s2 →
      devsWithSerial w td.1 s2 = [td.2]) →
    AssetIdInv w → RegInv reg w → ModelIdInv w →
    w.users = w0.users →
    (∀ td ∈ devs, td.1 = DevClass.computers →
      NameInv td.2.device_model td.2.device_model_name w) →
    runFold cfg fl remaining reg w acc = .ok (regF, w1, ws1) →
    (∀ td ∈ remaining, ∃ s d1, td.2.serial_number = some s ∧
      d1.serial_number = some s ∧
      d1.device_model = td.2.device_model ∧
      d1.device_model_name = td.2.device_model_name ∧
      Fate cfg fl w0.users td.1 d1 s w1 ∧
      (td.1 = DevClass.computers → ModelPresent w1 td.2.device_model)) ∧
    (∀ s2, (∀ td ∈ remaining, td.2.serial_number ≠ some s2) →
      assetsWithSerial w1 s2 = assetsWithSerial w s2 ∧
      ∀ ty2, devsWithSerial w1 ty2 s2 = devsWithSerial w ty2 s2) ∧
    w1.users = w.users ∧
    (∀ dm2, ModelPresent w dm2 → ModelPresent w1 dm2) ∧
    (∀ td ∈ devs, td.1 = DevClass.computers →
      NameInv td.2.device_model td.2.device_model_name w1) := by
  intro remaining
  induction remaining with
  | nil =>
    intro reg w acc regF w1 ws1 hsub hnodup hrem haid hreg hmid husers
      hnameAll hrun
    obtain h3 := Except.ok.inj hrun
    obtain ⟨hr1, h3b⟩ := Prod.mk.inj h3
    obtain ⟨hw2e, _⟩ := Prod.mk.inj h3b
    subst hw2e
    exact ⟨fun td htd => absurd htd (by simp),
      fun s2 _ => ⟨rfl, fun ty2 => rfl⟩, rfl, fun dm2 hp => hp, hnameAll⟩
  | cons td rest ih =>
    intro reg w acc regF w1 ws1 hsub hnodup hrem haid hreg hmid husers
      hnameAll hrun
    obtain ⟨ty, d⟩ := td
    unfold runFold at hrun
    obtain ⟨trip, hpd, hrun⟩ := bind_eq_ok hrun
    obtain ⟨reg1p, w1p, wsD⟩ := trip
    dsimp only at hrun
    have hheadmem : (ty, d) ∈ devs := hsub (ty, d) (by simp)
    obtain ⟨s, d1, hsd, hd1s, hd1m, hd1mn, hfate, hmp, hfrA, hfrD, haidp,
      hregp, hmidp, husersp, hmetasp, hnamep, hpresp⟩ :=
      processDevice_establish cfg fl ty reg w d reg1p w1p wsD hmapKeys
        hmapNodup huser haid hreg hmid
        (fun hty => hdmAll (ty, d) hheadmem hty)
        (fun s2 hs2 => hrem (ty, d) (by simp) s2 hs2) hpd
    rw [husers] at hfate
    rw [List.map_cons] at hnodup
    have hnodupr : ((rest.map (fun td => td.2.serial_number)).Nodup) :=
      (List.nodup_cons.mp hnodup).2
    have hheadnotin : (some s : Option String) ∉
        rest.map (fun td => td.2.serial_number) := by
      have h1 := (List.nodup_cons.mp hnodup).1
      dsimp only at h1
      rw [hsd] at h1
      exact h1
    have hresterial : ∀ td2 ∈ rest, td2.2.serial_number ≠ some s := by
      intro td2 htd2 hc
      exact hheadnotin (hc ▸ List.mem_map_of_mem
        (fun td => td.2.serial_number) htd2)
    have hremr : ∀ td2 ∈ rest, ∀ s2, td2.2.serial_number = some s2 →
        devsWithSerial w1p td2.1 s2 = [td2.2] := by
      intro td2 htd2 s2 hs2
      have hs2ne : s2 ≠ s := by
        intro hc
        exact hresterial td2 htd2 (hc ▸ hs2)
      rw [hfrD td2.1 s2 hs2ne]
      exact hrem td2 (by simp [htd2]) s2 hs2
    have hnameAllp : ∀ td2 ∈ devs, td2.1 = DevClass.computers →
        NameInv td2.2.device_model td2.2.device_model_name w1p := by
      intro td2 htd2 hty2
      refine hnamep td2.2.device_model td2.2.device_model_name
        (hnameAll td2 htd2 hty2) ?_
      intro htyc heqm
      exact hH6 td2 htd2 (ty, d) hheadmem hty2 htyc heqm
    obtain ⟨ih1, ih2, ih3, ih4, ih5⟩ := ih reg1p w1p (acc ++ wsD) regF w1 ws1
      (fun td2 htd2 => hsub td2 (by simp [htd2])) hnodupr hremr haidp hregp
      hmidp (husersp.trans husers) hnameAllp hrun
    have hsFrame := ih2 s hresterial
    refine ⟨?_, ?_, ih3.trans husersp, fun dm2 hp => ih4 dm2 (hpresp dm2 hp),
      ih5⟩
    · intro td2 htd2
      rcases List.mem_cons.mp htd2 with he | hr
      · subst he
        refine ⟨s, d1, hsd, hd1s, hd1m, hd1mn, ?_, fun hty =>
          ih4 d.device_model (hmp hty)⟩
        obtain ⟨hfdev, hfasset⟩ := hfate
        refine ⟨?_, ?_⟩
        · rw [hsFrame.2 ty]
          exact hfdev
        · rw [hsFrame.1]
          exact hfasset
      · exact ih1 td2 hr
    · intro s2 hs2
      have hs2ne : s2 ≠ s := by
        intro hc
        exact (hs2 (ty, d) (by simp)) (by rw [hsd, hc])
      have hstep := ih2 s2 (fun td2 htd2 => hs2 td2 (by simp [htd2]))
      exact ⟨hstep.1.trans (hfrA s2 hs2ne),
        fun ty2 => (hstep.2 ty2).trans (hfrD ty2 s2 hs2ne)⟩

/-! ### World composition of a processing step, and the no-op fold -/

theorem processDevice_world (cfg : Config) (fl : Flags) (ty : DevClass)
    (reg : Registry) (w : World) (d : Device) (reg1 : Registry) (w2 : World)
    (ws : List Write)
    (hrun : processDevice cfg fl ty reg w d = .ok (reg1, w2, ws)) :
    ∃ wsA, w2 = w.applyWrites wsA := by
  unfold processDevice at hrun
  cases hsd : d.serial_number with
  | none =>
    rw [hsd] at hrun
    dsimp only at hrun
    rw [bindErr] at hrun
    exact absurd hrun (by simp)
  | some s =>
    rw [hsd] at hrun
    dsimp only at hrun
    rw [bindOk] at hrun
    cases hmp : (match ty with
      | DevClass.computers => modelPhase cfg w reg d
      | DevClass.mobile_devices => (reg, [])) with
    | mk regM wsM =>
    rw [hmp] at hrun
    dsimp only at hrun
    cases hls : lookupSerial (w.applyWrites wsM) s with
    | multiMatch =>
      rw [hls] at hrun
      dsimp only at hrun
      obtain h3 := Except.ok.inj hrun
      obtain ⟨_, h3b⟩ := Prod.mk.inj h3
      obtain ⟨hw2e, _⟩ := Prod.mk.inj h3b
      exact ⟨wsM, hw2e.symm⟩
    | single a =>
      rw [hls] at hrun
      dsimp only at hrun
      obtain ⟨ws3, hup, hrun⟩ := bind_eq_ok hrun
      obtain h3 := Except.ok.inj hrun
      obtain ⟨_, h3b⟩ := Prod.mk.inj h3
      obtain ⟨hw2e, _⟩ := Prod.mk.inj h3b
      exact ⟨wsM ++ ws3, by rw [← hw2e, applyWrites_append]⟩
    | noMatch =>
      rw [hls] at hrun
      dsimp only at hrun
      obtain ⟨cf, hcf, hrun⟩ := bind_eq_ok hrun
      cases cf with
      | none =>
        dsimp only at hrun
        obtain h3 := Except.ok.inj hrun
        obtain ⟨_, h3b⟩ := Prod.mk.inj h3
        obtain ⟨hw2e, _⟩ := Prod.mk.inj h3b
        exact ⟨wsM, hw2e.symm⟩
      | some pr =>
        obtain ⟨ws2, w2p⟩ := pr
        dsimp only at hrun
        obtain ⟨tagF, mid, ck, hws2, hw2p, hcks⟩ :=
          createFlow_inv cfg fl ty regM (w.applyWrites wsM) d s ws2 w2p
            hsd hcf
        cases hls2 : lookupSerial w2p s with
        | noMatch =>
          rw [hls2] at hrun
          dsimp only at hrun
          exact absurd hrun (by simp)
        | multiMatch =>
          rw [hls2] at hrun
          dsimp only at hrun
          exact absurd hrun (by simp)
        | single a =>
          rw [hls2] at hrun
          dsimp only at hrun
          obtain ⟨ws3, hup, hrun⟩ := bind_eq_ok hrun
          obtain h3 := Except.ok.inj hrun
          obtain ⟨_, h3b⟩ := Prod.mk.inj h3
          obtain ⟨hw2e, _⟩ := Prod.mk.inj h3b
          refine ⟨wsM ++ (Write.createAsset tagF mid d.device_name
            cfg.defaultStatus s :: (ck ++ ws3)), ?_⟩
          rw [← hw2e, hw2p, applyWrites_append, applyWrites_cons,
            applyWrites_append]

theorem runFold_world (cfg : Config) (fl : Flags) :
    ∀ (l : List (DevClass × Device)) (reg : Registry) (w : World)
      (acc : List Write) (regF : Registry) (w1 : World) (ws1 : List Write),
    runFold cfg fl l reg w acc = .ok (regF, w1, ws1) →
    ∃ wsA, w1 = w.applyWrites wsA := by
  intro l
  induction l with
  | nil =>
    intro reg w acc regF w1 ws1 hrun
    obtain h3 := Except.ok.inj hrun
    obtain ⟨_, h3b⟩ := Prod.mk.inj h3
    obtain ⟨hw2e, _⟩ := Prod.mk.inj h3b
    exact ⟨[], hw2e.symm⟩
  | cons td rest ih =>
    intro reg w acc regF w1 ws1 hrun
    obtain ⟨ty, d⟩ := td
    unfold runFold at hrun
    obtain ⟨trip, hpd, hrun⟩ := bind_eq_ok hrun
    obtain ⟨reg1p, w1p, wsD⟩ := trip
    dsimp only at hrun
    obtain ⟨wsA, hwA⟩ := processDevice_world cfg fl ty reg w d reg1p w1p
      wsD hpd
    obtain ⟨wsR, hwR⟩ := ih reg1p w1p (acc ++ wsD) regF w1 ws1 hrun
    exact ⟨wsA ++ wsR, by rw [hwR, hwA, applyWrites_append]⟩

theorem runFold_noop (cfg : Config) (fl : Flags) (reg : Registry)
    (w : World) :
    ∀ (l : List (DevClass × Device)) (acc : List Write),
    (∀ td ∈ l, processDevice cfg fl td.1 reg w td.2 = .ok (reg, w, [])) →
    runFold cfg fl l reg w acc = .ok (reg, w, acc) := by
  intro l
  induction l with
  | nil => intro acc h; rfl
  | cons td rest ih =>
    intro acc h
    obtain ⟨ty, d⟩ := td
    unfold runFold
    rw [show processDevice cfg fl ty reg w d = .ok (reg, w, []) from
      h (ty, d) (by simp)]
    rw [bindOk]
    dsimp only
    rw [List.append_nil]
    exact ih acc (fun td2 htd2 => h td2 (by simp [htd2]))

/-! ### Device-sequence decomposition -/

theorem deviceSeq_cases (fl : Flags) (w : World) (td : DevClass × Device)
    (h : td ∈ deviceSeq fl w) :
    (td.1 = DevClass.computers ∧ td.2 ∈ w.computers ∧ fl.mobiles = false) ∨
    (td.1 = DevClass.mobile_devices ∧ td.2 ∈ w.mobiles ∧
      fl.computers = false) := by
  unfold deviceSeq at h
  rcases List.mem_append.mp h with hl | hr
  · by_cases hm : fl.mobiles = true
    · rw [if_pos hm] at hl
      exact absurd hl (by simp)
    · rw [if_neg hm] at hl
      obtain ⟨dv, hdv, he⟩ := List.mem_map.mp hl
      refine Or.inl ⟨by rw [← he], by rw [← he]; exact hdv,
        Bool.not_eq_true fl.mobiles ▸ hm⟩
  · by_cases hc : fl.computers = true
    · rw [if_pos hc] at hr
      exact absurd hr (by simp)
    · rw [if_neg hc] at hr
      obtain ⟨dv, hdv, he⟩ := List.mem_map.mp hr
      refine Or.inr ⟨by rw [← he], by rw [← he]; exact hdv,
        Bool.not_eq_true fl.computers ▸ hc⟩

theorem deviceSeq_mem_computers (fl : Flags) (w : World) (dv : Device)
    (hm : fl.mobiles = false) (hdv : dv ∈ w.computers) :
    (DevClass.computers, dv) ∈ deviceSeq fl w := by
  unfold deviceSeq
  refine List.mem_append_left _ ?_
  rw [if_neg (by rw [hm]; simp)]
  exact List.mem_map_of_mem _ hdv

theorem deviceSeq_mem_mobiles (fl : Flags) (w : World) (dv : Device)
    (hc : fl.computers = false) (hdv : dv ∈ w.mobiles) :
    (DevClass.mobile_devices, dv) ∈ deviceSeq fl w := by
  unfold deviceSeq
  refine List.mem_append_right _ ?_
  rw [if_neg (by rw [hc]; simp)]
  exact List.mem_map_of_mem _ hdv

theorem serialNodup_computers (fl : Flags) (w : World)
    (h : ((deviceSeq fl w).map (fun td => td.2.serial_number)).Nodup)
    (hm : fl.mobiles = false) :
    ((w.computers.map (fun dv => dv.serial_number)).Nodup) := by
  unfold deviceSeq at h
  rw [List.map_append] at h
  have h1 := h.of_append_left
  rw [if_neg (by rw [hm]; simp), List.map_map] at h1
  exact h1

theorem serialNodup_mobiles (fl : Flags) (w : World)
    (h : ((deviceSeq fl w).map (fun td => td.2.serial_number)).Nodup)
    (hc : fl.computers = false) :
    ((w.mobiles.map (fun dv => dv.serial_number)).Nodup) := by
  unfold deviceSeq at h
  rw [List.map_append] at h
  have h1 := h.of_append_right
  rw [if_neg (by rw [hc]; simp), List.map_map] at h1
  exact h1

/-! ### The amended idempotence theorem -/

/-- C1 (amended): a second engine run is write-free only under
configuration and data sanity conditions that the claim's unconditional
statement omits.  If the field mappings keep away from the engine-reserved
asset attributes (id, serial, asset_tag, assigned_to, status_label,
updated_at, custom_fields) on the Snipe side and from the device's
asset_tag on the Mosyle side, the configured user field is not the
asset_tag, the processed devices carry pairwise-distinct serial numbers,
computers carry a non-empty device_model, devices sharing a device_model
agree on its display name, every listed model numbered like a processed
computer already carries that computer's display name, and asset and
model ids are distinct and below the creation counters, then a successful
run followed by a second run over the resulting state leaves the world
unchanged and issues zero writes.  (Without these conditions the second
run can write again: see the counterexample.) -/
theorem engineRun_idempotent (cfg : Config) (fl : Flags) (w w1 : World)
    (ws1 : List Write)
    (hmapKeys : ∀ t, ∀ e ∈ cfg.mapping t,
      e.1 ∉ reservedAttrKeys ∧ e.2 ≠ "asset_tag")
    (hmapNodup : ∀ t, ((cfg.mapping t).map Prod.fst).Nodup)
    (huser : cfg.user_mapping_field ≠ "asset_tag")
    (hserNodup : ((deviceSeq fl w).map (fun td => td.2.serial_number)).Nodup)
    (hH6 : ∀ td1 ∈ deviceSeq fl w, ∀ td2 ∈ deviceSeq fl w,
      td1.1 = DevClass.computers → td2.1 = DevClass.computers →
      td1.2.device_model = td2.2.device_model →
      td1.2.device_model_name = td2.2.device_model_name)
    (hdmAll : ∀ td ∈ deviceSeq fl w, td.1 = DevClass.computers →
      td.2.device_model ≠ "")
    (hH7 : ∀ td ∈ deviceSeq fl w, td.1 = DevClass.computers →
      NameInv td.2.device_model td.2.device_model_name w)
    (haid : AssetIdInv w) (hmid : ModelIdInv w)
    (hrun : engineRun cfg fl w = .ok (w1, ws1)) :
    engineRun cfg fl w1 = .ok (w1, []) := by
  unfold engineRun at hrun
  dsimp only at hrun
  obtain ⟨trip, hfold, hrun⟩ := bind_eq_ok hrun
  obtain ⟨regF, w1f, wsf⟩ := trip
  dsimp only at hrun
  obtain h3 := Except.ok.inj hrun
  obtain ⟨hw1e, hwse⟩ := Prod.mk.inj h3
  rw [← hw1e]
  have hremInit : ∀ td ∈ deviceSeq fl w, ∀ s2,
      td.2.serial_number = some s2 → devsWithSerial w td.1 s2 = [td.2] := by
    intro td htd s2 hs2
    rcases deviceSeq_cases fl w td htd with ⟨hty, hmem, hflm⟩ |
      ⟨hty, hmem, hflc⟩
    · rw [hty]
      show w.computers.filter _ = [td.2]
      exact filter_serial_singleton w.computers
        (serialNodup_computers fl w hserNodup hflm) td.2 hmem s2 hs2
    · rw [hty]
      show w.mobiles.filter _ = [td.2]
      exact filter_serial_singleton w.mobiles
        (serialNodup_mobiles fl w hserNodup hflc) td.2 hmem s2 hs2
  obtain ⟨E1, E2, E3, E4, E5⟩ := runFold_establish cfg fl w (deviceSeq fl w)
    hmapKeys hmapNodup huser hH6 hdmAll (deviceSeq fl w)
    (buildRegistry w.models) w [] regF w1f wsf
    (fun td htd => htd) hserNodup hremInit haid (buildRegistry_regInv w)
    hmid rfl hH7 hfold
  obtain ⟨wsA, hw1A⟩ := runFold_world cfg fl (deviceSeq fl w)
    (buildRegistry w.models) w [] regF w1f wsf hfold
  have hcomp1 : w1f.computers
      = w.computers.map (fun dv => devApplyWrites dv wsA) := by
    rw [hw1A, applyWrites_computers]
  have hmob1 : w1f.mobiles
      = w.mobiles.map (fun dv => devApplyWrites dv wsA) := by
    rw [hw1A, applyWrites_mobiles]
  have hnoop : ∀ td ∈ deviceSeq fl w1f,
      processDevice cfg fl td.1 (buildRegistry w1f.models) w1f td.2
        = .ok (buildRegistry w1f.models, w1f, []) := by
    intro td htd
    obtain ⟨ty2, dv⟩ := td
    rcases deviceSeq_cases fl w1f (ty2, dv) htd with
      ⟨hty, hmem, hflm⟩ | ⟨hty, hmem, hflc⟩
    · dsimp only at hty hmem
      subst hty
      have hmem0 := hmem
      rw [hcomp1] at hmem
      obtain ⟨dv0, hdv0, hdveq⟩ := List.mem_map.mp hmem
      have htd0 : (DevClass.computers, dv0) ∈ deviceSeq fl w :=
        deviceSeq_mem_computers fl w dv0 hflm hdv0
      obtain ⟨s, d1, hsd0, hd1s, hd1m, hd1mn, hfate, hmpres⟩ := E1 _ htd0
      dsimp only at hsd0 hd1m hd1mn hmpres hfate
      unfold Fate at hfate
      obtain ⟨hfdev, hfasset⟩ := hfate
      have htdser : dv.serial_number = some s := by
        rw [← hdveq, devApplyWrites_serial]
        exact hsd0
      have hdvd1 : dv = d1 := by
        refine mem_of_filter_singleton _ w1f.computers d1 dv hfdev hmem0 ?_
        simp [htdser]
      have hdm0 : dv0.device_model ≠ "" := hdmAll _ htd0 rfl
      have hpres0 : ModelPresent w1f dv0.device_model := hmpres rfl
      have hni0 : NameInv dv0.device_model dv0.device_model_name w1f :=
        E5 _ htd0 rfl
      obtain ⟨hlook, hname⟩ := modelOk_of_present w1f dv0.device_model
        dv0.device_model_name hdm0 hpres0 hni0
      have hdvm : dv.device_model = dv0.device_model := by
        rw [← hdveq, devApplyWrites_model]
      have hdvmn : dv.device_model_name = dv0.device_model_name := by
        rw [← hdveq, devApplyWrites_model_name]
      have hstable2 : modelPhase cfg w1f (buildRegistry w1f.models) dv
          = (buildRegistry w1f.models, []) := by
        refine modelPhase_stable cfg w1f dv ?_ ?_
        · rw [hdvm]; exact hlook
        · rw [hdvmn]; exact hname
      show processDevice cfg fl DevClass.computers
        (buildRegistry w1f.models) w1f dv = _
      unfold processDevice
      rw [htdser]
      dsimp only
      rw [bindOk, hstable2]
      dsimp only
      rcases hfasset with hmulti | ⟨aF, haF, hstable⟩
      · rw [show lookupSerial (w1f.applyWrites []) s = .multiMatch from
          lookupSerial_multi w1f s hmulti]
        rfl
      · rw [show lookupSerial (w1f.applyWrites []) s = .single aF from
          lookupSerial_single w1f s aF haF]
        dsimp only
        rw [show (w1f.applyWrites []).users = w.users from E3]
        rw [← hdvd1] at hstable
        rw [hstable, bindOk]
        rfl
    · dsimp only at hty hmem
      subst hty
      have hmem0 := hmem
      rw [hmob1] at hmem
      obtain ⟨dv0, hdv0, hdveq⟩ := List.mem_map.mp hmem
      have htd0 : (DevClass.mobile_devices, dv0) ∈ deviceSeq fl w :=
        deviceSeq_mem_mobiles fl w dv0 hflc hdv0
      obtain ⟨s, d1, hsd0, hd1s, hd1m, hd1mn, hfate, hmpres⟩ := E1 _ htd0
      dsimp only at hsd0 hd1m hd1mn hmpres hfate
      unfold Fate at hfate
      obtain ⟨hfdev, hfasset⟩ := hfate
      have htdser : dv.serial_number = some s := by
        rw [← hdveq, devApplyWrites_serial]
        exact hsd0
      have hdvd1 : dv = d1 := by
        refine mem_of_filter_singleton _ w1f.mobiles d1 dv hfdev hmem0 ?_
        simp [htdser]
      show processDevice cfg fl DevClass.mobile_devices
        (buildRegistry w1f.models) w1f dv = _
      unfold processDevice
      rw [htdser]
      dsimp only
      rw [bindOk]
      rcases hfasset with hmulti | ⟨aF, haF, hstable⟩
      · rw [show lookupSerial (w1f.applyWrites []) s = .multiMatch from
          lookupSerial_multi w1f s hmulti]
        rfl
      · rw [show lookupSerial (w1f.applyWrites []) s = .single aF from
          lookupSerial_single w1f s aF haF]
        dsimp only
        rw [show (w1f.applyWrites []).users = w.users from E3]
        rw [← hdvd1] at hstable
        rw [hstable, bindOk]
        rfl
  unfold engineRun
  dsimp only
  rw [runFold_noop cfg fl (buildRegistry w1f.models) w1f (deviceSeq fl w1f)
    [] hnoop]
  rw [bindOk]

/-! ### Concrete two-run scenario satisfying the sanity hypotheses -/

def c1Config : Config :=
  { defaultStatus := "2", computer_model_category_id := "5",
    manufacturer_id := "9", computer_custom_fieldset_id := none,
    asset_tag_source := none,
    computers_api_mapping := [("name", "device_name")],
    mobile_devices_api_mapping := [],
    user_mapping_field := "device_name" }

def c1Flags : Flags := ⟨false, false, false, false, false⟩

def c1Computer : Device :=
  { serial_number := some "SN1", device_name := "Alice MBP",
    device_model := "MacBookPro17,1", device_model_name := "MacBook Pro",
    asset_tag := "TAG1", date_last_beat := "", extra := [] }

def c1Mobile : Device :=
  { serial_number := some "SN2", device_name := "Bob iPad",
    device_model := "iPad13,1", device_model_name := "iPad",
    asset_tag := "", date_last_beat := "", extra := [] }

def c1Asset : Asset :=
  { attrs := [("id", Val.vnum 10), ("asset_tag", Val.vstr "TAG1"),
      ("serial", Val.vstr "SN1"), ("name", Val.vstr "OldName"),
      ("assigned_to", Val.vnull), ("status_label", Val.vstatus "deployed"),
      ("updated_at", Val.vtime "t")],
    customs := [] }

def c1World : World :=
  { models := [⟨1, "MacBookPro17,1", "MacBook Pro"⟩,
      ⟨2, "iPad13,1", "iPad"⟩],
    assets := [c1Asset], users := [], statusMetas := [("2", "deployable")],
    computers := [c1Computer], mobiles := [c1Mobile],
    nextModelId := 3, nextAssetId := 11 }

/-- The post-first-run state: the computer asset renamed, the mobile
asset created (id 11, transformed tag), the mobile device tag
back-synced. -/
def c1World1 : World :=
  { models := [⟨1, "MacBookPro17,1", "MacBook Pro"⟩,
      ⟨2, "iPad13,1", "iPad"⟩],
    assets := [
      { attrs := [("id", Val.vnum 10), ("asset_tag", Val.vstr "TAG1"),
          ("serial", Val.vstr "SN1"), ("name", Val.vstr "Alice MBP"),
          ("assigned_to", Val.vnull),
          ("status_label", Val.vstatus "deployed"),
          ("updated_at", Val.vtime "t")], customs := [] },
      { attrs := [("id", Val.vnum 11), ("asset_tag", Val.vstr "SN-m2"),
          ("serial", Val.vstr "SN2"), ("name", Val.vstr "Bob iPad"),
          ("assigned_to", Val.vnull),
          ("status_label", Val.vstatus "deployable"),
          ("updated_at", Val.vtime "")], customs := [] }],
    users := [], statusMetas := [("2", "deployable")],
    computers := [c1Computer],
    mobiles := [{ c1Mobile with asset_tag := "SN-m2" }],
    nextModelId := 3, nextAssetId := 12 }

def c1Writes1 : List Write :=
  [Write.updateAsset (Val.vnum 10) [("name", "Alice MBP")],
   Write.createAsset "SN-m2" 2 "Bob iPad" "2" "SN2",
   Write.updateDevice "SN2" "SN-m2"]

/-- Witness for the amended C1 theorem: on a concrete populated state the
first run issues three writes (a field update, an asset creation, and an
asset-tag back-sync) and the second run, by the theorem, leaves the world
unchanged with zero writes. -/
theorem engineRun_idempotent_witness :
    engineRun c1Config c1Flags c1World = .ok (c1World1, c1Writes1) ∧
    c1Writes1 ≠ [] ∧
    engineRun c1Config c1Flags c1World1 = .ok (c1World1, []) :=
  ⟨rfl, by decide,
    engineRun_idempotent c1Config c1Flags c1World c1World1 c1Writes1
      (by intro t; cases t <;> decide)
      (by intro t; cases t <;> decide)
      (by decide)
      (by decide)
      (by decide)
      (by decide)
      (by decide)
      (by
        refine ⟨by decide, fun a ha n hn => ?_⟩
        have haa : a = c1Asset := by simpa [c1World] using ha
        rw [haa, show getAttr c1Asset "id" = some (Val.vnum 10) from rfl]
          at hn
        have h10 : (10 : Nat) = n := Val.vnum.inj (Option.some.inj hn)
        show n < 11
        omega)
      (by exact ⟨by decide, by decide⟩)
      rfl⟩

end Mosyle2Snipe
